import Mathlib

/-!
Vulkan-Ride: texture upload, mip generation and device selection.

A shallow embedding of the GPU resource layer of the renderer
(`core/scene/texture.cpp`, `render/vulkan/vulkan_image.cpp`,
`render/vulkan/vulkan_device.cpp`, `main.cpp`).

Conventions of the embedding:

* `uint32_t` values are `Nat`s; where the source computes in 32-bit unsigned
  arithmetic the model reduces modulo `2 ^ 32` explicitly.
* Vulkan handles are `Nat`s, the null handle being `0`.
* Every call into the driver or the windowing layer is an event of an explicit
  trace; the answers the driver gives are fields of an environment record.
* Vulkan enumerations are inductive types holding the enumerators the source
  uses; flag masks are lists of flag bits.
* Where the source is undefined (an access outside an array, a conversion of
  an infinite value) the embedded function yields `none`.
* `float` values are rationals; a conversion from `double` rounds to the
  nearest `float`.
-/

namespace ez

/-! ## Machine integers -/

/-- The number of values of a `uint32_t`. -/
def UINT32_SIZE : Nat := 2 ^ 32

/-- Wrap a natural number to `uint32_t`. -/
def toU32 (n : Nat) : Nat := n % UINT32_SIZE

/-! ## `TextureCreationInfo` (texture.cpp, lines 10-43) -/

/-- Sampler parameters carried through texture creation; the source copies
them and hands them to the sampler create info unchanged. -/
structure TextureSampler where
  magFilter : Nat
  minFilter : Nat
  addressModeU : Nat
  addressModeV : Nat
  addressModeW : Nat
deriving DecidableEq, Repr, Inhabited

/-- CPU-side description of a texture. -/
structure TextureCreationInfo where
  bufferSize : Nat
  buffer : List Nat
  width : Nat
  height : Nat
  mipLevels : Nat
  textureSampler : TextureSampler
deriving DecidableEq, Repr, Inhabited

/-- One pass of the inner loop of `CreateFromData` (texture.cpp:25):
`copyTo[j] = copyFrom[j]` for `j = 0 .. channelsCount-1`, where `copyTo`
points at byte `dst` of the buffer and `copyFrom` at byte `src` of the input.
A load past the end of the input or a store past the end of the buffer is
undefined in the source, which is `none` here. -/
def copyChannels (data : List Nat) (src dst : Nat) :
    (channelsCount : Nat) → (j : Nat) → List Nat → Option (List Nat)
  | 0, _, buf => some buf
  | c + 1, j, buf =>
      match data[src + j]? with
      | none => none
      | some byte =>
          if dst + j < buf.length then
            copyChannels data src dst c (j + 1) (buf.set (dst + j) byte)
          else none

/-- The outer loop of `CreateFromData` (texture.cpp:23-28), `pixels`
iterations starting at pixel `i`: after each pixel `copyTo += 4` and
`copyFrom += channelsCount`. The result is `none` as soon as a pixel's copy is
undefined or one of the two pointers is moved further than one past the end of
its array, which the source leaves undefined as well. -/
def copyPixels (data : List Nat) (channelsCount : Nat) :
    (pixels : Nat) → (i : Nat) → List Nat → Option (List Nat)
  | 0, _, buf => some buf
  | p + 1, i, buf =>
      match copyChannels data (channelsCount * i) (4 * i) channelsCount 0 buf with
      | none => none
      | some buf1 =>
          if 4 * (i + 1) ≤ buf1.length ∧ channelsCount * (i + 1) ≤ data.length then
            copyPixels data channelsCount p (i + 1) buf1
          else none

/-- The expression of texture.cpp:32-33,
`static_cast<uint32_t>(std::floor(std::log2(std::max(width, height))) + 1.0)`.
The argument of `std::log2` is a 32-bit unsigned integer converted exactly to
`double`; for `m >= 1` the floor of the binary logarithm is `Nat.log 2 m`. For
`m = 0` the logarithm is minus infinity and its conversion to `uint32_t` is
undefined, which is `none` here. -/
def mipLevelsFor (width height : Nat) : Option Nat :=
  let m := max width height
  if m = 0 then none else some (toU32 (Nat.log 2 m + 1))

/-- `TextureCreationInfo::CreateFromData` (texture.cpp:10-38). `bufferSize`
is the 32-bit product `width * height * 4` widened afterwards, the buffer is
`resize`d to that many zero bytes and then filled pixel by pixel, the loop
bound being the 32-bit product `width * height`. The result is `none` where
the source is undefined: when the copy loop leaves the input or the buffer,
and when `mipLevels` is. -/
def TextureCreationInfo.CreateFromData (data : List Nat) (width height channelsCount : Nat)
    (textureSampler : TextureSampler) : Option TextureCreationInfo :=
  let bufferSize := toU32 (width * height * 4)
  match copyPixels data channelsCount (toU32 (width * height)) 0
      (List.replicate bufferSize 0) with
  | none => none
  | some buffer =>
      match mipLevelsFor width height with
      | none => none
      | some mipLevels =>
          some { bufferSize := bufferSize, buffer := buffer, width := width, height := height,
                 mipLevels := mipLevels, textureSampler := textureSampler }

/-- `TextureCreationInfo::IsValid` (texture.cpp:40-43). -/
def TextureCreationInfo.IsValid (ci : TextureCreationInfo) : Bool :=
  decide (ci.width > 0) && decide (ci.height > 0) && decide (ci.bufferSize > 0)
    && !ci.buffer.isEmpty

/-! ## Vulkan enumerations and command records -/

inductive ImageLayout where
  | eUndefined
  | eTransferDstOptimal
  | eTransferSrcOptimal
  | eShaderReadOnlyOptimal
deriving DecidableEq, Repr, Inhabited

inductive PipelineStageFlagBits where
  | eTransfer
  | eAllCommands
deriving DecidableEq, Repr, Inhabited

inductive AccessFlagBits where
  | eTransferWrite
  | eTransferRead
deriving DecidableEq, Repr, Inhabited

inductive ImageAspectFlagBits where
  | eColor
deriving DecidableEq, Repr, Inhabited

inductive Filter where
  | eLinear
deriving DecidableEq, Repr, Inhabited

inductive Format where
  | eR8G8B8A8Unorm
  | eR32G32Sfloat
  | eR32G32B32Sfloat
deriving DecidableEq, Repr, Inhabited

inductive ImageUsageFlagBits where
  | eTransferDst
  | eTransferSrc
  | eSampled
deriving DecidableEq, Repr, Inhabited

inductive BufferUsageFlagBits where
  | eTransferSrc
  | eTransferDst
  | eVertexBuffer
  | eIndexBuffer
  | eUniformBuffer
deriving DecidableEq, Repr, Inhabited

inductive MemoryPropertyFlagBits where
  | eDeviceLocal
  | eHostVisible
  | eHostCoherent
deriving DecidableEq, Repr, Inhabited

inductive ImageViewType where
  | e2D
deriving DecidableEq, Repr, Inhabited

/-- `vk::ImageSubresourceRange`; a value-initialised range is all zero. -/
structure ImageSubresourceRange where
  aspectMask : List ImageAspectFlagBits := []
  baseMipLevel : Nat := 0
  levelCount : Nat := 0
  baseArrayLayer : Nat := 0
  layerCount : Nat := 0
deriving DecidableEq, Repr, Inhabited

/-- `vk::ImageMemoryBarrier`. -/
structure ImageMemoryBarrier where
  srcAccessMask : List AccessFlagBits := []
  dstAccessMask : List AccessFlagBits := []
  oldLayout : ImageLayout := ImageLayout.eUndefined
  newLayout : ImageLayout := ImageLayout.eUndefined
  srcQueueFamilyIndex : Nat := 0
  dstQueueFamilyIndex : Nat := 0
  image : Nat := 0
  subresourceRange : ImageSubresourceRange := {}
deriving DecidableEq, Repr, Inhabited

structure Offset3D where
  x : Int := 0
  y : Int := 0
  z : Int := 0
deriving DecidableEq, Repr, Inhabited

structure ImageSubresourceLayers where
  aspectMask : List ImageAspectFlagBits := []
  mipLevel : Nat := 0
  baseArrayLayer : Nat := 0
  layerCount : Nat := 0
deriving DecidableEq, Repr, Inhabited

/-- `vk::ImageBlit`: each of `srcOffsets` and `dstOffsets` is a pair of
corners. -/
structure ImageBlit where
  srcSubresource : ImageSubresourceLayers := {}
  srcOffsets : Offset3D × Offset3D := ({}, {})
  dstSubresource : ImageSubresourceLayers := {}
  dstOffsets : Offset3D × Offset3D := ({}, {})
deriving DecidableEq, Repr, Inhabited

structure Extent3D where
  width : Nat := 0
  height : Nat := 0
  depth : Nat := 0
deriving DecidableEq, Repr, Inhabited

/-- `vk::BufferImageCopy`. -/
structure BufferImageCopy where
  bufferOffset : Nat := 0
  bufferRowLength : Nat := 0
  bufferImageHeight : Nat := 0
  imageSubresource : ImageSubresourceLayers := {}
  imageOffset : Offset3D := {}
  imageExtent : Extent3D := {}
deriving DecidableEq, Repr, Inhabited

/-- The commands the source records into a command buffer. `pipelineBarrier`
is always called with empty dependency flags, no memory or buffer barriers and
exactly one image barrier, so only the stage masks and that barrier are kept. -/
inductive Cmd where
  | pipelineBarrier (srcStageMask dstStageMask : List PipelineStageFlagBits)
      (barrier : ImageMemoryBarrier)
  | blitImage (srcImage : Nat) (srcLayout : ImageLayout) (dstImage : Nat)
      (dstLayout : ImageLayout) (region : ImageBlit) (filter : Filter)
  | copyBufferToImage (srcBuffer dstImage : Nat) (dstLayout : ImageLayout)
      (region : BufferImageCopy)
deriving DecidableEq, Repr, Inhabited

/-- The conversion `int32_t(x)` of a 32-bit unsigned value. -/
def toI32 (n : Nat) : Int :=
  if toU32 n < 2 ^ 31 then (toU32 n : Int) else (toU32 n : Int) - 2 ^ 32

/-- The expression `x >> k` on a `uint32_t`. The source defines it for `k < 32`
only; for larger `k` the value here is a placeholder, and every statement about
the value of a shift bounds its count below 32. -/
def shr32 (x k : Nat) : Nat := toU32 x >>> k

/-! ## `ez::Image` (vulkan_image.cpp) -/

namespace Image

/-- `SubmitChangeImageLayout` (vulkan_image.cpp:195-217): builds one image
barrier, both queue family indices value-initialised, and records one
`pipelineBarrier` holding it; `cb` is the list of commands recorded so far. -/
def SubmitChangeImageLayout (cb : List Cmd)
    (srcBarrierStageMask dstBarrierStageMask : List PipelineStageFlagBits)
    (image : Nat) (subresourceRange : ImageSubresourceRange)
    (srcLayout dstLayout : ImageLayout) (srcMask dstMask : List AccessFlagBits) : List Cmd :=
  let imageMemoryBarrier : ImageMemoryBarrier :=
    { srcAccessMask := srcMask, dstAccessMask := dstMask, oldLayout := srcLayout,
      newLayout := dstLayout, srcQueueFamilyIndex := 0, dstQueueFamilyIndex := 0,
      image := image, subresourceRange := subresourceRange }
  cb ++ [Cmd.pipelineBarrier srcBarrierStageMask dstBarrierStageMask imageMemoryBarrier]

/-- The `vk::ImageBlit` both mip loops build for level `i`
(vulkan_image.cpp:128-141, texture.cpp:219-232). -/
def mipBlit (width height i : Nat) : ImageBlit :=
  { srcSubresource :=
      { aspectMask := [ImageAspectFlagBits.eColor], layerCount := 1, mipLevel := i - 1 },
    srcOffsets := ({}, { x := toI32 (shr32 width (i - 1)), y := toI32 (shr32 height (i - 1)),
                         z := 1 }),
    dstSubresource :=
      { aspectMask := [ImageAspectFlagBits.eColor], layerCount := 1, mipLevel := i },
    dstOffsets := ({}, { x := toI32 (shr32 width i), y := toI32 (shr32 height i), z := 1 }) }

/-- The range `mipSubRange` of level `i` (vulkan_image.cpp:143-147,
texture.cpp:234-238). -/
def mipSubRange (i : Nat) : ImageSubresourceRange :=
  { aspectMask := [ImageAspectFlagBits.eColor], baseMipLevel := i, levelCount := 1,
    layerCount := 1 }

/-- The loop `for (uint32_t i = 1; i < mipLevels; i++)` of
`GenerateMipsForImage` (vulkan_image.cpp:126-176), entered at counter `i`
with `cb` recorded so far. -/
def GenerateMipsForImage.loop (image width height mipLevels : Nat) (i : Nat)
    (cb : List Cmd) : List Cmd :=
  if i < mipLevels then
    let imageBlit := mipBlit width height i
    let mipSubRange := mipSubRange i
    let cb := SubmitChangeImageLayout cb [PipelineStageFlagBits.eTransfer]
      [PipelineStageFlagBits.eTransfer] image mipSubRange ImageLayout.eUndefined
      ImageLayout.eTransferDstOptimal [] [AccessFlagBits.eTransferWrite]
    let cb := cb ++ [Cmd.blitImage image ImageLayout.eTransferSrcOptimal image
      ImageLayout.eTransferDstOptimal imageBlit Filter.eLinear]
    let cb := SubmitChangeImageLayout cb [PipelineStageFlagBits.eTransfer]
      [PipelineStageFlagBits.eTransfer] image mipSubRange ImageLayout.eTransferDstOptimal
      ImageLayout.eTransferSrcOptimal [AccessFlagBits.eTransferWrite]
      [AccessFlagBits.eTransferRead]
    GenerateMipsForImage.loop image width height mipLevels (i + 1) cb
  else cb
termination_by mipLevels - i

/-- Calls a one-time command buffer receives: `VulkanOneTimeCommandBuffer`
is declared outside the embedded files, so `Start` and `EndSubmitAndWait` are
events carrying their arguments. -/
inductive OneTimeCall where
  | Start (logicalDevice commandPool : Nat)
  | record (c : Cmd)
  | EndSubmitAndWait (queue : Nat)
deriving DecidableEq, Repr, Inhabited

/-- The commands `GenerateMipsForImage` records between `Start` and
`EndSubmitAndWait` (vulkan_image.cpp:118-188). -/
def GenerateMipsForImage.commands (image width height mipLevels : Nat) : List Cmd :=
  let subresourceRange : ImageSubresourceRange :=
    { aspectMask := [ImageAspectFlagBits.eColor], levelCount := 1, layerCount := 1 }
  let cb := GenerateMipsForImage.loop image width height mipLevels 1 []
  let subresourceRange := { subresourceRange with levelCount := mipLevels }
  SubmitChangeImageLayout cb [PipelineStageFlagBits.eAllCommands]
    [PipelineStageFlagBits.eAllCommands] image subresourceRange
    ImageLayout.eTransferSrcOptimal ImageLayout.eShaderReadOnlyOptimal
    [AccessFlagBits.eTransferWrite] [AccessFlagBits.eTransferRead]

/-- `GenerateMipsForImage` (vulkan_image.cpp:110-193): the returned flag and
the calls made on the one-time command buffer, in order. -/
def GenerateMipsForImage (logicalDevice graphicsQueue graphicsCommandPool image
    width height mipLevels : Nat) : Bool × List OneTimeCall :=
  (true,
   [OneTimeCall.Start logicalDevice graphicsCommandPool]
     ++ (GenerateMipsForImage.commands image width height mipLevels).map OneTimeCall.record
     ++ [OneTimeCall.EndSubmitAndWait graphicsQueue])

end Image

/-! ## Result values -/

/-- Modelled from the spec: `render/graphics_result.hpp` is not among the
embedded files. Construction results are "explicit result values"; the source
uses the enumerators `Ok` and `Error`. -/
inductive GraphicsResult where
  | Ok
  | Error
deriving DecidableEq, Repr, Inhabited

/-- Modelled from the spec: `ResultValue<T>` of `render/graphics_result.hpp`,
a result code paired with a value, as the source reads it through `.result`
and `.value` and builds it with `{ result, value }`. -/
structure ResultValue (α : Type) where
  result : GraphicsResult
  value : α
deriving Repr

/-- Modelled from the spec: the converting constructor of `ResultValue<T>`
that statements such as `return GraphicsResult::Error;` and
`return deviceRV.result;` go through: the code is stored and the value is
value-initialised. -/
def ResultValue.ofResult {α : Type} [Inhabited α] (r : GraphicsResult) : ResultValue α :=
  { result := r, value := default }

/-! ## Driver calls made while loading a texture -/

/-- `vk::ImageCreateInfo` as `CreateImage2D` fills it. -/
structure ImageCreateInfo where
  format : Format
  mipLevels : Nat
  arrayLayers : Nat
  flags : List Nat
  samples : Nat
  usage : List ImageUsageFlagBits
  initialLayout : ImageLayout
  extent : Extent3D
deriving DecidableEq, Repr, Inhabited

/-- `vk::ImageViewCreateInfo` as `CreateImageView` fills it. -/
structure ImageViewCreateInfo where
  image : Nat
  viewType : ImageViewType
  format : Format
  subresourceRange : ImageSubresourceRange
deriving DecidableEq, Repr, Inhabited

/-- `vk::SamplerCreateInfo` as `LoadToGpu` fills it; `maxLod` and
`maxAnisotropy` hold the integers the source converts to `float`. -/
structure SamplerCreateInfo where
  magFilter : Nat
  minFilter : Nat
  addressModeU : Nat
  addressModeV : Nat
  addressModeW : Nat
  maxLod : Nat
  maxAnisotropy : Nat
  anisotropyEnable : Bool
deriving DecidableEq, Repr, Inhabited

structure MemoryRequirements where
  size : Nat := 0
  memoryTypeBits : Nat := 0
deriving DecidableEq, Repr, Inhabited

/-- Calls on the logical device, the physical device, a command buffer or a
queue, in the order the source makes them. -/
inductive DeviceCall where
  | getFormatProperties (format : Format)
  | createBuffer (size : Nat) (usage : List BufferUsageFlagBits)
  | getBufferMemoryRequirements (buffer : Nat)
  | FindMemoryType (typeBits : Nat) (properties : List MemoryPropertyFlagBits)
  | allocateMemory (allocationSize memoryTypeIndex : Nat)
  | bindBufferMemory (buffer memory offset : Nat)
  | mapMemory (memory offset size : Nat)
  | memcpy (bytes : List Nat) (size : Nat)
  | unmapMemory (memory : Nat)
  | createImage (info : ImageCreateInfo)
  | getImageMemoryRequirements (image : Nat)
  | bindImageMemory (image memory offset : Nat)
  | allocateCommandBuffers (commandPool count : Nat)
  | beginCommandBuffer (cb : Nat)
  | cmd (cb : Nat) (c : Cmd)
  | endCommandBuffer (cb : Nat)
  | submit (queue cb : Nat)
  | waitIdle (queue : Nat)
  | freeCommandBuffers (commandPool cb : Nat)
  | destroyBuffer (buffer : Nat)
  | freeMemory (memory : Nat)
  | createSampler (info : SamplerCreateInfo)
  | createImageView (info : ImageViewCreateInfo)
  | destroyImageView (view : Nat)
  | destroyImage (image : Nat)
  | destroySampler (sampler : Nat)
deriving DecidableEq, Repr, Inhabited

/-- What the driver answers during one `LoadToGpu`. Calls the source wraps in
`CheckVkResult` are taken to succeed and only contribute the handle they
produce; `createImage` and `createImageView`, whose result the source tests,
answer `none` when the result is not `eSuccess`. `FindMemoryType` is
`VulkanBuffer::FindMemoryType`, defined outside the embedded files, applied to
the physical device. -/
structure Driver where
  stagingBuffer : Nat
  bufferMemReqs : MemoryRequirements
  FindMemoryType : Nat → List MemoryPropertyFlagBits → Nat
  stagingMemory : Nat
  createImage : ImageCreateInfo → Option Nat
  imageMemReqs : MemoryRequirements
  deviceMemory : Nat
  copyCmd : Nat
  blitCmd : Nat
  sampler : Nat
  createImageView : ImageViewCreateInfo → Option Nat

namespace Image

/-- `CreateImage2D` (vulkan_image.cpp:9-41): the create info it builds, the
driver call, and `Error` when the call does not succeed. -/
def CreateImage2D (drv : Driver) (format : Format) (usage : List ImageUsageFlagBits)
    (mipLevels width height layersCount : Nat) (imageCreateFlags : List Nat)
    (samplesCount : Nat) : ResultValue Nat × List DeviceCall :=
  let imageCreateInfo : ImageCreateInfo :=
    { format := format, mipLevels := mipLevels, arrayLayers := layersCount,
      flags := imageCreateFlags, samples := samplesCount, usage := usage,
      initialLayout := ImageLayout.eUndefined,
      extent := { width := width, height := height, depth := 1 } }
  match drv.createImage imageCreateInfo with
  | none => (ResultValue.ofResult GraphicsResult.Error, [DeviceCall.createImage imageCreateInfo])
  | some image =>
      ({ result := GraphicsResult.Ok, value := image }, [DeviceCall.createImage imageCreateInfo])

/-- `CreateImageView` (vulkan_image.cpp:80-108). -/
def CreateImageView (drv : Driver) (imageViewType : ImageViewType) (image : Nat)
    (format : Format) (aspectMask : ImageAspectFlagBits) (layersCount mipLevelsCount : Nat) :
    ResultValue Nat × List DeviceCall :=
  let createInfo : ImageViewCreateInfo :=
    { image := image, viewType := imageViewType, format := format,
      subresourceRange :=
        { aspectMask := [aspectMask], baseMipLevel := 0, levelCount := mipLevelsCount,
          baseArrayLayer := 0, layerCount := layersCount } }
  match drv.createImageView createInfo with
  | none => (ResultValue.ofResult GraphicsResult.Error, [DeviceCall.createImageView createInfo])
  | some imageView =>
      ({ result := GraphicsResult.Ok, value := imageView },
       [DeviceCall.createImageView createInfo])

/-- Modelled from the spec: `CreateImageView2D` is declared in
vulkan_image.hpp:14-18 and its body is not among the embedded files; the
"paired view" of a 2D image is `CreateImageView` with a 2D view type and one
layer. -/
def CreateImageView2D (drv : Driver) (image : Nat) (format : Format)
    (aspectMask : ImageAspectFlagBits) (mipLevelsCount : Nat) :
    ResultValue Nat × List DeviceCall :=
  CreateImageView drv ImageViewType.e2D image format aspectMask 1 mipLevelsCount

end Image

/-! ## `Texture` (texture.cpp, lines 45-357) -/

/-- `vk::DescriptorImageInfo`. -/
structure DescriptorImageInfo where
  sampler : Nat := 0
  imageView : Nat := 0
  imageLayout : ImageLayout := ImageLayout.eUndefined
deriving DecidableEq, Repr, Inhabited

/-- The members of `Texture` that texture.cpp reads or writes. -/
structure Texture where
  creationInfo : TextureCreationInfo
  loadedToGpu : Bool := false
  width : Nat := 0
  height : Nat := 0
  mipLevels : Nat := 0
  logicalDevice : Nat := 0
  image : Nat := 0
  deviceMemory : Nat := 0
  imageView : Nat := 0
  sampler : Nat := 0
  imageLayout : ImageLayout := ImageLayout.eUndefined
  descriptor : DescriptorImageInfo := {}
deriving DecidableEq, Repr, Inhabited

namespace Texture

/-- The commands `LoadToGpu` records into `copyCmd` (texture.cpp:142-195):
level 0 to transfer destination, the buffer copy, level 0 to transfer source. -/
def LoadToGpu.uploadCommands (image stagingBuffer width height : Nat) : List Cmd :=
  let subresourceRange : ImageSubresourceRange :=
    { aspectMask := [ImageAspectFlagBits.eColor], levelCount := 1, layerCount := 1 }
  let barrier1 : ImageMemoryBarrier :=
    { oldLayout := ImageLayout.eUndefined, newLayout := ImageLayout.eTransferDstOptimal,
      srcAccessMask := [], dstAccessMask := [AccessFlagBits.eTransferWrite],
      image := image, subresourceRange := subresourceRange }
  let bufferCopyRegion : BufferImageCopy :=
    { imageSubresource :=
        { aspectMask := [ImageAspectFlagBits.eColor], mipLevel := 0, baseArrayLayer := 0,
          layerCount := 1 },
      imageExtent := { width := width, height := height, depth := 1 } }
  let barrier2 : ImageMemoryBarrier :=
    { oldLayout := ImageLayout.eTransferDstOptimal,
      newLayout := ImageLayout.eTransferSrcOptimal,
      srcAccessMask := [AccessFlagBits.eTransferWrite],
      dstAccessMask := [AccessFlagBits.eTransferRead],
      image := image, subresourceRange := subresourceRange }
  [ Cmd.pipelineBarrier [PipelineStageFlagBits.eAllCommands]
      [PipelineStageFlagBits.eAllCommands] barrier1,
    Cmd.copyBufferToImage stagingBuffer image ImageLayout.eTransferDstOptimal bufferCopyRegion,
    Cmd.pipelineBarrier [PipelineStageFlagBits.eAllCommands]
      [PipelineStageFlagBits.eAllCommands] barrier2 ]

/-- The loop `for (uint32_t i = 1; i < mipLevels; i++)` of `LoadToGpu`
(texture.cpp:217-285), entered at counter `i` with `cb` recorded so far. -/
def LoadToGpu.mipLoop (image width height mipLevels : Nat) (i : Nat) (cb : List Cmd) :
    List Cmd :=
  if i < mipLevels then
    let imageBlit := Image.mipBlit width height i
    let mipSubRange := Image.mipSubRange i
    let barrier1 : ImageMemoryBarrier :=
      { oldLayout := ImageLayout.eUndefined, newLayout := ImageLayout.eTransferDstOptimal,
        srcAccessMask := [], dstAccessMask := [AccessFlagBits.eTransferWrite],
        image := image, subresourceRange := mipSubRange }
    let cb := cb ++ [Cmd.pipelineBarrier [PipelineStageFlagBits.eTransfer]
      [PipelineStageFlagBits.eTransfer] barrier1]
    let cb := cb ++ [Cmd.blitImage image ImageLayout.eTransferSrcOptimal image
      ImageLayout.eTransferDstOptimal imageBlit Filter.eLinear]
    let barrier2 : ImageMemoryBarrier :=
      { oldLayout := ImageLayout.eTransferDstOptimal,
        newLayout := ImageLayout.eTransferSrcOptimal,
        srcAccessMask := [AccessFlagBits.eTransferWrite],
        dstAccessMask := [AccessFlagBits.eTransferRead],
        image := image, subresourceRange := mipSubRange }
    let cb := cb ++ [Cmd.pipelineBarrier [PipelineStageFlagBits.eTransfer]
      [PipelineStageFlagBits.eTransfer] barrier2]
    LoadToGpu.mipLoop image width height mipLevels (i + 1) cb
  else cb
termination_by mipLevels - i

/-- The commands `LoadToGpu` records into `blitCmd` (texture.cpp:217-307):
the mip loop, then one barrier over `mipLevels` levels from base level 0. -/
def LoadToGpu.mipCommands (image width height mipLevels : Nat) : List Cmd :=
  let cb := LoadToGpu.mipLoop image width height mipLevels 1 []
  let subresourceRange : ImageSubresourceRange :=
    { aspectMask := [ImageAspectFlagBits.eColor], levelCount := mipLevels, layerCount := 1 }
  let barrier : ImageMemoryBarrier :=
    { oldLayout := ImageLayout.eTransferSrcOptimal,
      newLayout := ImageLayout.eShaderReadOnlyOptimal,
      srcAccessMask := [AccessFlagBits.eTransferWrite],
      dstAccessMask := [AccessFlagBits.eTransferRead],
      image := image, subresourceRange := subresourceRange }
  cb ++ [Cmd.pipelineBarrier [PipelineStageFlagBits.eAllCommands]
    [PipelineStageFlagBits.eAllCommands] barrier]

end Texture

namespace Texture

/-- The staging part of `LoadToGpu` (texture.cpp:68-107): format query,
staging buffer, its host-visible memory, and the copy of the pixels into it. -/
def LoadToGpu.stagingCalls (ci : TextureCreationInfo) (drv : Driver) : List DeviceCall :=
  let memReqs : MemoryRequirements := drv.bufferMemReqs
  let hostProps : List MemoryPropertyFlagBits :=
    [MemoryPropertyFlagBits.eHostVisible, MemoryPropertyFlagBits.eHostCoherent]
  let memoryTypeIndex : Nat := drv.FindMemoryType memReqs.memoryTypeBits hostProps
  [ DeviceCall.getFormatProperties Format.eR8G8B8A8Unorm,
    DeviceCall.createBuffer ci.bufferSize [BufferUsageFlagBits.eTransferSrc],
    DeviceCall.getBufferMemoryRequirements drv.stagingBuffer,
    DeviceCall.FindMemoryType memReqs.memoryTypeBits hostProps,
    DeviceCall.allocateMemory memReqs.size memoryTypeIndex,
    DeviceCall.bindBufferMemory drv.stagingBuffer drv.stagingMemory 0,
    DeviceCall.mapMemory drv.stagingMemory 0 memReqs.size,
    DeviceCall.memcpy ci.buffer ci.bufferSize,
    DeviceCall.unmapMemory drv.stagingMemory ]

/-- The upload part of `LoadToGpu` (texture.cpp:122-208): device-local memory
for the image, then the `copyCmd` command buffer from allocation to release,
and the release of the staging buffer. -/
def LoadToGpu.uploadCalls (drv : Driver) (image width height graphicsQueue
    graphicsCommandPool : Nat) : List DeviceCall :=
  let memReqs : MemoryRequirements := drv.imageMemReqs
  let imageLocalMemoryTypeIndex : Nat :=
    drv.FindMemoryType memReqs.memoryTypeBits [MemoryPropertyFlagBits.eDeviceLocal]
  [ DeviceCall.getImageMemoryRequirements image,
    DeviceCall.FindMemoryType memReqs.memoryTypeBits [MemoryPropertyFlagBits.eDeviceLocal],
    DeviceCall.allocateMemory memReqs.size imageLocalMemoryTypeIndex,
    DeviceCall.bindImageMemory image drv.deviceMemory 0,
    DeviceCall.allocateCommandBuffers graphicsCommandPool 1,
    DeviceCall.beginCommandBuffer drv.copyCmd ]
  ++ (LoadToGpu.uploadCommands image drv.stagingBuffer width height).map
      (DeviceCall.cmd drv.copyCmd)
  ++ [ DeviceCall.endCommandBuffer drv.copyCmd,
       DeviceCall.submit graphicsQueue drv.copyCmd,
       DeviceCall.waitIdle graphicsQueue,
       DeviceCall.freeCommandBuffers graphicsCommandPool drv.copyCmd,
       DeviceCall.destroyBuffer drv.stagingBuffer,
       DeviceCall.freeMemory drv.stagingMemory ]

/-- The mip part of `LoadToGpu` (texture.cpp:213-318): the `blitCmd` command
buffer from allocation to release. -/
def LoadToGpu.mipCalls (drv : Driver) (image width height mipLevels graphicsQueue
    graphicsCommandPool : Nat) : List DeviceCall :=
  [ DeviceCall.allocateCommandBuffers graphicsCommandPool 1,
    DeviceCall.beginCommandBuffer drv.blitCmd ]
  ++ (LoadToGpu.mipCommands image width height mipLevels).map (DeviceCall.cmd drv.blitCmd)
  ++ [ DeviceCall.endCommandBuffer drv.blitCmd,
       DeviceCall.submit graphicsQueue drv.blitCmd,
       DeviceCall.waitIdle graphicsQueue,
       DeviceCall.freeCommandBuffers graphicsCommandPool drv.blitCmd ]

/-- The sampler create info of `LoadToGpu` (texture.cpp:320-331). -/
def LoadToGpu.samplerInfo (ci : TextureCreationInfo) (mipLevels : Nat) : SamplerCreateInfo :=
  { magFilter := ci.textureSampler.magFilter,
    minFilter := ci.textureSampler.minFilter,
    addressModeU := ci.textureSampler.addressModeU,
    addressModeV := ci.textureSampler.addressModeV,
    addressModeW := ci.textureSampler.addressModeW,
    maxLod := mipLevels, maxAnisotropy := 8, anisotropyEnable := true }

/-- The members of the texture after the image was created and everything up
to the sampler has run (texture.cpp:120-332). -/
def LoadToGpu.afterSampler (t : Texture) (drv : Driver) (image : Nat) : Texture :=
  { t with image := image, deviceMemory := drv.deviceMemory,
           imageLayout := ImageLayout.eShaderReadOnlyOptimal, sampler := drv.sampler }

/-- The tail of `LoadToGpu` once the image exists (texture.cpp:120-343). -/
def LoadToGpu.withImage (t : Texture) (drv : Driver) (image graphicsQueue
    graphicsCommandPool : Nat) (trace : List DeviceCall) : Bool × Texture × List DeviceCall :=
  let t1 : Texture := LoadToGpu.afterSampler t drv image
  let imageViewRV : ResultValue Nat × List DeviceCall :=
    Image.CreateImageView2D drv t1.image Format.eR8G8B8A8Unorm ImageAspectFlagBits.eColor
      t1.mipLevels
  let trace1 : List DeviceCall :=
    trace ++ LoadToGpu.uploadCalls drv t1.image t1.width t1.height graphicsQueue
        graphicsCommandPool
      ++ LoadToGpu.mipCalls drv t1.image t1.width t1.height t1.mipLevels graphicsQueue
        graphicsCommandPool
      ++ [DeviceCall.createSampler (LoadToGpu.samplerInfo t1.creationInfo t1.mipLevels)]
      ++ imageViewRV.2
  if imageViewRV.1.result ≠ GraphicsResult.Ok then (false, t1, trace1)
  else
    let t2 : Texture :=
      { t1 with descriptor := { sampler := t1.sampler, imageView := imageViewRV.1.value,
                                imageLayout := t1.imageLayout } }
    (true, { t2 with loadedToGpu := true }, trace1)

/-- `Texture::LoadToGpu` (texture.cpp:45-344): the returned flag, the texture
afterwards, and the driver calls in order. `EZASSERT` only logs and makes no
driver call, so it leaves no event. The six-argument call of `CreateImage2D`
is the nine-parameter function of vulkan_image.cpp with one layer, no create
flags and one sample. -/
def LoadToGpu (t : Texture) (drv : Driver)
    (aLogicalDevice graphicsQueue graphicsCommandPool : Nat) :
    Bool × Texture × List DeviceCall :=
  if t.loadedToGpu then (true, t, [])
  else if !t.creationInfo.IsValid then (false, t, [])
  else
    let t1 : Texture :=
      { t with width := t.creationInfo.width, height := t.creationInfo.height,
               mipLevels := t.creationInfo.mipLevels, logicalDevice := aLogicalDevice }
    let imageRV : ResultValue Nat × List DeviceCall :=
      Image.CreateImage2D drv Format.eR8G8B8A8Unorm
        [ImageUsageFlagBits.eTransferDst, ImageUsageFlagBits.eTransferSrc,
         ImageUsageFlagBits.eSampled]
        t1.creationInfo.mipLevels t1.width t1.height 1 [] 1
    let trace : List DeviceCall := LoadToGpu.stagingCalls t1.creationInfo drv ++ imageRV.2
    if imageRV.1.result ≠ GraphicsResult.Ok then (false, t1, trace)
    else LoadToGpu.withImage t1 drv imageRV.1.value graphicsQueue graphicsCommandPool trace

/-- `Texture::Destroy` (texture.cpp:348-357): the driver calls it makes. -/
def Destroy (t : Texture) : List DeviceCall :=
  if t.logicalDevice ≠ 0 then
    [ DeviceCall.destroyImageView t.imageView,
      DeviceCall.destroyImage t.image,
      DeviceCall.freeMemory t.deviceMemory,
      DeviceCall.destroySampler t.sampler ]
  else []

end Texture

/-! ## Tracking image layouts over a recorded command sequence -/

/-- Whether a subresource range covers mip level `l`. -/
def coversLevel (r : ImageSubresourceRange) (l : Nat) : Bool :=
  decide (r.baseMipLevel ≤ l) && decide (l < r.baseMipLevel + r.levelCount)

/-- The layout of every mip level after one command: a barrier moves the
levels it covers to its new layout, copies and blits move nothing. -/
def applyCmd (st : Nat → ImageLayout) : Cmd → (Nat → ImageLayout)
  | Cmd.pipelineBarrier _ _ b =>
      fun l => if coversLevel b.subresourceRange l then b.newLayout else st l
  | _ => st

/-- The layout of every mip level after a command sequence. -/
def layoutsAfter (cmds : List Cmd) (st : Nat → ImageLayout) : Nat → ImageLayout :=
  cmds.foldl applyCmd st

/-- What a mock recorder observes at each blit, in recording order: source
level, destination level, and the tracked layouts of both at that moment. -/
def blitObservations : List Cmd → (Nat → ImageLayout) →
    List (Nat × Nat × ImageLayout × ImageLayout)
  | [], _ => []
  | Cmd.blitImage si sl di dl region f :: cs, st =>
      (region.srcSubresource.mipLevel, region.dstSubresource.mipLevel,
        st region.srcSubresource.mipLevel, st region.dstSubresource.mipLevel)
        :: blitObservations cs (applyCmd st (Cmd.blitImage si sl di dl region f))
  | c :: cs, st => blitObservations cs (applyCmd st c)

/-- Whether every barrier of the sequence declares, as its old layout, the
tracked layout of each level it covers. -/
def barriersMatch : List Cmd → (Nat → ImageLayout) → Bool
  | [], _ => true
  | Cmd.pipelineBarrier s d b :: cs, st =>
      ((List.range b.subresourceRange.levelCount).all
          fun k => decide (st (b.subresourceRange.baseMipLevel + k) = b.oldLayout))
        && barriersMatch cs (applyCmd st (Cmd.pipelineBarrier s d b))
  | c :: cs, st => barriersMatch cs (applyCmd st c)

/-- The transitions (old layout, new layout) that the barriers of the sequence
declare for mip level `l`, in recording order. -/
def levelTransitions (l : Nat) : List Cmd → List (ImageLayout × ImageLayout)
  | [] => []
  | Cmd.pipelineBarrier _ _ b :: cs =>
      if coversLevel b.subresourceRange l then
        (b.oldLayout, b.newLayout) :: levelTransitions l cs
      else levelTransitions l cs
  | _ :: cs => levelTransitions l cs

/-- The commands of a driver trace, in recording order. -/
def recordedCommands (trace : List DeviceCall) : List Cmd :=
  trace.filterMap fun c =>
    match c with
    | DeviceCall.cmd _ c => some c
    | _ => none

/-- The commands recorded on a one-time command buffer. -/
def oneTimeCommands (trace : List Image.OneTimeCall) : List Cmd :=
  trace.filterMap fun c =>
    match c with
    | Image.OneTimeCall.record c => some c
    | _ => none

/-! ## `VulkanDevice` (vulkan_device.cpp) -/

/-- Modelled from the spec: `QueueFamilyIndices` lives in `render/vulkan/utils.hpp`,
outside the embedded files. The source stores both indices in a
`std::set<int>`; an index that was not found is negative. -/
structure QueueFamilyIndices where
  graphicsFamily : Int := -1
  presentFamily : Int := -1
deriving DecidableEq, Repr, Inhabited

/-- Modelled from the spec: `QueueFamilyIndices::isComplete`, whose body is
outside the embedded files: a queue family "supporting graphics" and one
supporting "presentation to the given Surface" were both found. -/
def QueueFamilyIndices.isComplete (q : QueueFamilyIndices) : Bool :=
  decide (0 ≤ q.graphicsFamily) && decide (0 ≤ q.presentFamily)

/-- The part of `SwapchainSupportDetails` that `IsDeviceSuitable` reads. -/
structure SwapchainSupportDetails where
  formats : List Nat := []
  presentModes : List Nat := []
deriving DecidableEq, Repr, Inhabited

/-- `vk::DeviceCreateInfo` as `CreateDevice` fills it (the layer list comes
from a header outside the embedded files and is left out). -/
structure DeviceCreateInfo where
  queueFamilyIndices : List Int
  samplerAnisotropy : Bool
  enabledExtensionNames : List String
deriving DecidableEq, Repr, Inhabited

/-- A physical device: its handle and what it answers to the queries the
source makes. `FindQueueFamilies` and `QuerySwapchainSupport` are defined
outside the embedded files and take the surface; `extensions` is `none` when
`enumerateDeviceExtensionProperties` does not report `eSuccess`; `createDevice`
is `none` when device creation does not report `eSuccess`. -/
structure PhysicalDevice where
  handle : Nat
  FindQueueFamilies : Nat → QueueFamilyIndices
  extensions : Option (List String)
  QuerySwapchainSupport : Nat → ResultValue SwapchainSupportDetails
  samplerAnisotropy : Bool
  createDevice : DeviceCreateInfo → Option Nat

/-- The default-constructed `vk::PhysicalDevice`: a null handle. -/
def PhysicalDevice.null : PhysicalDevice :=
  { handle := 0,
    FindQueueFamilies := fun _ => {},
    extensions := none,
    QuerySwapchainSupport := fun _ => ResultValue.ofResult GraphicsResult.Error,
    samplerAnisotropy := false,
    createDevice := fun _ => none }

instance : Inhabited PhysicalDevice := ⟨PhysicalDevice.null⟩

/-- A `vk::Instance`: its handle and the answer of `enumeratePhysicalDevices`,
`none` when the result is not `eSuccess`. -/
structure Instance where
  handle : Nat
  enumeratePhysicalDevices : Option (List PhysicalDevice)

/-- Queries made on a physical device while judging it. -/
inductive AdapterQuery where
  | FindQueueFamilies (device surface : Nat)
  | enumerateDeviceExtensionProperties (device : Nat)
  | QuerySwapchainSupport (device surface : Nat)
  | getFeatures (device : Nat)
deriving DecidableEq, Repr, Inhabited

/-- The name behind `VK_KHR_SWAPCHAIN_EXTENSION_NAME`. -/
def VK_KHR_SWAPCHAIN_EXTENSION_NAME : String := "VK_KHR_swapchain"

/-- The list `requiredDeviceExtensions` (vulkan_device.cpp:16). -/
def requiredDeviceExtensions : List String := [VK_KHR_SWAPCHAIN_EXTENSION_NAME]

namespace VulkanDevice

/-- `VulkanDevice::CheckDeviceExtensionSupport` (vulkan_device.cpp:105-120):
a set of the required names, from which every available name is erased; the
set is a duplicate-free list. -/
def CheckDeviceExtensionSupport (device : PhysicalDevice) : Bool :=
  match device.extensions with
  | none => false
  | some availableExtensions =>
      let requiredExtensions : List String := requiredDeviceExtensions.dedup
      (availableExtensions.foldl (fun req extensionName => req.erase extensionName)
        requiredExtensions).isEmpty

/-- `VulkanDevice::IsDeviceSuitable` (vulkan_device.cpp:122-142): the verdict
and the queries made, in order. -/
def IsDeviceSuitable (device : PhysicalDevice) (surface : Nat) : Bool × List AdapterQuery :=
  let indices : QueueFamilyIndices := device.FindQueueFamilies surface
  let extensionsSupported : Bool := CheckDeviceExtensionSupport device
  let swapChain : Bool × List AdapterQuery :=
    if extensionsSupported then
      let swapChainSupport := device.QuerySwapchainSupport surface
      (decide (swapChainSupport.result = GraphicsResult.Ok)
          && !swapChainSupport.value.formats.isEmpty
          && !swapChainSupport.value.presentModes.isEmpty,
       [AdapterQuery.QuerySwapchainSupport device.handle surface])
    else (false, [])
  let swapChainAdequate : Bool := swapChain.1
  (indices.isComplete && extensionsSupported && swapChainAdequate && device.samplerAnisotropy,
   [AdapterQuery.FindQueueFamilies device.handle surface,
    AdapterQuery.enumerateDeviceExtensionProperties device.handle]
     ++ swapChain.2 ++ [AdapterQuery.getFeatures device.handle])

/-- The range-for of `PickPhysicalDevice` (vulkan_device.cpp:156-163): the
first suitable device replaces `chosenDevice` and ends the loop. -/
def PickPhysicalDevice.loop (surface : Nat) : List PhysicalDevice → PhysicalDevice →
    PhysicalDevice
  | [], chosenDevice => chosenDevice
  | device :: rest, chosenDevice =>
      if (IsDeviceSuitable device surface).1 then device
      else PickPhysicalDevice.loop surface rest chosenDevice

/-- `VulkanDevice::PickPhysicalDevice` (vulkan_device.cpp:144-171). -/
def PickPhysicalDevice (instance_ : Instance) (surface : Nat) : ResultValue PhysicalDevice :=
  match instance_.enumeratePhysicalDevices with
  | none => ResultValue.ofResult GraphicsResult.Error
  | some devices =>
      let chosenDevice := PickPhysicalDevice.loop surface devices PhysicalDevice.null
      if chosenDevice.handle = 0 then ResultValue.ofResult GraphicsResult.Error
      else { result := GraphicsResult.Ok, value := chosenDevice }

/-- `VulkanDevice::CreateDevice` (vulkan_device.cpp:173-222): one queue per
distinct family index, anisotropy requested, the required extensions enabled. -/
def CreateDevice (physicalDevice : PhysicalDevice) (surface : Nat) : ResultValue Nat :=
  let indices : QueueFamilyIndices := physicalDevice.FindQueueFamilies surface
  let uniqueQueueFamilies : List Int := [indices.graphicsFamily, indices.presentFamily].dedup
  let createInfo : DeviceCreateInfo :=
    { queueFamilyIndices := uniqueQueueFamilies, samplerAnisotropy := true,
      enabledExtensionNames := requiredDeviceExtensions }
  match physicalDevice.createDevice createInfo with
  | none => ResultValue.ofResult GraphicsResult.Error
  | some device => { result := GraphicsResult.Ok, value := device }

end VulkanDevice

/-- `vk::DescriptorPoolCreateInfo` as `CreateDescriptorPool` fills it: the
pool sizes as (type, descriptor count) pairs and the set limit. -/
structure DescriptorPoolCreateInfo where
  poolSizes : List (Nat × Nat)
  maxSets : Nat
deriving DecidableEq, Repr, Inhabited

/-- The constants of `render/config.hpp` the device code reads; the header is
outside the embedded files, so they are parameters. -/
structure Config where
  WindowWidth : Nat
  WindowHeight : Nat
  VulkanDescriptorPoolSizes : List (Nat × Nat)
  MaxDescriptorSetsCount : Nat
deriving DecidableEq, Repr, Inhabited

/-- What the windowing layer and the logical device answer during
`CreateVulkanDevice`. `createWindow` answers the window pointer, `0` being
`nullptr`; `createSurface` is `none` unless `SDL_Vulkan_CreateSurface` answers
`SDL_TRUE`; the pool creations are `none` unless the result is `eSuccess`. -/
structure Platform where
  createWindow : (width height : Nat) → Nat
  createSurface : (window instanceHandle : Nat) → Option Nat
  createCommandPool : (device : Nat) → (queueFamilyIndex : Int) → Option Nat
  createDescriptorPool : (device : Nat) → DescriptorPoolCreateInfo → Option Nat
  getQueue : (device : Nat) → (queueFamilyIndex : Int) → (queueIndex : Nat) → Nat

/-- The members of `VulkanDevice` set by its constructor
(vulkan_device.cpp:82-103). -/
structure VulkanDevice where
  instanceHandle : Nat
  physicalDevice : PhysicalDevice
  device : Nat
  window : Nat
  surface : Nat
  graphicsCommandPool : Nat
  descriptorPool : Nat
  graphicsQueue : Nat
  presentQueue : Nat

namespace VulkanDevice

/-- `VulkanDevice::CreateGraphicsCommandPool` (vulkan_device.cpp:224-241). -/
def CreateGraphicsCommandPool (p : Platform) (physicalDevice : PhysicalDevice)
    (device surface : Nat) : ResultValue Nat :=
  let queueFamilyIndices : QueueFamilyIndices := physicalDevice.FindQueueFamilies surface
  match p.createCommandPool device queueFamilyIndices.graphicsFamily with
  | none => ResultValue.ofResult GraphicsResult.Error
  | some commandPool => { result := GraphicsResult.Ok, value := commandPool }

/-- The pool sizes `CreateDescriptorPool` builds from the configuration table
(vulkan_device.cpp:247-253): one entry appended per table row. -/
def CreateDescriptorPool.poolSizes : List (Nat × Nat) → List (Nat × Nat) → List (Nat × Nat)
  | [], poolSizes => poolSizes
  | poolSizeConfig :: rest, poolSizes =>
      CreateDescriptorPool.poolSizes rest (poolSizes ++ [(poolSizeConfig.1, poolSizeConfig.2)])

/-- `VulkanDevice::CreateDescriptorPool` (vulkan_device.cpp:243-267). -/
def CreateDescriptorPool (cfg : Config) (p : Platform) (device : Nat) : ResultValue Nat :=
  let poolInfo : DescriptorPoolCreateInfo :=
    { poolSizes := CreateDescriptorPool.poolSizes cfg.VulkanDescriptorPoolSizes [],
      maxSets := cfg.MaxDescriptorSetsCount }
  match p.createDescriptorPool device poolInfo with
  | none => ResultValue.ofResult GraphicsResult.Error
  | some descriptorPool => { result := GraphicsResult.Ok, value := descriptorPool }

/-- The constructor `VulkanDevice::VulkanDevice` (vulkan_device.cpp:82-103). -/
def mk_ (p : Platform) (aInstance : Nat) (aPhysicalDevice : PhysicalDevice)
    (aDevice aGraphicsCommandPool aDescriptorPool aWindow aSurface : Nat) : VulkanDevice :=
  let indices : QueueFamilyIndices := aPhysicalDevice.FindQueueFamilies aSurface
  { instanceHandle := aInstance, physicalDevice := aPhysicalDevice, device := aDevice,
    window := aWindow, surface := aSurface, graphicsCommandPool := aGraphicsCommandPool,
    descriptorPool := aDescriptorPool,
    graphicsQueue := p.getQueue aDevice indices.graphicsFamily 0,
    presentQueue := p.getQueue aDevice indices.presentFamily 0 }

/-- `VulkanDevice::CreateVulkanDevice` (vulkan_device.cpp:18-80). The value of
the result is the `std::unique_ptr<VulkanDevice>`, `none` being the null
pointer a result built from a bare code carries. -/
def CreateVulkanDevice (cfg : Config) (p : Platform) (instance_ : Instance) :
    ResultValue (Option VulkanDevice) :=
  let window : Nat := p.createWindow cfg.WindowWidth cfg.WindowHeight
  if window = 0 then ResultValue.ofResult GraphicsResult.Error
  else
    match p.createSurface window instance_.handle with
    | none => ResultValue.ofResult GraphicsResult.Error
    | some surface =>
        let physicalDeviceRV := PickPhysicalDevice instance_ surface
        if physicalDeviceRV.result ≠ GraphicsResult.Ok then
          ResultValue.ofResult physicalDeviceRV.result
        else
          let deviceRV := CreateDevice physicalDeviceRV.value surface
          if deviceRV.result ≠ GraphicsResult.Ok then ResultValue.ofResult deviceRV.result
          else
            let graphicsCommandPoolRV :=
              CreateGraphicsCommandPool p physicalDeviceRV.value deviceRV.value surface
            if graphicsCommandPoolRV.result ≠ GraphicsResult.Ok then
              ResultValue.ofResult deviceRV.result
            else
              let descriptorPoolRV := CreateDescriptorPool cfg p deviceRV.value
              if descriptorPoolRV.result ≠ GraphicsResult.Ok then
                ResultValue.ofResult deviceRV.result
              else
                { result := GraphicsResult.Ok,
                  value := some (mk_ p instance_.handle physicalDeviceRV.value deviceRV.value
                    graphicsCommandPoolRV.value descriptorPoolRV.value window surface) }

end VulkanDevice

/-! ## `VulkanBuffer::FindMemoryType` -/

/-- Modelled from the spec: `VulkanBuffer::FindMemoryType` is defined in
`render/vulkan/vulkan_buffer.cpp`, which is not among the embedded files.
"Iterate the adapter's memory-type list; pick the first index whose type bits
intersect the resource's required bits and whose property flags are a superset
of the requested flags. Fails with NoCompatibleMemoryType if none match."
`memoryTypes` holds the property flag mask of each memory type, `i` is the
index of its head; `none` is `NoCompatibleMemoryType`. -/
def FindMemoryType.scan (typeBits properties : Nat) : List Nat → Nat → Option Nat
  | [], _ => none
  | propertyFlags :: rest, i =>
      if typeBits.testBit i && decide (propertyFlags &&& properties = properties) then some i
      else FindMemoryType.scan typeBits properties rest (i + 1)

/-- Modelled from the spec: the memory-type selector `VulkanBuffer::FindMemoryType`
(see `FindMemoryType.scan`), run from index 0 over the adapter's memory types. -/
def FindMemoryType (memoryTypes : List Nat) (typeBits properties : Nat) : Option Nat :=
  FindMemoryType.scan typeBits properties memoryTypes 0

end ez

/-! ## `main` (main.cpp) -/

namespace Ride

/-- The events `main` tells apart by `evt.type`. -/
inductive SDLEvent where
  | SDL_QUIT
  | SDL_KEYDOWN
  | other (type : Nat)
deriving DecidableEq, Repr, Inhabited

/-- What `main` does that is visible from outside. The clock readings and the
times handed to `Update` are floating-point and are not part of the event. -/
inductive MainAction where
  | SDL_Init
  | Create
  | printf (text : String)
  | GetViewportExtent
  | SetViewportExtent
  | Update
  | Draw
  | reset
  | SDL_Quit
deriving DecidableEq, Repr, Inhabited

def EXIT_SUCCESS : Nat := 0

def EXIT_FAILURE : Nat := 1

/-- The inner loop `while (SDL_PollEvent(&evt))` of one tick (main.cpp:39-49)
over the events pending at that tick: the new value of `run` and the actions
appended. -/
def main.pollEvents : List SDLEvent → Bool → List MainAction → Bool × List MainAction
  | [], run, trace => (run, trace)
  | evt :: rest, run, trace =>
      let run := if evt = SDLEvent.SDL_QUIT then false else run
      let trace := if evt = SDLEvent.SDL_KEYDOWN then trace ++ [MainAction.printf "Keydown\n"]
        else trace
      main.pollEvents rest run trace

/-- The loop `while (run)` (main.cpp:36-66). `events k` are the events pending
at the poll of tick `k` (counted from 0); `fuel` bounds the number of ticks the
model runs, `none` meaning the bound was reached with `run` still set. -/
def main.frameLoop (events : Nat → List SDLEvent) :
    (fuel : Nat) → (tick : Nat) → (run : Bool) → List MainAction → Option (List MainAction)
  | _, _, false, trace => some trace
  | 0, _, true, _ => none
  | fuel + 1, tick, true, trace =>
      let polled := main.pollEvents (events tick) true trace
      let trace := polled.2 ++ [MainAction.GetViewportExtent, MainAction.SetViewportExtent,
        MainAction.Update, MainAction.Draw]
      main.frameLoop events fuel (tick + 1) polled.1 trace

/-- The function `main` (main.cpp:15-75): exit code and actions. `createOk`
tells whether `RenderSystem::Create` reported `Ok`. -/
def main (createOk : Bool) (events : Nat → List SDLEvent) (fuel : Nat) :
    Option (Nat × List MainAction) :=
  let trace := [MainAction.SDL_Init, MainAction.Create]
  if !createOk then
    some (EXIT_FAILURE, trace ++ [MainAction.printf "Failed to create RenderSystem"])
  else
    match main.frameLoop events fuel 0 true trace with
    | none => none
    | some trace =>
        some (EXIT_SUCCESS,
          trace ++ [MainAction.reset, MainAction.reset, MainAction.reset, MainAction.SDL_Quit])

end Ride

/-! ## Vocabulary of the properties -/

namespace ez

/-- The three commands one pass of either mip loop records for level `i`:
barrier of level `i` to transfer destination, blit from level `i - 1`, barrier
of level `i` to transfer source. -/
def Image.mipStep (image width height i : Nat) : List Cmd :=
  [ Cmd.pipelineBarrier [PipelineStageFlagBits.eTransfer] [PipelineStageFlagBits.eTransfer]
      { srcAccessMask := [], dstAccessMask := [AccessFlagBits.eTransferWrite],
        oldLayout := ImageLayout.eUndefined, newLayout := ImageLayout.eTransferDstOptimal,
        image := image, subresourceRange := Image.mipSubRange i },
    Cmd.blitImage image ImageLayout.eTransferSrcOptimal image ImageLayout.eTransferDstOptimal
      (Image.mipBlit width height i) Filter.eLinear,
    Cmd.pipelineBarrier [PipelineStageFlagBits.eTransfer] [PipelineStageFlagBits.eTransfer]
      { srcAccessMask := [AccessFlagBits.eTransferWrite],
        dstAccessMask := [AccessFlagBits.eTransferRead],
        oldLayout := ImageLayout.eTransferDstOptimal,
        newLayout := ImageLayout.eTransferSrcOptimal,
        image := image, subresourceRange := Image.mipSubRange i } ]

/-- The commands of `n` consecutive passes starting at level `i`. -/
def Image.mipSteps (image width height : Nat) : (n : Nat) → (i : Nat) → List Cmd
  | 0, _ => []
  | n + 1, i => Image.mipStep image width height i ++ Image.mipSteps image width height n (i + 1)

/-- A recorded command reduced to what the mip-generation algorithm speaks of:
which levels a barrier covers and between which layouts, which levels a blit
reads and writes, which level a buffer copy fills. -/
inductive CmdShape where
  | barrier (baseMipLevel levelCount : Nat) (oldLayout newLayout : ImageLayout)
  | blit (srcLevel dstLevel : Nat)
  | copy (dstLevel : Nat)
deriving DecidableEq, Repr, Inhabited

def Cmd.shape : Cmd → CmdShape
  | Cmd.pipelineBarrier _ _ b =>
      CmdShape.barrier b.subresourceRange.baseMipLevel b.subresourceRange.levelCount
        b.oldLayout b.newLayout
  | Cmd.blitImage _ _ _ _ region _ =>
      CmdShape.blit region.srcSubresource.mipLevel region.dstSubresource.mipLevel
  | Cmd.copyBufferToImage _ _ _ region => CmdShape.copy region.imageSubresource.mipLevel

/-- The mip generation algorithm in the words of the specification: for level
`i` from 1 to `mipLevels - 1`, barrier level `i` from Undefined to
TransferDstOptimal, blit level `i - 1` into level `i`, barrier level `i` from
TransferDstOptimal to TransferSrcOptimal; after the loop one barrier of the
whole mip range to ShaderReadOnlyOptimal. -/
def mipSequenceSpec (mipLevels : Nat) : List CmdShape :=
  (List.range (mipLevels - 1)).flatMap (fun k =>
    [ CmdShape.barrier (k + 1) 1 ImageLayout.eUndefined ImageLayout.eTransferDstOptimal,
      CmdShape.blit k (k + 1),
      CmdShape.barrier (k + 1) 1 ImageLayout.eTransferDstOptimal
        ImageLayout.eTransferSrcOptimal ])
  ++ [CmdShape.barrier 0 mipLevels ImageLayout.eTransferSrcOptimal
        ImageLayout.eShaderReadOnlyOptimal]

/-- The layouts a mip chain has when `GenerateMipsForImage` starts: level 0
uploaded and ready as a transfer source, the other levels untouched. -/
def layoutsAtMipEntry : Nat → ImageLayout :=
  fun l => if l = 0 then ImageLayout.eTransferSrcOptimal else ImageLayout.eUndefined

/-- The layouts of a freshly created image: every level undefined. -/
def layoutsAtCreation : Nat → ImageLayout := fun _ => ImageLayout.eUndefined

/-- The call of `CreateImage2D` in `LoadToGpu` (texture.cpp:111-118) with the
arguments it receives: the members `width` and `height` hold the creation
info's values at that point. -/
def Texture.LoadToGpu.imageRV (t : Texture) (drv : Driver) : ResultValue Nat × List DeviceCall :=
  Image.CreateImage2D drv Format.eR8G8B8A8Unorm
    [ImageUsageFlagBits.eTransferDst, ImageUsageFlagBits.eTransferSrc,
     ImageUsageFlagBits.eSampled]
    t.creationInfo.mipLevels t.creationInfo.width t.creationInfo.height 1 [] 1

/-- The call of `CreateImageView2D` in `LoadToGpu` (texture.cpp:334-335) on
the image the preceding `CreateImage2D` returned. -/
def Texture.LoadToGpu.imageViewRV (t : Texture) (drv : Driver) :
    ResultValue Nat × List DeviceCall :=
  Image.CreateImageView2D drv (Texture.LoadToGpu.imageRV t drv).1.value Format.eR8G8B8A8Unorm
    ImageAspectFlagBits.eColor t.creationInfo.mipLevels

/-- A 2x1 RGBA texture with two mip levels, not yet loaded. -/
def Texture.sample : Texture :=
  { creationInfo :=
      { bufferSize := 8, buffer := [255, 0, 0, 255, 0, 255, 0, 255], width := 2, height := 1,
        mipLevels := 2, textureSampler := default } }

/-- A driver that grants every request, handing out the handles 11 to 18. -/
def Driver.sample : Driver :=
  { stagingBuffer := 11,
    bufferMemReqs := { size := 8, memoryTypeBits := 3 },
    FindMemoryType := fun _ _ => 0,
    stagingMemory := 12,
    createImage := fun _ => some 13,
    imageMemReqs := { size := 16, memoryTypeBits := 1 },
    deviceMemory := 14,
    copyCmd := 15,
    blitCmd := 16,
    sampler := 17,
    createImageView := fun _ => some 18 }

/-- A physical device with one queue family serving graphics and present, the
swapchain extension, one surface format and one present mode. -/
def PhysicalDevice.sample (handle : Nat) (samplerAnisotropy : Bool) : PhysicalDevice :=
  { handle := handle,
    FindQueueFamilies := fun _ => { graphicsFamily := 0, presentFamily := 0 },
    extensions := some ["VK_KHR_maintenance1", "VK_KHR_swapchain"],
    QuerySwapchainSupport := fun _ =>
      { result := GraphicsResult.Ok, value := { formats := [44], presentModes := [2] } },
    samplerAnisotropy := samplerAnisotropy,
    createDevice := fun _ => some 31 }

/-- An instance enumerating three devices: the first lacks anisotropic
sampling, the second and the third are suitable. -/
def Instance.sample : Instance :=
  { handle := 5,
    enumeratePhysicalDevices :=
      some [PhysicalDevice.sample 41 false, PhysicalDevice.sample 42 true,
            PhysicalDevice.sample 43 true] }

/-- A configuration with an 800x600 window and two descriptor pool rows. -/
def Config.sample : Config :=
  { WindowWidth := 800, WindowHeight := 600,
    VulkanDescriptorPoolSizes := [(6, 16), (1, 16)], MaxDescriptorSetsCount := 16 }

/-- A platform on which window and surface creation succeed and each pool
creation succeeds or fails as the flags say. -/
def Platform.sample (commandPoolOk descriptorPoolOk : Bool) : Platform :=
  { createWindow := fun _ _ => 20,
    createSurface := fun _ _ => some 21,
    createCommandPool := fun _ _ => if commandPoolOk then some 32 else none,
    createDescriptorPool := fun _ _ => if descriptorPoolOk then some 33 else none,
    getQueue := fun _ _ _ => 34 }

end ez

namespace Ride

/-- Events of a run in which the quit request arrives at the second poll, with
key presses before and after it. -/
def main.sampleEvents : Nat → List SDLEvent :=
  fun k => if k = 1 then [SDLEvent.SDL_KEYDOWN, SDLEvent.SDL_QUIT, SDLEvent.SDL_KEYDOWN]
    else [SDLEvent.SDL_KEYDOWN]

end Ride

/-! ## `Vertex` (mesh.hpp, lines 25-68) -/

namespace ez

inductive VertexInputRate where
  | eVertex
deriving DecidableEq, Repr, Inhabited

/-- `vk::VertexInputBindingDescription`. -/
structure VertexInputBindingDescription where
  binding : Nat := 0
  stride : Nat := 0
  inputRate : VertexInputRate := VertexInputRate.eVertex
deriving DecidableEq, Repr, Inhabited

/-- `vk::VertexInputAttributeDescription`. -/
structure VertexInputAttributeDescription where
  location : Nat := 0
  binding : Nat := 0
  format : Format := Format.eR8G8B8A8Unorm
  offset : Nat := 0
deriving DecidableEq, Repr, Inhabited

/-- The number of components of a format and the bytes each one takes. -/
def Format.components : Format → Nat × Nat
  | Format.eR8G8B8A8Unorm => (4, 1)
  | Format.eR32G32Sfloat => (2, 4)
  | Format.eR32G32B32Sfloat => (3, 4)

/-- The bytes one element of the format takes. -/
def Format.byteSize (f : Format) : Nat := f.components.1 * f.components.2

/-- Size and alignment in bytes of a data member. -/
structure MemberLayout where
  size : Nat
  align : Nat
deriving DecidableEq, Repr, Inhabited

/-- The layout of `glm::vec3` in glm's default configuration: three
consecutive 32-bit floats, aligned as a float. -/
def glm.vec3 : MemberLayout := { size := 12, align := 4 }

/-- The layout of `glm::vec2` in glm's default configuration: two consecutive
32-bit floats, aligned as a float. -/
def glm.vec2 : MemberLayout := { size := 8, align := 4 }

/-- Round `n` up to a multiple of `align`. -/
def alignUp (n align : Nat) : Nat := (n + align - 1) / align * align

/-- The offsets a standard-layout struct gives its members, in declaration
order: each member sits at the first multiple of its alignment at or after the
end of the previous one. `cursor` is the end of the members placed so far. -/
def memberOffsets : List MemberLayout → Nat → List Nat
  | [], _ => []
  | m :: rest, cursor =>
      alignUp cursor m.align :: memberOffsets rest (alignUp cursor m.align + m.size)

/-- The end of the last member of a struct laid out from `cursor`. -/
def membersEnd : List MemberLayout → Nat → Nat
  | [], cursor => cursor
  | m :: rest, cursor => membersEnd rest (alignUp cursor m.align + m.size)

/-- The size of a struct: the end of its last member rounded up to
the largest member alignment. -/
def structSize (members : List MemberLayout) : Nat :=
  alignUp (membersEnd members 0) (members.foldl (fun a m => max a m.align) 1)

namespace Vertex

/-- The data members of `Vertex` in declaration order (mesh.hpp:27-30):
`position`, `normal`, `uv0`, `uv1`. -/
def members : List MemberLayout := [glm.vec3, glm.vec3, glm.vec2, glm.vec2]

/-- The expression `offsetof(Vertex, member)` for the member with the given
index in declaration order. -/
def offsetof (member : Nat) : Nat := (memberOffsets members 0).getD member 0

/-- The expression `sizeof(Vertex)`. -/
def sizeof : Nat := structSize members

/-- `Vertex::getBindingDescription` (mesh.hpp:32-40). -/
def getBindingDescription : VertexInputBindingDescription :=
  { binding := 0, stride := sizeof, inputRate := VertexInputRate.eVertex }

/-- `Vertex::getAttributeDescriptions` (mesh.hpp:42-67). -/
def getAttributeDescriptions : List VertexInputAttributeDescription :=
  [ { binding := 0, location := 0, format := Format.eR32G32B32Sfloat, offset := offsetof 0 },
    { binding := 0, location := 1, format := Format.eR32G32B32Sfloat, offset := offsetof 1 },
    { binding := 0, location := 2, format := Format.eR32G32Sfloat, offset := offsetof 2 },
    { binding := 0, location := 3, format := Format.eR32G32Sfloat, offset := offsetof 3 } ]

end Vertex

/-- Whether byte `b` of a vertex lies in the range the attribute reads. -/
def VertexInputAttributeDescription.covers (a : VertexInputAttributeDescription) (b : Nat) :
    Bool :=
  decide (a.offset ≤ b) && decide (b < a.offset + a.format.byteSize)

/-! ## `BoundingBox` and `Node` over exact arithmetic (mesh.hpp, mesh.cpp) -/

/-- A `glm::vec3` with exact rational components in place of floats. -/
structure Vec3 where
  x : ℚ
  y : ℚ
  z : ℚ
deriving DecidableEq, Inhabited

/-- A `glm::quat` with exact rational components. -/
structure Quat where
  x : ℚ
  y : ℚ
  z : ℚ
  w : ℚ
deriving DecidableEq, Inhabited

/-- A `glm::mat4` with exact rational entries, addressed as (row, column);
the glm expression `m[c]` is column `c`, and glm's `*` on matrices is the
matrix product. -/
abbrev Mat4 : Type := Matrix (Fin 4) (Fin 4) ℚ

/-- The expression `glm::vec3(m[c])`: the first three entries of column `c`. -/
def Mat4.col3 (m : Mat4) (c : Fin 4) : Vec3 := { x := m 0 c, y := m 1 c, z := m 2 c }

namespace Vec3

/-- Componentwise `+`. -/
def add (a b : Vec3) : Vec3 := { x := a.x + b.x, y := a.y + b.y, z := a.z + b.z }

/-- The expression `v * s` with a scalar `s`. -/
def scale (v : Vec3) (s : ℚ) : Vec3 := { x := v.x * s, y := v.y * s, z := v.z * s }

/-- Componentwise `glm::min`. -/
def min (a b : Vec3) : Vec3 :=
  { x := Min.min a.x b.x, y := Min.min a.y b.y, z := Min.min a.z b.z }

/-- Componentwise `glm::max`. -/
def max (a b : Vec3) : Vec3 :=
  { x := Max.max a.x b.x, y := Max.max a.y b.y, z := Max.max a.z b.z }

/-- Componentwise `<=`. -/
def le (a b : Vec3) : Prop := a.x ≤ b.x ∧ a.y ≤ b.y ∧ a.z ≤ b.z

end Vec3

/-- `BoundingBox` (mesh.hpp:70-79); the two-argument constructor leaves
`valid` at its default `false`. -/
structure BoundingBox where
  min : Vec3
  max : Vec3
  valid : Bool := false
deriving DecidableEq, Inhabited

/-- `BoundingBox::GetAABB` (mesh.cpp:14-39). -/
def BoundingBox.GetAABB (self : BoundingBox) (m : Mat4) : BoundingBox :=
  let min0 : Vec3 := m.col3 3
  let max0 : Vec3 := min0
  let right : Vec3 := m.col3 0
  let min1 : Vec3 := min0.add (Vec3.min (right.scale self.min.x) (right.scale self.max.x))
  let max1 : Vec3 := max0.add (Vec3.max (right.scale self.min.x) (right.scale self.max.x))
  let up : Vec3 := m.col3 1
  let min2 : Vec3 := min1.add (Vec3.min (up.scale self.min.y) (up.scale self.max.y))
  let max2 : Vec3 := max1.add (Vec3.max (up.scale self.min.y) (up.scale self.max.y))
  let back : Vec3 := m.col3 2
  let min3 : Vec3 := min2.add (Vec3.min (back.scale self.min.z) (back.scale self.max.z))
  let max3 : Vec3 := max2.add (Vec3.max (back.scale self.min.z) (back.scale self.max.z))
  { min := min3, max := max3 }

/-- The affine image of a point under `m`:
`m[3].xyz + c.x * m[0].xyz + c.y * m[1].xyz + c.z * m[2].xyz`. -/
def Mat4.transformPoint (m : Mat4) (c : Vec3) : Vec3 :=
  (((m.col3 3).add ((m.col3 0).scale c.x)).add ((m.col3 1).scale c.y)).add
    ((m.col3 2).scale c.z)

/-- The eight corners of a box. -/
def BoundingBox.corners (b : BoundingBox) : List Vec3 :=
  [ { x := b.min.x, y := b.min.y, z := b.min.z }, { x := b.min.x, y := b.min.y, z := b.max.z },
    { x := b.min.x, y := b.max.y, z := b.min.z }, { x := b.min.x, y := b.max.y, z := b.max.z },
    { x := b.max.x, y := b.min.y, z := b.min.z }, { x := b.max.x, y := b.min.y, z := b.max.z },
    { x := b.max.x, y := b.max.y, z := b.min.z }, { x := b.max.x, y := b.max.y, z := b.max.z } ]

/-- The expression `glm::translate(glm::mat4(1.0f), v)`: the identity with
`v` in the last column. glm is an external library; this is its documented
result. -/
def glm.translate (v : Vec3) : Mat4 :=
  Matrix.of ![![1, 0, 0, v.x], ![0, 1, 0, v.y], ![0, 0, 1, v.z], ![0, 0, 0, 1]]

/-- The expression `glm::scale(glm::mat4(1.0f), v)`: the diagonal matrix of
`v` and 1. -/
def glm.scale (v : Vec3) : Mat4 :=
  Matrix.of ![![v.x, 0, 0, 0], ![0, v.y, 0, 0], ![0, 0, v.z, 0], ![0, 0, 0, 1]]

/-- The expression `glm::mat4(q)` for a quaternion `q` (`glm::mat4_cast`). -/
def glm.mat4_cast (q : Quat) : Mat4 :=
  Matrix.of
    ![![1 - 2 * (q.y * q.y + q.z * q.z), 2 * (q.x * q.y - q.w * q.z),
        2 * (q.x * q.z + q.w * q.y), 0],
      ![2 * (q.x * q.y + q.w * q.z), 1 - 2 * (q.x * q.x + q.z * q.z),
        2 * (q.y * q.z - q.w * q.x), 0],
      ![2 * (q.x * q.z - q.w * q.y), 2 * (q.y * q.z + q.w * q.x),
        1 - 2 * (q.x * q.x + q.y * q.y), 0],
      ![0, 0, 0, 1]]

/-- The members of `Node` that `ConstructLocalMatrix` and `GetMatrix` read
(mesh.hpp:145-156). `parent` is the address of the parent node, `none` being
`nullptr`. -/
structure Node where
  parent : Option Nat := none
  matrix : Mat4
  translation : Vec3 := { x := 0, y := 0, z := 0 }
  scale : Vec3 := { x := 1, y := 1, z := 1 }
  rotation : Quat := { x := 0, y := 0, z := 0, w := 1 }

/-- `Node::ConstructLocalMatrix` (mesh.hpp:158-162). -/
def Node.ConstructLocalMatrix (n : Node) : Mat4 :=
  glm.translate n.translation * glm.mat4_cast n.rotation * glm.scale n.scale * n.matrix

/-- The loop `while (p)` of `Node::GetMatrix` (mesh.hpp:168-172) over a heap
of nodes addressed by pointer; `fuel` bounds the iterations the model runs,
`none` meaning the bound was reached with `p` still non-null. -/
def Node.GetMatrix.loop (heap : Nat → Node) : (fuel : Nat) → (p : Option Nat) → (m : Mat4) →
    Option Mat4
  | _, none, m => some m
  | 0, some _, _ => none
  | fuel + 1, some p, m =>
      Node.GetMatrix.loop heap fuel (heap p).parent ((heap p).ConstructLocalMatrix * m)

/-- `Node::GetMatrix` (mesh.hpp:164-174) of the node at address `n`. -/
def Node.GetMatrix (heap : Nat → Node) (fuel : Nat) (n : Nat) : Option Mat4 :=
  Node.GetMatrix.loop heap fuel (heap n).parent (heap n).ConstructLocalMatrix

/-- The parent chain of the node at `n` ends after `depth` steps. -/
inductive Node.ChainEnds (heap : Nat → Node) : Nat → Nat → Prop where
  | root (n : Nat) (h : (heap n).parent = none) : Node.ChainEnds heap n 0
  | step (n p depth : Nat) (h : (heap n).parent = some p)
      (hp : Node.ChainEnds heap p depth) : Node.ChainEnds heap n (depth + 1)

/-- The blit regions of a command sequence, in recording order. -/
def recordedBlits (cmds : List Cmd) : List ImageBlit :=
  cmds.filterMap fun c =>
    match c with
    | Cmd.blitImage _ _ _ _ region _ => some region
    | _ => none

/-- A heap of two nodes: node 1 is a root translated by (1, 2, 3), node 2 is
its child scaled by 2; every other address holds a root with the identity. -/
def Node.sampleHeap : Nat → Node :=
  fun a =>
    if a = 1 then { matrix := 1, translation := { x := 1, y := 2, z := 3 } }
    else if a = 2 then { parent := some 1, matrix := 1, scale := { x := 2, y := 2, z := 2 } }
    else { matrix := 1 }

/-- The box from (0, 0, 0) to (1, 2, 3). -/
def BoundingBox.sample : BoundingBox :=
  { min := { x := 0, y := 0, z := 0 }, max := { x := 1, y := 2, z := 3 } }

end ez

/-! ## glTF mesh loading (mesh.cpp, lines 125-303) and `Node::Update` -/

namespace ez

/-- A `glm::vec2` with exact rational components. -/
structure Vec2 where
  x : ℚ
  y : ℚ
deriving DecidableEq, Inhabited

/-- The `Vertex` record the vertex loop builds for one vertex
(mesh.cpp:223-234); its floating-point contents are taken as given. -/
structure VertexValue where
  position : Vec3
  normal : Vec3
  uv0 : Vec2
  uv1 : Vec2
deriving DecidableEq, Inhabited

/-- The component type code of 8-bit unsigned indices in glTF. -/
def TINYGLTF_PARAMETER_TYPE_UNSIGNED_BYTE : Nat := 5121

/-- The component type code of 16-bit unsigned indices in glTF. -/
def TINYGLTF_PARAMETER_TYPE_UNSIGNED_SHORT : Nat := 5123

/-- The component type code of 32-bit unsigned indices in glTF. -/
def TINYGLTF_PARAMETER_TYPE_UNSIGNED_INT : Nat := 5125

/-- The index accessor of a glTF primitive as the loader reads it: its
component type, its element count, and the elements `buf` found at `dataPtr`. -/
structure GltfIndexAccessor where
  componentType : Nat
  count : Nat
  buf : List Nat

/-- Rounding of a rational number to the nearest integer, ties to the even
one. -/
def roundHalfEven (q : ℚ) : ℤ :=
  let f : ℤ := ⌊q⌋
  if q - f < 1 / 2 then f
  else if 1 / 2 < q - f then f + 1
  else if f % 2 = 0 then f else f + 1

/-- The largest finite `float`, `(2^24 - 1) * 2^104`. -/
def FLT_MAX : ℚ := (2 ^ 24 - 1) * 2 ^ 104

/-- The conversion `static_cast<float>(x)` of a `double` of magnitude at most
`FLT_MAX`: the nearest number with a 24-bit significand and an exponent not
below that of the subnormal floats, ties to the even significand (the IEEE 754
default rounding). Beyond `FLT_MAX` the source leaves the conversion
undefined; statements about converted values keep their inputs within it. -/
def toFloat (x : ℚ) : ℚ :=
  let e : ℤ := max (Int.log 2 |x|) (-126)
  let ulp : ℚ := 2 ^ (e - 23)
  (roundHalfEven (x / ulp) : ℚ) * ulp

/-- The constructor call `glm::vec3(d[0], d[1], d[2])` on three doubles
(mesh.cpp:161-166): each is converted to `float`. -/
def Vec3.ofDoubles (d : Vec3) : Vec3 :=
  { x := toFloat d.x, y := toFloat d.y, z := toFloat d.z }

/-- Whether the three doubles are within the range of `float`. -/
def Vec3.inFloatRange (d : Vec3) : Prop :=
  |d.x| ≤ FLT_MAX ∧ |d.y| ≤ FLT_MAX ∧ |d.z| ≤ FLT_MAX

/-- The POSITION accessor of a glTF primitive as the loader reads it: its
element count and the first three entries of `minValues` and of `maxValues`,
which tinygltf holds as doubles. -/
structure GltfPositionAccessor where
  count : Nat
  minValues : Vec3
  maxValues : Vec3

/-- A glTF primitive as the loader reads it: the POSITION accessor, the
vertex the loop body builds for each `v`, and the index accessor when
`primitive.indices > -1`. -/
structure GltfPrimitive where
  position : GltfPositionAccessor
  vertex : Nat → VertexValue
  indices : Option GltfIndexAccessor

/-- `Primitive` (mesh.hpp:81-109) without its material reference. -/
structure Primitive where
  firstIndex : Nat
  indexCount : Nat
  vertexCount : Nat
  hasIndices : Bool
  bb : BoundingBox

/-- A default-constructed `BoundingBox`: `valid` is false; `min` and `max`
are indeterminate in the source and are overwritten before they are read. -/
def BoundingBox.unset : BoundingBox :=
  { min := { x := 0, y := 0, z := 0 }, max := { x := 0, y := 0, z := 0 }, valid := false }

/-- The constructor `Primitive::Primitive` (mesh.hpp:91-101). -/
def Primitive.new (firstIndex indexCount vertexCount : Nat) : Primitive :=
  { firstIndex := firstIndex, indexCount := indexCount, vertexCount := vertexCount,
    hasIndices := decide (indexCount > 0), bb := BoundingBox.unset }

/-- `Primitive::SetBoundingBox` (mesh.hpp:103-108). -/
def Primitive.SetBoundingBox (p : Primitive) (min max : Vec3) : Primitive :=
  { p with bb := { min := min, max := max, valid := true } }

/-- `Mesh::PushConstantsBlock` (mesh.hpp:120-123). -/
structure PushConstantsBlock where
  modelMatrix : Mat4 := 1

/-- The members of `Mesh` of mesh.hpp:111-143 that the loader and
`Node::Update` touch; mesh.cpp calls this type `SubMesh`. -/
structure Mesh where
  primitives : List Primitive := []
  bb : BoundingBox := BoundingBox.unset
  aabb : BoundingBox := BoundingBox.unset
  pushConstantsBlock : PushConstantsBlock := {}

/-- The constructor `Mesh::Mesh(const glm::mat4&)` (mesh.hpp:135); `bb` is
default-constructed, its `min` and `max` holding whatever `initial` holds. -/
def Mesh.new (matrix : Mat4) (initial : BoundingBox) : Mesh :=
  { primitives := [], bb := { initial with valid := false }, aabb := BoundingBox.unset,
    pushConstantsBlock := { modelMatrix := matrix } }

namespace LoadNodeFromGLTF

/-- The element `buf[index]` read through a pointer to `bits`-bit unsigned
integers. -/
def source (accessor : GltfIndexAccessor) (bits index : Nat) : Nat :=
  accessor.buf.getD index 0 % 2 ^ bits

/-- The vertex loop (mesh.cpp:221-237): `remaining` iterations from `v`. -/
def appendVertices (primitive : GltfPrimitive) :
    (remaining : Nat) → (v : Nat) → List VertexValue → List VertexValue
  | 0, _, vertexBuffer => vertexBuffer
  | n + 1, v, vertexBuffer =>
      appendVertices primitive n (v + 1) (vertexBuffer ++ [primitive.vertex v])

/-- One of the three index loops (mesh.cpp:256-259, 265-268, 274-277):
`remaining` iterations from `index`, each pushing `buf[index] + vertexStart`
computed in 32-bit unsigned arithmetic. -/
def appendIndices (accessor : GltfIndexAccessor) (bits vertexStart : Nat) :
    (remaining : Nat) → (index : Nat) → List Nat → List Nat
  | 0, _, indexBuffer => indexBuffer
  | n + 1, index, indexBuffer =>
      appendIndices accessor bits vertexStart n (index + 1)
        (indexBuffer ++ [toU32 (source accessor bits index + vertexStart)])

/-- The body of the primitive loop (mesh.cpp:131-290): the two buffers
afterwards and the primitive recorded; `none` is the `return` taken on an
unsupported index component type. -/
def loadPrimitive (primitive : GltfPrimitive) (indexBuffer : List Nat)
    (vertexBuffer : List VertexValue) : Option (List Nat × List VertexValue × Primitive) :=
  let indexStart : Nat := toU32 indexBuffer.length
  let vertexStart : Nat := toU32 vertexBuffer.length
  let posMin : Vec3 := Vec3.ofDoubles primitive.position.minValues
  let posMax : Vec3 := Vec3.ofDoubles primitive.position.maxValues
  let vertexCount : Nat := toU32 primitive.position.count
  let vertexBuffer1 : List VertexValue :=
    appendVertices primitive primitive.position.count 0 vertexBuffer
  let indexed : Option (Nat × List Nat) :=
    match primitive.indices with
    | none => some (0, indexBuffer)
    | some accessor =>
        let indexCount : Nat := toU32 accessor.count
        if accessor.componentType = TINYGLTF_PARAMETER_TYPE_UNSIGNED_INT then
          some (indexCount, appendIndices accessor 32 vertexStart accessor.count 0 indexBuffer)
        else if accessor.componentType = TINYGLTF_PARAMETER_TYPE_UNSIGNED_SHORT then
          some (indexCount, appendIndices accessor 16 vertexStart accessor.count 0 indexBuffer)
        else if accessor.componentType = TINYGLTF_PARAMETER_TYPE_UNSIGNED_BYTE then
          some (indexCount, appendIndices accessor 8 vertexStart accessor.count 0 indexBuffer)
        else none
  match indexed with
  | none => none
  | some (indexCount, indexBuffer1) =>
      some (indexBuffer1, vertexBuffer1,
        (Primitive.new indexStart indexCount vertexCount).SetBoundingBox posMin posMax)

/-- The primitive loop (mesh.cpp:129-291) over the primitives left, with
`primitives` already recorded in the sub-mesh. -/
def loadPrimitives : List GltfPrimitive → List Nat → List VertexValue → List Primitive →
    Option (List Nat × List VertexValue × List Primitive)
  | [], indexBuffer, vertexBuffer, primitives => some (indexBuffer, vertexBuffer, primitives)
  | primitive :: rest, indexBuffer, vertexBuffer, primitives =>
      match loadPrimitive primitive indexBuffer vertexBuffer with
      | none => none
      | some (indexBuffer1, vertexBuffer1, newPrimitive) =>
          loadPrimitives rest indexBuffer1 vertexBuffer1 (primitives ++ [newPrimitive])

/-- The loop "Mesh BB from BBs of primitives" (mesh.cpp:293-302) over the
primitives left, `bb` being the sub-mesh box so far. -/
def unionBoxes : List Primitive → BoundingBox → BoundingBox
  | [], bb => bb
  | p :: rest, bb =>
      let bb1 : BoundingBox := if p.bb.valid && !bb.valid then { p.bb with valid := true } else bb
      unionBoxes rest
        { bb1 with min := Vec3.min bb1.min p.bb.min, max := Vec3.max bb1.max p.bb.max }

/-- The block "Node contains mesh data" (mesh.cpp:125-303): the two buffers
afterwards and the sub-mesh built; `none` is the `return` taken on an
unsupported index component type. `initial` holds the indeterminate contents
of the fresh sub-mesh box. -/
def loadMesh (primitives : List GltfPrimitive) (matrix : Mat4) (initial : BoundingBox)
    (indexBuffer : List Nat) (vertexBuffer : List VertexValue) :
    Option (List Nat × List VertexValue × Mesh) :=
  let subMesh : Mesh := Mesh.new matrix initial
  match loadPrimitives primitives indexBuffer vertexBuffer subMesh.primitives with
  | none => none
  | some (indexBuffer1, vertexBuffer1, loaded) =>
      some (indexBuffer1, vertexBuffer1,
        { subMesh with primitives := loaded, bb := unionBoxes loaded subMesh.bb })

end LoadNodeFromGLTF

/-- Whether the loader supports the primitive's index component type. -/
def GltfPrimitive.supported (p : GltfPrimitive) : Bool :=
  match p.indices with
  | none => true
  | some accessor =>
      decide (accessor.componentType = TINYGLTF_PARAMETER_TYPE_UNSIGNED_INT)
        || decide (accessor.componentType = TINYGLTF_PARAMETER_TYPE_UNSIGNED_SHORT)
        || decide (accessor.componentType = TINYGLTF_PARAMETER_TYPE_UNSIGNED_BYTE)

/-- The width in bits of the elements of a supported index component type. -/
def GltfIndexAccessor.bits (accessor : GltfIndexAccessor) : Nat :=
  if accessor.componentType = TINYGLTF_PARAMETER_TYPE_UNSIGNED_INT then 32
  else if accessor.componentType = TINYGLTF_PARAMETER_TYPE_UNSIGNED_SHORT then 16
  else 8

/-- A node with what it owns: its own members, its mesh (`nullptr` being
`none`) and its children (mesh.hpp:145-156). -/
inductive NodeTree where
  | mk (node : Node) (mesh : Option Mesh) (children : List NodeTree)

mutual
/-- `Node::Update` (mesh.hpp:176-181). -/
def NodeTree.Update : NodeTree → NodeTree
  | NodeTree.mk node mesh children =>
      NodeTree.mk node
        (mesh.map fun m => { m with pushConstantsBlock := { modelMatrix := 1 } })
        (NodeTree.UpdateChildren children)
/-- The loop `for (auto& child : children) { child->Update(); }`. -/
def NodeTree.UpdateChildren : List NodeTree → List NodeTree
  | [] => []
  | child :: rest => NodeTree.Update child :: NodeTree.UpdateChildren rest
end

mutual
/-- The meshes owned by the nodes of a subtree, parents first. -/
def NodeTree.meshes : NodeTree → List Mesh
  | NodeTree.mk _ mesh children => mesh.toList ++ NodeTree.meshesOfAll children
/-- The meshes owned by the nodes of several subtrees. -/
def NodeTree.meshesOfAll : List NodeTree → List Mesh
  | [] => []
  | child :: rest => NodeTree.meshes child ++ NodeTree.meshesOfAll rest
end

mutual
/-- The subtree with the model matrix of every mesh blanked out: what is left
is every other member of every node. -/
def NodeTree.withoutModelMatrix : NodeTree → NodeTree
  | NodeTree.mk node mesh children =>
      NodeTree.mk node
        (mesh.map fun m => { m with pushConstantsBlock := { modelMatrix := 0 } })
        (NodeTree.withoutModelMatrixAll children)
/-- The same for several subtrees. -/
def NodeTree.withoutModelMatrixAll : List NodeTree → List NodeTree
  | [] => []
  | child :: rest => NodeTree.withoutModelMatrix child :: NodeTree.withoutModelMatrixAll rest
end

/-! ## Uniform data sizes, buffers of a model (RenderSystem.hpp, mesh.hpp, mesh.cpp) -/

/-- The layout of `glm::mat4` in glm's default configuration: sixteen
consecutive 32-bit floats, aligned as a float. -/
def glm.mat4 : MemberLayout := { size := 64, align := 4 }

namespace UniformBufferObject

/-- The data members of `UniformBufferObject` in declaration order
(RenderSystem.hpp:13-17): `model`, `view`, `proj`. -/
def members : List MemberLayout := [glm.mat4, glm.mat4, glm.mat4]

/-- The expression `sizeof(UniformBufferObject)`. -/
def sizeof : Nat := structSize members

end UniformBufferObject

/-- The constant `Mesh::PushConstantsBlockSize` (mesh.hpp:124):
`sizeof(Mesh::PushConstantsBlock)`, a struct of one `glm::mat4`. -/
def Mesh.PushConstantsBlockSize : Nat := structSize [glm.mat4]

/-- The member `uniformBufferMaxHackSize` (mesh.hpp:238). -/
def uniformBufferMaxHackSize : Nat := 192

/-- Calls into `VulkanBuffer`, defined outside the embedded files. -/
inductive BufferCall where
  | createBuffer (size : Nat) (usage : List BufferUsageFlagBits)
      (properties : List MemoryPropertyFlagBits)
  | uploadData (size : Nat) (elements : Nat)
deriving DecidableEq, Repr, Inhabited

/-- `CreateVertexBuffers` (mesh.cpp:327-376) for a model holding `vertices`
vertices and `indices` 32-bit indices: the flag returned and the buffer calls. -/
def CreateVertexBuffers (vertices indices : Nat) : Bool × List BufferCall :=
  let vertexBufferSize : Nat := Vertex.sizeof * vertices
  let indexBufferSize : Nat := 4 * indices
  (true,
   [ BufferCall.createBuffer vertexBufferSize
       [BufferUsageFlagBits.eTransferDst, BufferUsageFlagBits.eVertexBuffer]
       [MemoryPropertyFlagBits.eDeviceLocal],
     BufferCall.createBuffer indexBufferSize
       [BufferUsageFlagBits.eTransferDst, BufferUsageFlagBits.eIndexBuffer]
       [MemoryPropertyFlagBits.eDeviceLocal],
     BufferCall.createBuffer uniformBufferMaxHackSize [BufferUsageFlagBits.eUniformBuffer]
       [MemoryPropertyFlagBits.eHostVisible, MemoryPropertyFlagBits.eHostCoherent],
     BufferCall.uploadData vertexBufferSize vertices,
     BufferCall.uploadData indexBufferSize indices ])

/-- `vk::DescriptorBufferInfo`. -/
structure DescriptorBufferInfo where
  buffer : Nat := 0
  offset : Nat := 0
  range : Nat := 0
deriving DecidableEq, Repr, Inhabited

/-- `CreateDescriptorSet` (mesh.cpp:378-412): the flag returned and the
buffer info written into the descriptor set; `descriptorSet` is `none` when
the allocation does not report `eSuccess`. -/
def CreateDescriptorSet (descriptorSet : Option Nat) (uniformBuffer hardcodedGlobalUBOSize : Nat) :
    Bool × Option DescriptorBufferInfo :=
  match descriptorSet with
  | none => (false, none)
  | some _ =>
      (true, some { buffer := uniformBuffer, offset := 0, range := hardcodedGlobalUBOSize })

/-! ## Teardown of the device (vulkan_device.cpp, lines 269-277) -/

/-- Calls the destructor of `VulkanDevice` makes. -/
inductive TeardownCall where
  | destroyCommandPool (device pool : Nat)
  | destroyDescriptorPool (device pool : Nat)
  | destroyDevice (device : Nat)
  | destroySurfaceKHR (instanceHandle surface : Nat)
  | SDL_DestroyWindow (window : Nat)
deriving DecidableEq, Repr, Inhabited

/-- The destructor `VulkanDevice::~VulkanDevice` (vulkan_device.cpp:269-277):
its calls in order. -/
def VulkanDevice.dtor (d : VulkanDevice) : List TeardownCall :=
  [ TeardownCall.destroyCommandPool d.device d.graphicsCommandPool,
    TeardownCall.destroyDescriptorPool d.device d.descriptorPool,
    TeardownCall.destroyDevice d.device,
    TeardownCall.destroySurfaceKHR d.instanceHandle d.surface,
    TeardownCall.SDL_DestroyWindow d.window ]

/-- A glTF primitive of three vertices with three 16-bit indices. -/
def GltfPrimitive.sample : GltfPrimitive :=
  { position :=
      { count := 3, minValues := { x := 0, y := 0, z := 0 },
        maxValues := { x := 1, y := 1, z := 0 } },
    vertex := fun _ => default,
    indices := some { componentType := 5123, count := 3, buf := [0, 1, 2] } }

/-- A second glTF primitive, of four vertices and no indices. -/
def GltfPrimitive.sample2 : GltfPrimitive :=
  { position :=
      { count := 4, minValues := { x := -1, y := 0, z := -2 },
        maxValues := { x := 0, y := 3, z := 0 } },
    vertex := fun _ => default,
    indices := none }

/-- The double nearest to 0.1, which is what a glTF file's `0.1` is read as. -/
def doubleTenth : ℚ := 3602879701896397 / 36028797018963968

/-- A glTF primitive without indices whose POSITION minimum has the x component
0.1. -/
def GltfPrimitive.sampleTenth : GltfPrimitive :=
  { position :=
      { count := 3, minValues := { x := doubleTenth, y := 0, z := 0 },
        maxValues := { x := 1, y := 1, z := 0 } },
    vertex := fun _ => default,
    indices := none }

/-- A subtree of three nodes: a translated root owning a mesh, a child without
a mesh, and under it a scaled grandchild owning a mesh whose model matrix is
not the identity. -/
def NodeTree.sample : NodeTree :=
  NodeTree.mk { matrix := 1, translation := { x := 1, y := 2, z := 3 } }
    (some { pushConstantsBlock := { modelMatrix := 0 } })
    [NodeTree.mk { parent := some 1, matrix := 1 } none
      [NodeTree.mk { parent := some 2, matrix := 1, scale := { x := 2, y := 2, z := 2 } }
        (some { bb := BoundingBox.sample, pushConstantsBlock := { modelMatrix := 2 } }) []]]

end ez

namespace Ride

/-- The value `VK_FALSE`. -/
def VK_FALSE : Nat := 0

/-- `VulkanDebugCallback` (VulkanInstance.cpp:9-21): the value returned and
the text printed. -/
def VulkanDebugCallback (_flags _objType _obj _location : Nat) (_code : Int)
    (_layerPrefix msg : String) (_userData : Nat) : Nat × List String :=
  (VK_FALSE, ["VULKAN VALIDATION: " ++ msg ++ "\n"])

end Ride

/-! ## Theorems -/

namespace ez

theorem toU32_of_lt {n : Nat} (h : n < 2 ^ 32) : toU32 n = n := by
  unfold toU32 UINT32_SIZE
  exact Nat.mod_eq_of_lt h

theorem mipLevelsFor_eq (width height : Nat) (hw : width < 2 ^ 32) (hh : height < 2 ^ 32)
    (hm : 1 ≤ max width height) :
    mipLevelsFor width height = some (Nat.log 2 (max width height) + 1) := by
  have hlt : max width height < 2 ^ 32 := max_lt hw hh
  have hne : max width height ≠ 0 := by omega
  have hlog : Nat.log 2 (max width height) < 32 := Nat.log_lt_of_lt_pow hne hlt
  unfold mipLevelsFor
  simp only [hne, if_false]
  rw [toU32_of_lt (by omega)]

/-! ### The pixel copy of `CreateFromData` -/

/-- What one pixel's copy yields when it is defined. -/
theorem copyChannels_some (data : List Nat) (src dst c j : Nat) (buf r : List Nat)
    (h : copyChannels data src dst c j buf = some r) :
    r.length = buf.length
    ∧ (c = 0 ∨ (dst + j + c ≤ buf.length ∧ src + j + c ≤ data.length))
    ∧ ∀ k : Nat, k < buf.length →
        r[k]? = if dst + j ≤ k ∧ k < dst + j + c then some (data.getD (src + (k - dst)) 0)
                else buf[k]? := by
  induction c generalizing j buf with
  | zero =>
      simp only [copyChannels, Option.some.injEq] at h
      subst h
      refine ⟨rfl, Or.inl rfl, ?_⟩
      intro k _
      have h0 : ¬ (dst + j ≤ k ∧ k < dst + j + 0) := by omega
      rw [if_neg h0]
  | succ c ih =>
      simp only [copyChannels] at h
      cases hd : data[src + j]? with
      | none => simp [hd] at h
      | some byte =>
          simp only [hd] at h
          by_cases hb : dst + j < buf.length
          · rw [if_pos hb] at h
            obtain ⟨h1, h2, h3⟩ := ih (j + 1) _ h
            have hdl : src + j < data.length := by
              by_contra hcon
              rw [List.getElem?_eq_none (by omega)] at hd
              simp at hd
            have hbyte : data.getD (src + j) 0 = byte := by
              simp [List.getD_eq_getElem?_getD, hd]
            rw [List.length_set] at h1 h2
            refine ⟨h1, Or.inr ?_, ?_⟩
            · rcases h2 with h2 | h2 <;> omega
            · intro k hk
              rw [h3 k (by simpa using hk), List.getElem?_set]
              by_cases c1 : dst + (j + 1) ≤ k ∧ k < dst + (j + 1) + c
              · have c2 : dst + j ≤ k ∧ k < dst + j + (c + 1) := by omega
                rw [if_pos c1, if_pos c2]
              · by_cases c3 : dst + j = k
                · have c2 : dst + j ≤ k ∧ k < dst + j + (c + 1) := by omega
                  have c5 : k - dst = j := by omega
                  rw [if_neg c1, if_pos c3, if_pos hb, if_pos c2, c5, hbyte]
                · have c2 : ¬ (dst + j ≤ k ∧ k < dst + j + (c + 1)) := by omega
                  rw [if_neg c1, if_neg c3, if_neg c2]
          · rw [if_neg hb] at h
            simp at h

/-- One pixel's copy is defined when it stays within the input and the buffer. -/
theorem copyChannels_isSome (data : List Nat) (src dst c j : Nat) (buf : List Nat)
    (h : c = 0 ∨ (dst + j + c ≤ buf.length ∧ src + j + c ≤ data.length)) :
    ∃ r, copyChannels data src dst c j buf = some r := by
  induction c generalizing j buf with
  | zero => exact ⟨buf, rfl⟩
  | succ c ih =>
      have h2 : dst + j + (c + 1) ≤ buf.length ∧ src + j + (c + 1) ≤ data.length := by
        rcases h with h | h
        · omega
        · exact h
      have hd : src + j < data.length := by omega
      have hb : dst + j < buf.length := by omega
      simp only [copyChannels, List.getElem?_eq_getElem hd, if_pos hb]
      apply ih
      rw [List.length_set]
      right
      omega

/-- What the pixel loop yields when it is defined. -/
theorem copyPixels_some (data : List Nat) (channelsCount p i : Nat) (buf r : List Nat)
    (h : copyPixels data channelsCount p i buf = some r) :
    r.length = buf.length
    ∧ (p = 0
        ∨ (4 * (i + p) ≤ buf.length ∧ channelsCount * (i + p) ≤ data.length
            ∧ 4 * (i + p - 1) + channelsCount ≤ buf.length)) := by
  induction p generalizing i buf with
  | zero =>
      simp only [copyPixels, Option.some.injEq] at h
      subst h
      exact ⟨rfl, Or.inl rfl⟩
  | succ p ih =>
      simp only [copyPixels] at h
      cases hc : copyChannels data (channelsCount * i) (4 * i) channelsCount 0 buf with
      | none => simp [hc] at h
      | some buf1 =>
          simp only [hc] at h
          obtain ⟨h1, h2, _⟩ := copyChannels_some _ _ _ _ _ _ _ hc
          by_cases hptr : 4 * (i + 1) ≤ buf1.length ∧ channelsCount * (i + 1) ≤ data.length
          · rw [if_pos hptr] at h
            obtain ⟨g1, g2⟩ := ih (i + 1) buf1 h
            refine ⟨by rw [g1, h1], Or.inr ?_⟩
            rw [h1] at hptr g2
            rcases g2 with g2 | g2
            · subst g2
              refine ⟨hptr.1, hptr.2, ?_⟩
              rcases h2 with h2 | h2 <;> omega
            · rw [show i + (p + 1) = i + 1 + p by omega]
              exact g2
          · rw [if_neg hptr] at h
            simp at h

/-- The pixel loop is defined when every access and both pointers stay within
the input and the buffer. -/
theorem copyPixels_isSome (data : List Nat) (channelsCount p i : Nat) (buf : List Nat)
    (h : p = 0
        ∨ (4 * (i + p) ≤ buf.length ∧ channelsCount * (i + p) ≤ data.length
            ∧ channelsCount ≤ 4)) :
    ∃ r, copyPixels data channelsCount p i buf = some r := by
  induction p generalizing i buf with
  | zero => exact ⟨buf, rfl⟩
  | succ p ih =>
      have h2 : 4 * (i + (p + 1)) ≤ buf.length
          ∧ channelsCount * (i + (p + 1)) ≤ data.length ∧ channelsCount ≤ 4 := by
        rcases h with h | h
        · omega
        · exact h
      have e1 : channelsCount * (i + (p + 1))
          = channelsCount * (i + 1) + channelsCount * p := by ring
      have e2 : channelsCount * (i + 1) = channelsCount * i + channelsCount := by ring
      have hch : channelsCount = 0
          ∨ (4 * i + 0 + channelsCount ≤ buf.length
              ∧ channelsCount * i + 0 + channelsCount ≤ data.length) := by
        right
        constructor <;> omega
      obtain ⟨buf1, hb1⟩ := copyChannels_isSome data _ _ _ _ buf hch
      obtain ⟨hl, _, _⟩ := copyChannels_some _ _ _ _ _ _ _ hb1
      have hptr : 4 * (i + 1) ≤ buf1.length ∧ channelsCount * (i + 1) ≤ data.length := by
        rw [hl]
        constructor <;> omega
      simp only [copyPixels, hb1, if_pos hptr]
      apply ih
      right
      rw [hl, show i + 1 + p = i + (p + 1) by omega]
      exact h2

theorem copyPixels_getElem? (data : List Nat) (channelsCount : Nat) (hc : channelsCount ≤ 4)
    (p i : Nat) (buf r : List Nat) (h : copyPixels data channelsCount p i buf = some r)
    (k : Nat) (hk : k < buf.length) :
    r[k]?
      = if i ≤ k / 4 ∧ k / 4 < i + p ∧ k % 4 < channelsCount then
          some (data.getD (channelsCount * (k / 4) + k % 4) 0)
        else buf[k]? := by
  induction p generalizing i buf with
  | zero =>
      simp only [copyPixels, Option.some.injEq] at h
      subst h
      have h0 : ¬ (i ≤ k / 4 ∧ k / 4 < i + 0 ∧ k % 4 < channelsCount) := by omega
      rw [if_neg h0]
  | succ p ih =>
      simp only [copyPixels] at h
      cases hch : copyChannels data (channelsCount * i) (4 * i) channelsCount 0 buf with
      | none => simp [hch] at h
      | some buf1 =>
          simp only [hch] at h
          obtain ⟨hl, _, hget⟩ := copyChannels_some _ _ _ _ _ _ _ hch
          by_cases hptr : 4 * (i + 1) ≤ buf1.length ∧ channelsCount * (i + 1) ≤ data.length
          · rw [if_pos hptr] at h
            rw [ih (i + 1) buf1 h (by rw [hl]; exact hk), hget k hk]
            by_cases h1 : i + 1 ≤ k / 4 ∧ k / 4 < i + 1 + p ∧ k % 4 < channelsCount
            · have h2 : i ≤ k / 4 ∧ k / 4 < i + (p + 1) ∧ k % 4 < channelsCount := by omega
              rw [if_pos h1, if_pos h2]
            · by_cases h3 : 4 * i + 0 ≤ k ∧ k < 4 * i + 0 + channelsCount
              · have h4 : k / 4 = i := by omega
                have h5 : k % 4 = k - 4 * i := by omega
                have h2 : i ≤ k / 4 ∧ k / 4 < i + (p + 1) ∧ k % 4 < channelsCount := by omega
                rw [if_neg h1, if_pos h3, if_pos h2, h4, h5]
              · have h2 : ¬ (i ≤ k / 4 ∧ k / 4 < i + (p + 1) ∧ k % 4 < channelsCount) := by
                  omega
                rw [if_neg h1, if_neg h3, if_neg h2]
          · rw [if_neg hptr] at h
            simp at h

theorem mipLevelsFor_isSome (width height : Nat) :
    (mipLevelsFor width height).isSome = true ↔ 1 ≤ Nat.max width height := by
  unfold mipLevelsFor
  by_cases h : max width height = 0
  · simp [h]
  · have : 1 ≤ max width height := by omega
    simp [h, this]

/-- What `CreateFromData` returns when it is defined. -/
theorem CreateFromData_some (data : List Nat) (width height channelsCount : Nat)
    (textureSampler : TextureSampler) (ci : TextureCreationInfo)
    (h : TextureCreationInfo.CreateFromData data width height channelsCount textureSampler
      = some ci) :
    ci.bufferSize = toU32 (width * height * 4) ∧ ci.buffer.length = ci.bufferSize
      ∧ ci.width = width ∧ ci.height = height
      ∧ mipLevelsFor width height = some ci.mipLevels
      ∧ copyPixels data channelsCount (toU32 (width * height)) 0
          (List.replicate (toU32 (width * height * 4)) 0) = some ci.buffer := by
  unfold TextureCreationInfo.CreateFromData at h
  simp only [] at h
  cases hp : copyPixels data channelsCount (toU32 (width * height)) 0
      (List.replicate (toU32 (width * height * 4)) 0) with
  | none => simp [hp] at h
  | some buffer =>
      cases hm : mipLevelsFor width height with
      | none => simp [hp, hm] at h
      | some m =>
          simp only [hp, hm, Option.some.injEq] at h
          subst h
          obtain ⟨hl, _⟩ := copyPixels_some _ _ _ _ _ _ hp
          simp [hl]

/-- The call is defined exactly when the size is not 0x0 and either the
32-bit pixel count is 0 or the buffer size does not wrap, at most four
channels are copied and the input holds every pixel. -/
theorem CreateFromData_isSome_iff (data : List Nat) (width height channelsCount : Nat)
    (textureSampler : TextureSampler) :
    (∃ ci, TextureCreationInfo.CreateFromData data width height channelsCount textureSampler
        = some ci)
      ↔ 1 ≤ max width height
        ∧ (toU32 (width * height) = 0
          ∨ (toU32 (width * height) < 2 ^ 30 ∧ channelsCount ≤ 4
              ∧ channelsCount * toU32 (width * height) ≤ data.length)) := by
  have hB : toU32 (width * height * 4) = (4 * toU32 (width * height)) % 2 ^ 32 := by
    unfold toU32 UINT32_SIZE
    omega
  constructor
  · rintro ⟨ci, hci⟩
    obtain ⟨_, _, _, _, hm, hp⟩ := CreateFromData_some _ _ _ _ _ _ hci
    have h1 : 1 ≤ max width height := by
      apply (mipLevelsFor_isSome width height).mp
      rw [hm]; rfl
    obtain ⟨_, hb⟩ := copyPixels_some _ _ _ _ _ _ hp
    simp only [List.length_replicate, Nat.zero_add] at hb
    refine ⟨h1, ?_⟩
    rcases hb with hb | ⟨hb1, hb2, hb3⟩
    · exact Or.inl hb
    · by_cases hz : toU32 (width * height) = 0
      · exact Or.inl hz
      · right
        rw [hB] at hb1 hb3
        refine ⟨?_, ?_, hb2⟩ <;> omega
  · rintro ⟨h1, hb⟩
    have hcond : toU32 (width * height) = 0
        ∨ (4 * (0 + toU32 (width * height))
              ≤ (List.replicate (toU32 (width * height * 4)) 0).length
            ∧ channelsCount * (0 + toU32 (width * height)) ≤ data.length
            ∧ channelsCount ≤ 4) := by
      rcases hb with hb | ⟨hb1, hb2, hb3⟩
      · exact Or.inl hb
      · right
        rw [List.length_replicate, hB, Nat.zero_add]
        refine ⟨by omega, hb3, hb2⟩
    obtain ⟨buffer, hp⟩ := copyPixels_isSome data channelsCount (toU32 (width * height)) 0
      (List.replicate (toU32 (width * height * 4)) 0) hcond
    have hm := (mipLevelsFor_isSome width height).mpr h1
    obtain ⟨m, hm⟩ := Option.isSome_iff_exists.mp hm
    unfold TextureCreationInfo.CreateFromData
    simp only [hp, hm]
    exact ⟨_, rfl⟩

theorem GenerateMipsForImage_loop_eq (image width height mipLevels i : Nat) (cb : List Cmd) :
    Image.GenerateMipsForImage.loop image width height mipLevels i cb
      = cb ++ Image.mipSteps image width height (mipLevels - i) i := by
  generalize h : mipLevels - i = n
  induction n generalizing i cb with
  | zero =>
      rw [Image.GenerateMipsForImage.loop]
      have : ¬ i < mipLevels := by omega
      simp [this, Image.mipSteps]
  | succ n ih =>
      rw [Image.GenerateMipsForImage.loop]
      have hlt : i < mipLevels := by omega
      simp only [hlt, if_true]
      rw [ih (i + 1) _ (by omega)]
      simp [Image.mipSteps, Image.mipStep, Image.SubmitChangeImageLayout]

theorem LoadToGpu_mipLoop_eq (image width height mipLevels i : Nat) (cb : List Cmd) :
    Texture.LoadToGpu.mipLoop image width height mipLevels i cb
      = cb ++ Image.mipSteps image width height (mipLevels - i) i := by
  generalize h : mipLevels - i = n
  induction n generalizing i cb with
  | zero =>
      rw [Texture.LoadToGpu.mipLoop]
      have : ¬ i < mipLevels := by omega
      simp [this, Image.mipSteps]
  | succ n ih =>
      rw [Texture.LoadToGpu.mipLoop]
      have hlt : i < mipLevels := by omega
      simp only [hlt, if_true]
      rw [ih (i + 1) _ (by omega)]
      simp [Image.mipSteps, Image.mipStep]

/-- The final barrier both mip paths record over the whole range. -/
theorem GenerateMipsForImage_commands_eq (image width height mipLevels : Nat) :
    Image.GenerateMipsForImage.commands image width height mipLevels
      = Image.mipSteps image width height (mipLevels - 1) 1
        ++ [Cmd.pipelineBarrier [PipelineStageFlagBits.eAllCommands]
              [PipelineStageFlagBits.eAllCommands]
              { srcAccessMask := [AccessFlagBits.eTransferWrite],
                dstAccessMask := [AccessFlagBits.eTransferRead],
                oldLayout := ImageLayout.eTransferSrcOptimal,
                newLayout := ImageLayout.eShaderReadOnlyOptimal,
                image := image,
                subresourceRange :=
                  { aspectMask := [ImageAspectFlagBits.eColor], levelCount := mipLevels,
                    layerCount := 1 } }] := by
  unfold Image.GenerateMipsForImage.commands
  simp [GenerateMipsForImage_loop_eq, Image.SubmitChangeImageLayout]

theorem LoadToGpu_mipCommands_eq (image width height mipLevels : Nat) :
    Texture.LoadToGpu.mipCommands image width height mipLevels
      = Image.mipSteps image width height (mipLevels - 1) 1
        ++ [Cmd.pipelineBarrier [PipelineStageFlagBits.eAllCommands]
              [PipelineStageFlagBits.eAllCommands]
              { srcAccessMask := [AccessFlagBits.eTransferWrite],
                dstAccessMask := [AccessFlagBits.eTransferRead],
                oldLayout := ImageLayout.eTransferSrcOptimal,
                newLayout := ImageLayout.eShaderReadOnlyOptimal,
                image := image,
                subresourceRange :=
                  { aspectMask := [ImageAspectFlagBits.eColor], levelCount := mipLevels,
                    layerCount := 1 } }] := by
  unfold Texture.LoadToGpu.mipCommands
  simp [LoadToGpu_mipLoop_eq]

theorem mipSteps_length (image width height n i : Nat) :
    (Image.mipSteps image width height n i).length = 3 * n := by
  induction n generalizing i with
  | zero => simp [Image.mipSteps]
  | succ n ih => simp [Image.mipSteps, Image.mipStep, ih]; omega

theorem mipSteps_shape (image width height n i : Nat) :
    (Image.mipSteps image width height n (i + 1)).map Cmd.shape
      = (List.range n).flatMap (fun k =>
          [ CmdShape.barrier (k + i + 1) 1 ImageLayout.eUndefined
              ImageLayout.eTransferDstOptimal,
            CmdShape.blit (k + i) (k + i + 1),
            CmdShape.barrier (k + i + 1) 1 ImageLayout.eTransferDstOptimal
              ImageLayout.eTransferSrcOptimal ]) := by
  induction n generalizing i with
  | zero => simp [Image.mipSteps]
  | succ n ih =>
      rw [List.range_succ_eq_map, List.flatMap_cons, List.flatMap_map]
      simp only [Image.mipSteps, List.map_append, ih (i + 1)]
      congr 1
      · simp [Image.mipStep, Cmd.shape, Image.mipSubRange, Image.mipBlit]
      · congr 1
        funext k
        simp only [Function.comp, Nat.succ_eq_add_one]
        have h1 : k + (i + 1) = k + 1 + i := by omega
        rw [h1]

/-! ### Layout tracking over the mip steps -/

theorem layoutsAfter_append (a b : List Cmd) (st : Nat → ImageLayout) :
    layoutsAfter (a ++ b) st = layoutsAfter b (layoutsAfter a st) := by
  simp [layoutsAfter, List.foldl_append]

theorem blitObservations_append (a b : List Cmd) (st : Nat → ImageLayout) :
    blitObservations (a ++ b) st
      = blitObservations a st ++ blitObservations b (layoutsAfter a st) := by
  induction a generalizing st with
  | nil => simp [blitObservations, layoutsAfter]
  | cons c cs ih =>
      cases c <;> simp [blitObservations, layoutsAfter, ih]

theorem barriersMatch_append (a b : List Cmd) (st : Nat → ImageLayout) :
    barriersMatch (a ++ b) st
      = (barriersMatch a st && barriersMatch b (layoutsAfter a st)) := by
  induction a generalizing st with
  | nil => simp [barriersMatch, layoutsAfter]
  | cons c cs ih =>
      cases c <;> simp [barriersMatch, layoutsAfter, ih, Bool.and_assoc]

theorem levelTransitions_append (l : Nat) (a b : List Cmd) :
    levelTransitions l (a ++ b) = levelTransitions l a ++ levelTransitions l b := by
  induction a with
  | nil => simp [levelTransitions]
  | cons c cs ih =>
      cases c with
      | pipelineBarrier s d bar =>
          by_cases hc : coversLevel bar.subresourceRange l = true
          · simp [levelTransitions, hc, ih]
          · simp [levelTransitions, hc, ih]
      | blitImage => simp [levelTransitions, ih]
      | copyBufferToImage => simp [levelTransitions, ih]

theorem coversLevel_mipSubRange (i l : Nat) :
    coversLevel (Image.mipSubRange i) l = decide (l = i) := by
  unfold coversLevel Image.mipSubRange
  by_cases h : l = i
  · subst h; simp
  · simp only [h, decide_False]
    rw [Bool.and_eq_false_iff]
    simp only [decide_eq_false_iff_not]
    omega

theorem layoutsAfter_mipStep (image width height i : Nat) (st : Nat → ImageLayout) :
    layoutsAfter (Image.mipStep image width height i) st
      = fun l => if l = i then ImageLayout.eTransferSrcOptimal else st l := by
  funext l
  simp only [layoutsAfter, Image.mipStep, List.foldl_cons, List.foldl_nil, applyCmd,
    coversLevel_mipSubRange]
  by_cases h : l = i <;> simp [h]

theorem layoutsAfter_mipSteps (image width height n i : Nat) (st : Nat → ImageLayout) :
    layoutsAfter (Image.mipSteps image width height n i) st
      = fun l => if i ≤ l ∧ l < i + n then ImageLayout.eTransferSrcOptimal else st l := by
  induction n generalizing i st with
  | zero =>
      funext l
      have : ¬ (i ≤ l ∧ l < i) := by omega
      simp [Image.mipSteps, layoutsAfter, this]
  | succ n ih =>
      funext l
      simp only [Image.mipSteps, layoutsAfter_append, layoutsAfter_mipStep, ih]
      by_cases h1 : i + 1 ≤ l ∧ l < i + 1 + n
      · have h2 : i ≤ l ∧ l < i + (n + 1) := by omega
        simp [h1, h2]
      · by_cases h3 : l = i
        · have h2 : i ≤ l ∧ l < i + (n + 1) := by omega
          simp [h1, h2, h3]
        · have h2 : ¬ (i ≤ l ∧ l < i + (n + 1)) := by omega
          simp [h1, h2, h3]

theorem blitObservations_mipStep (image width height i : Nat) (st : Nat → ImageLayout) :
    blitObservations (Image.mipStep image width height (i + 1)) st
      = [(i, i + 1, st i, ImageLayout.eTransferDstOptimal)] := by
  simp [Image.mipStep, blitObservations, applyCmd, coversLevel_mipSubRange, Image.mipBlit]

theorem blitObservations_mipSteps (image width height n i : Nat) (st : Nat → ImageLayout)
    (h0 : st i = ImageLayout.eTransferSrcOptimal) :
    blitObservations (Image.mipSteps image width height n (i + 1)) st
      = (List.range n).map (fun k =>
          (k + i, k + i + 1, ImageLayout.eTransferSrcOptimal,
            ImageLayout.eTransferDstOptimal)) := by
  induction n generalizing i st with
  | zero => simp [Image.mipSteps, blitObservations]
  | succ n ih =>
      rw [List.range_succ_eq_map, List.map_cons, List.map_map]
      simp only [Image.mipSteps, blitObservations_append, blitObservations_mipStep]
      rw [ih (i + 1) _ (by simp [layoutsAfter_mipStep])]
      simp only [h0, Nat.zero_add, List.singleton_append, List.cons.injEq, true_and]
      apply List.map_congr_left
      intro k _
      simp only [Function.comp, Nat.succ_eq_add_one]
      have h1 : k + (i + 1) = k + 1 + i := by omega
      rw [h1]

theorem oneTimeCommands_GenerateMipsForImage (logicalDevice graphicsQueue graphicsCommandPool
    image width height mipLevels : Nat) :
    oneTimeCommands (Image.GenerateMipsForImage logicalDevice graphicsQueue
        graphicsCommandPool image width height mipLevels).2
      = Image.GenerateMipsForImage.commands image width height mipLevels := by
  simp [oneTimeCommands, Image.GenerateMipsForImage, List.filterMap_append,
    List.filterMap_map, Function.comp_def]

/-- C2: in the sequence `GenerateMipsForImage` records, with level 0 in
TransferSrcOptimal and levels 1..mipLevels-1 in Undefined at entry, the blits
are those from level i-1 into level i for i = 1..mipLevels-1 in this order, and
at the moment each is recorded level i-1 is tracked in TransferSrcOptimal and
level i in TransferDstOptimal. -/
theorem GenerateMipsForImage_blit_layouts (logicalDevice graphicsQueue graphicsCommandPool
    image width height mipLevels : Nat) (st : Nat → ImageLayout)
    (h0 : st 0 = ImageLayout.eTransferSrcOptimal)
    (_hrest : ∀ l, 1 ≤ l → l < mipLevels → st l = ImageLayout.eUndefined) :
    blitObservations (oneTimeCommands (Image.GenerateMipsForImage logicalDevice graphicsQueue
        graphicsCommandPool image width height mipLevels).2) st
      = (List.range (mipLevels - 1)).map (fun k =>
          (k, k + 1, ImageLayout.eTransferSrcOptimal, ImageLayout.eTransferDstOptimal)) := by
  rw [oneTimeCommands_GenerateMipsForImage, GenerateMipsForImage_commands_eq,
    blitObservations_append, blitObservations_mipSteps image width height _ 0 st h0]
  simp [blitObservations]

theorem GenerateMipsForImage_blit_layouts_witness :
    (layoutsAtMipEntry 0 = ImageLayout.eTransferSrcOptimal
      ∧ ∀ l, 1 ≤ l → l < 4 → layoutsAtMipEntry l = ImageLayout.eUndefined)
    ∧ blitObservations (oneTimeCommands (Image.GenerateMipsForImage 1 2 3 7 8 8 4).2)
        layoutsAtMipEntry
      = (List.range (4 - 1)).map (fun k =>
          (k, k + 1, ImageLayout.eTransferSrcOptimal, ImageLayout.eTransferDstOptimal)) :=
  have h0 : layoutsAtMipEntry 0 = ImageLayout.eTransferSrcOptimal := rfl
  have hrest : ∀ l, 1 ≤ l → l < 4 → layoutsAtMipEntry l = ImageLayout.eUndefined := by
    intro l h1 _
    have : l ≠ 0 := by omega
    simp [layoutsAtMipEntry, this]
  ⟨⟨h0, hrest⟩, GenerateMipsForImage_blit_layouts 1 2 3 7 8 8 4 layoutsAtMipEntry h0 hrest⟩

/-- C3: `GenerateMipsForImage` returns true and makes, on one one-time command
buffer, one `Start`, then the commands of the mip algorithm (for i = 1 ..
mipLevels-1: barrier level i Undefined to TransferDstOptimal, blit level i-1
into level i, barrier level i TransferDstOptimal to TransferSrcOptimal; then one
barrier of levels 0..mipLevels-1 from TransferSrcOptimal to
ShaderReadOnlyOptimal), 3*(mipLevels-1)+1 commands in all, then one
`EndSubmitAndWait`. -/
theorem GenerateMipsForImage_sequence (logicalDevice graphicsQueue graphicsCommandPool
    image width height mipLevels : Nat) :
    ∃ cmds : List Cmd,
      Image.GenerateMipsForImage logicalDevice graphicsQueue graphicsCommandPool image
          width height mipLevels
        = (true, [Image.OneTimeCall.Start logicalDevice graphicsCommandPool]
            ++ cmds.map Image.OneTimeCall.record
            ++ [Image.OneTimeCall.EndSubmitAndWait graphicsQueue])
      ∧ cmds.map Cmd.shape = mipSequenceSpec mipLevels
      ∧ cmds.length = 3 * (mipLevels - 1) + 1 := by
  refine ⟨Image.GenerateMipsForImage.commands image width height mipLevels, rfl, ?_, ?_⟩
  · rw [GenerateMipsForImage_commands_eq, List.map_append, mipSteps_shape]
    simp [mipSequenceSpec, Cmd.shape]
  · rw [GenerateMipsForImage_commands_eq]
    simp [mipSteps_length]

/-! ### Layouts over the whole upload and mip sequence -/

theorem mipSubRange_levelCount (i : Nat) : (Image.mipSubRange i).levelCount = 1 := rfl

theorem mipSubRange_baseMipLevel (i : Nat) : (Image.mipSubRange i).baseMipLevel = i := rfl

theorem barriersMatch_mipStep (image width height i : Nat) (st : Nat → ImageLayout)
    (h : st i = ImageLayout.eUndefined) :
    barriersMatch (Image.mipStep image width height i) st = true := by
  simp [Image.mipStep, barriersMatch, applyCmd, coversLevel_mipSubRange,
    mipSubRange_levelCount, mipSubRange_baseMipLevel, h]

theorem barriersMatch_mipSteps (image width height n i : Nat) (st : Nat → ImageLayout)
    (h : ∀ l, i ≤ l → l < i + n → st l = ImageLayout.eUndefined) :
    barriersMatch (Image.mipSteps image width height n i) st = true := by
  induction n generalizing i st with
  | zero => simp [Image.mipSteps, barriersMatch]
  | succ n ih =>
      simp only [Image.mipSteps, barriersMatch_append, Bool.and_eq_true]
      refine ⟨barriersMatch_mipStep image width height i st (h i (le_refl i) (by omega)), ?_⟩
      apply ih
      intro l h1 h2
      have hne : l ≠ i := by omega
      simp only [layoutsAfter_mipStep, hne, if_false]
      exact h l (by omega) (by omega)

theorem levelTransitions_mipStep (image width height i l : Nat) :
    levelTransitions l (Image.mipStep image width height i)
      = if l = i then
          [ (ImageLayout.eUndefined, ImageLayout.eTransferDstOptimal),
            (ImageLayout.eTransferDstOptimal, ImageLayout.eTransferSrcOptimal) ]
        else [] := by
  by_cases h : l = i <;>
    simp [Image.mipStep, levelTransitions, coversLevel_mipSubRange, h]

theorem levelTransitions_mipSteps (image width height n i l : Nat) :
    levelTransitions l (Image.mipSteps image width height n i)
      = if i ≤ l ∧ l < i + n then
          [ (ImageLayout.eUndefined, ImageLayout.eTransferDstOptimal),
            (ImageLayout.eTransferDstOptimal, ImageLayout.eTransferSrcOptimal) ]
        else [] := by
  induction n generalizing i with
  | zero =>
      have : ¬ (i ≤ l ∧ l < i) := by omega
      simp [Image.mipSteps, levelTransitions, this]
  | succ n ih =>
      simp only [Image.mipSteps, levelTransitions_append, levelTransitions_mipStep, ih]
      by_cases h1 : l = i
      · have h2 : ¬ (i + 1 ≤ l ∧ l < i + 1 + n) := by omega
        have h3 : i ≤ l ∧ l < i + (n + 1) := by omega
        simp [h1, h2, h3]
      · by_cases h2 : i + 1 ≤ l ∧ l < i + 1 + n
        · have h3 : i ≤ l ∧ l < i + (n + 1) := by omega
          simp [h1, h2, h3]
        · have h3 : ¬ (i ≤ l ∧ l < i + (n + 1)) := by omega
          simp [h1, h2, h3]

theorem uploadCommands_eq (image stagingBuffer width height : Nat) :
    ∃ region,
      Texture.LoadToGpu.uploadCommands image stagingBuffer width height
        = [ Cmd.pipelineBarrier [PipelineStageFlagBits.eAllCommands]
              [PipelineStageFlagBits.eAllCommands]
              { srcAccessMask := [], dstAccessMask := [AccessFlagBits.eTransferWrite],
                oldLayout := ImageLayout.eUndefined,
                newLayout := ImageLayout.eTransferDstOptimal,
                image := image, subresourceRange := Image.mipSubRange 0 },
            Cmd.copyBufferToImage stagingBuffer image ImageLayout.eTransferDstOptimal region,
            Cmd.pipelineBarrier [PipelineStageFlagBits.eAllCommands]
              [PipelineStageFlagBits.eAllCommands]
              { srcAccessMask := [AccessFlagBits.eTransferWrite],
                dstAccessMask := [AccessFlagBits.eTransferRead],
                oldLayout := ImageLayout.eTransferDstOptimal,
                newLayout := ImageLayout.eTransferSrcOptimal,
                image := image, subresourceRange := Image.mipSubRange 0 } ] :=
  ⟨_, rfl⟩

theorem layoutsAfter_uploadCommands (image stagingBuffer width height : Nat) :
    layoutsAfter (Texture.LoadToGpu.uploadCommands image stagingBuffer width height)
      layoutsAtCreation = layoutsAtMipEntry := by
  obtain ⟨region, h⟩ := uploadCommands_eq image stagingBuffer width height
  rw [h]
  funext l
  by_cases hl : l = 0 <;>
    simp [layoutsAfter, applyCmd, coversLevel_mipSubRange, layoutsAtCreation,
      layoutsAtMipEntry, hl]

theorem barriersMatch_uploadCommands (image stagingBuffer width height : Nat) :
    barriersMatch (Texture.LoadToGpu.uploadCommands image stagingBuffer width height)
      layoutsAtCreation = true := by
  obtain ⟨region, h⟩ := uploadCommands_eq image stagingBuffer width height
  rw [h]
  simp [barriersMatch, applyCmd, coversLevel_mipSubRange, layoutsAtCreation,
    mipSubRange_levelCount, mipSubRange_baseMipLevel]

theorem levelTransitions_uploadCommands (image stagingBuffer width height l : Nat) :
    levelTransitions l (Texture.LoadToGpu.uploadCommands image stagingBuffer width height)
      = if l = 0 then
          [ (ImageLayout.eUndefined, ImageLayout.eTransferDstOptimal),
            (ImageLayout.eTransferDstOptimal, ImageLayout.eTransferSrcOptimal) ]
        else [] := by
  obtain ⟨region, h⟩ := uploadCommands_eq image stagingBuffer width height
  rw [h]
  by_cases hl : l = 0 <;> simp [levelTransitions, coversLevel_mipSubRange, hl]

theorem layoutsAfter_mipSteps_entry (image width height mipLevels l : Nat)
    (hl : l < mipLevels) :
    layoutsAfter (Image.mipSteps image width height (mipLevels - 1) 1) layoutsAtMipEntry l
      = ImageLayout.eTransferSrcOptimal := by
  rw [layoutsAfter_mipSteps]
  by_cases h : 1 ≤ l ∧ l < 1 + (mipLevels - 1)
  · simp [h]
  · have : l = 0 := by omega
    simp [this, layoutsAtMipEntry]

/-- The layout facts of the whole sequence `uploadCommands ++ mipCommands`,
starting from a freshly created image. -/
theorem upload_mip_layouts (image stagingBuffer width height mipLevels : Nat) :
    barriersMatch (Texture.LoadToGpu.uploadCommands image stagingBuffer width height
        ++ Texture.LoadToGpu.mipCommands image width height mipLevels) layoutsAtCreation = true
    ∧ (∀ l, l < mipLevels →
        levelTransitions l (Texture.LoadToGpu.uploadCommands image stagingBuffer width height
            ++ Texture.LoadToGpu.mipCommands image width height mipLevels)
          = [ (ImageLayout.eUndefined, ImageLayout.eTransferDstOptimal),
              (ImageLayout.eTransferDstOptimal, ImageLayout.eTransferSrcOptimal),
              (ImageLayout.eTransferSrcOptimal, ImageLayout.eShaderReadOnlyOptimal) ])
    ∧ (∀ l, l < mipLevels →
        layoutsAfter (Texture.LoadToGpu.uploadCommands image stagingBuffer width height
            ++ Texture.LoadToGpu.mipCommands image width height mipLevels) layoutsAtCreation l
          = ImageLayout.eShaderReadOnlyOptimal) := by
  rw [LoadToGpu_mipCommands_eq]
  refine ⟨?_, ?_, ?_⟩
  · rw [barriersMatch_append, barriersMatch_uploadCommands, layoutsAfter_uploadCommands,
      barriersMatch_append, barriersMatch_mipSteps]
    · simp only [barriersMatch, Bool.true_and, Bool.and_true, List.all_eq_true,
        List.mem_range, decide_eq_true_eq, Nat.zero_add]
      intro k hk
      exact layoutsAfter_mipSteps_entry image width height mipLevels k hk
    · intro l h1 _
      have : l ≠ 0 := by omega
      simp [layoutsAtMipEntry, this]
  · intro l hl
    rw [levelTransitions_append, levelTransitions_append, levelTransitions_uploadCommands,
      levelTransitions_mipSteps]
    have hc : coversLevel ({ aspectMask := [ImageAspectFlagBits.eColor],
                             levelCount := mipLevels,
                             layerCount := 1 } : ImageSubresourceRange) l = true := by
      simp [coversLevel, hl]
    by_cases h0 : l = 0
    · have h1 : ¬ (1 ≤ l ∧ l < 1 + (mipLevels - 1)) := by omega
      simp [levelTransitions, hc, h0, h1]
      simpa [h0] using hc
    · have h1 : 1 ≤ l ∧ l < 1 + (mipLevels - 1) := by omega
      simp [levelTransitions, hc, h0, h1]
  · intro l hl
    rw [layoutsAfter_append, layoutsAfter_append]
    simp [layoutsAfter, applyCmd, coversLevel, hl]

/-! ### `LoadToGpu` case by case -/

theorem CreateImage2D_cases (drv : Driver) (format : Format) (usage : List ImageUsageFlagBits)
    (mipLevels width height layersCount : Nat) (imageCreateFlags : List Nat)
    (samplesCount : Nat) :
    ∃ info,
      Image.CreateImage2D drv format usage mipLevels width height layersCount imageCreateFlags
          samplesCount = (ResultValue.ofResult GraphicsResult.Error, [DeviceCall.createImage info])
      ∨ ∃ image,
          Image.CreateImage2D drv format usage mipLevels width height layersCount
            imageCreateFlags samplesCount
            = ({ result := GraphicsResult.Ok, value := image }, [DeviceCall.createImage info]) := by
  unfold Image.CreateImage2D
  refine ⟨{ format := format, mipLevels := mipLevels, arrayLayers := layersCount,
            flags := imageCreateFlags, samples := samplesCount, usage := usage,
            initialLayout := ImageLayout.eUndefined,
            extent := { width := width, height := height, depth := 1 } }, ?_⟩
  simp only []
  split
  · left; rfl
  · right; exact ⟨_, rfl⟩

theorem CreateImageView2D_cases (drv : Driver) (image : Nat) (format : Format)
    (aspectMask : ImageAspectFlagBits) (mipLevelsCount : Nat) :
    ∃ info,
      Image.CreateImageView2D drv image format aspectMask mipLevelsCount
          = (ResultValue.ofResult GraphicsResult.Error, [DeviceCall.createImageView info])
      ∨ ∃ view,
          Image.CreateImageView2D drv image format aspectMask mipLevelsCount
            = ({ result := GraphicsResult.Ok, value := view },
               [DeviceCall.createImageView info]) := by
  unfold Image.CreateImageView2D Image.CreateImageView
  refine ⟨{ image := image, viewType := ImageViewType.e2D, format := format,
            subresourceRange :=
              { aspectMask := [aspectMask], baseMipLevel := 0, levelCount := mipLevelsCount,
                baseArrayLayer := 0, layerCount := 1 } }, ?_⟩
  simp only []
  split
  · left; rfl
  · right; exact ⟨_, rfl⟩

theorem recordedCommands_append (a b : List DeviceCall) :
    recordedCommands (a ++ b) = recordedCommands a ++ recordedCommands b := by
  simp [recordedCommands, List.filterMap_append]

theorem recordedCommands_map_cmd (cb : Nat) (cmds : List Cmd) :
    recordedCommands (cmds.map (DeviceCall.cmd cb)) = cmds := by
  simp [recordedCommands, List.filterMap_map, Function.comp_def]

theorem recordedCommands_withImage_trace (t : Texture) (drv : Driver)
    (image queue pool : Nat) (info1 : ImageCreateInfo) (info2 : ImageViewCreateInfo) :
    recordedCommands
      (Texture.LoadToGpu.stagingCalls t.creationInfo drv ++ [DeviceCall.createImage info1]
        ++ Texture.LoadToGpu.uploadCalls drv image t.width t.height queue pool
        ++ Texture.LoadToGpu.mipCalls drv image t.width t.height t.mipLevels queue pool
        ++ [DeviceCall.createSampler (Texture.LoadToGpu.samplerInfo t.creationInfo t.mipLevels)]
        ++ [DeviceCall.createImageView info2])
      = Texture.LoadToGpu.uploadCommands image drv.stagingBuffer t.width t.height
        ++ Texture.LoadToGpu.mipCommands image t.width t.height t.mipLevels := by
  simp only [recordedCommands_append, Texture.LoadToGpu.uploadCalls,
    Texture.LoadToGpu.mipCalls, recordedCommands_map_cmd]
  simp [recordedCommands, Texture.LoadToGpu.stagingCalls]

theorem LoadToGpu_cases (t : Texture) (drv : Driver) (dev queue pool : Nat)
    (hnot : t.loadedToGpu = false) :
    (t.creationInfo.IsValid = false ∧ t.LoadToGpu drv dev queue pool = (false, t, []))
    ∨ (t.creationInfo.IsValid = true
        ∧ (Texture.LoadToGpu.imageRV t drv).1.result ≠ GraphicsResult.Ok
        ∧ (t.LoadToGpu drv dev queue pool).1 = false
        ∧ (t.LoadToGpu drv dev queue pool).2.1.loadedToGpu = false)
    ∨ (t.creationInfo.IsValid = true
        ∧ (Texture.LoadToGpu.imageRV t drv).1.result = GraphicsResult.Ok
        ∧ (Texture.LoadToGpu.imageViewRV t drv).1.result ≠ GraphicsResult.Ok
        ∧ (t.LoadToGpu drv dev queue pool).1 = false
        ∧ (t.LoadToGpu drv dev queue pool).2.1.loadedToGpu = false
        ∧ recordedCommands (t.LoadToGpu drv dev queue pool).2.2
            = Texture.LoadToGpu.uploadCommands (Texture.LoadToGpu.imageRV t drv).1.value
                drv.stagingBuffer t.creationInfo.width t.creationInfo.height
              ++ Texture.LoadToGpu.mipCommands (Texture.LoadToGpu.imageRV t drv).1.value
                  t.creationInfo.width t.creationInfo.height t.creationInfo.mipLevels)
    ∨ (t.creationInfo.IsValid = true
        ∧ (Texture.LoadToGpu.imageRV t drv).1.result = GraphicsResult.Ok
        ∧ (Texture.LoadToGpu.imageViewRV t drv).1.result = GraphicsResult.Ok
        ∧ (t.LoadToGpu drv dev queue pool).1 = true
        ∧ (t.LoadToGpu drv dev queue pool).2.1.loadedToGpu = true
        ∧ (t.LoadToGpu drv dev queue pool).2.1.descriptor.imageLayout
            = ImageLayout.eShaderReadOnlyOptimal
        ∧ recordedCommands (t.LoadToGpu drv dev queue pool).2.2
            = Texture.LoadToGpu.uploadCommands (Texture.LoadToGpu.imageRV t drv).1.value
                drv.stagingBuffer t.creationInfo.width t.creationInfo.height
              ++ Texture.LoadToGpu.mipCommands (Texture.LoadToGpu.imageRV t drv).1.value
                  t.creationInfo.width t.creationInfo.height t.creationInfo.mipLevels) := by
  unfold Texture.LoadToGpu.imageViewRV Texture.LoadToGpu.imageRV Texture.LoadToGpu
  simp only [hnot, Bool.false_eq_true, if_false]
  by_cases hv : t.creationInfo.IsValid = true
  · simp only [hv, Bool.not_true, Bool.false_eq_true, if_false]
    obtain ⟨info1, h1 | ⟨image, h1⟩⟩ := CreateImage2D_cases drv Format.eR8G8B8A8Unorm
      [ImageUsageFlagBits.eTransferDst, ImageUsageFlagBits.eTransferSrc,
        ImageUsageFlagBits.eSampled]
      t.creationInfo.mipLevels t.creationInfo.width t.creationInfo.height 1 [] 1
    · right; left
      simp [h1, ResultValue.ofResult, hnot]
    · right; right
      simp only [h1]
      unfold Texture.LoadToGpu.withImage Texture.LoadToGpu.afterSampler
      simp only []
      obtain ⟨info2, h2 | ⟨view, h2⟩⟩ := CreateImageView2D_cases drv image Format.eR8G8B8A8Unorm
        ImageAspectFlagBits.eColor t.creationInfo.mipLevels
      · left
        simp only [h2]
        have := recordedCommands_withImage_trace
          { t with width := t.creationInfo.width, height := t.creationInfo.height,
                   mipLevels := t.creationInfo.mipLevels, logicalDevice := dev }
          drv image queue pool info1 info2
        simpa [List.append_assoc, ResultValue.ofResult, hnot] using this
      · right
        simp only [h2]
        simp only [ne_eq, not_true_eq_false, if_false, true_and]
        have := recordedCommands_withImage_trace
          { t with width := t.creationInfo.width, height := t.creationInfo.height,
                   mipLevels := t.creationInfo.mipLevels, logicalDevice := dev }
          drv image queue pool info1 info2
        simpa [List.append_assoc] using this
  · simp only [Bool.not_eq_true] at hv
    left
    simp [hv]

/-- C4: for a not yet loaded texture with valid creation info whose image is
created, over the whole sequence `LoadToGpu` records (upload command buffer,
then mip command buffer), starting with every level Undefined: every barrier
declares as old layout the tracked layout of each level it covers; every level
below `mipLevels` goes through exactly Undefined, TransferDstOptimal,
TransferSrcOptimal, ShaderReadOnlyOptimal; all of them end in
ShaderReadOnlyOptimal; and when the load returns true that is the layout stored
in `descriptor.imageLayout`. -/
theorem LoadToGpu_layout_chain (t : Texture) (drv : Driver) (dev queue pool : Nat)
    (hnot : t.loadedToGpu = false) (hvalid : t.creationInfo.IsValid = true)
    (himage : (Texture.LoadToGpu.imageRV t drv).1.result = GraphicsResult.Ok) :
    barriersMatch (recordedCommands (t.LoadToGpu drv dev queue pool).2.2) layoutsAtCreation
        = true
    ∧ (∀ l, l < t.creationInfo.mipLevels →
        levelTransitions l (recordedCommands (t.LoadToGpu drv dev queue pool).2.2)
          = [ (ImageLayout.eUndefined, ImageLayout.eTransferDstOptimal),
              (ImageLayout.eTransferDstOptimal, ImageLayout.eTransferSrcOptimal),
              (ImageLayout.eTransferSrcOptimal, ImageLayout.eShaderReadOnlyOptimal) ])
    ∧ (∀ l, l < t.creationInfo.mipLevels →
        layoutsAfter (recordedCommands (t.LoadToGpu drv dev queue pool).2.2)
          layoutsAtCreation l = ImageLayout.eShaderReadOnlyOptimal)
    ∧ ((t.LoadToGpu drv dev queue pool).1 = true →
        (t.LoadToGpu drv dev queue pool).2.1.descriptor.imageLayout
          = ImageLayout.eShaderReadOnlyOptimal) := by
  obtain ⟨h1, h2, h3⟩ := upload_mip_layouts (Texture.LoadToGpu.imageRV t drv).1.value
    drv.stagingBuffer t.creationInfo.width t.creationInfo.height t.creationInfo.mipLevels
  rcases LoadToGpu_cases t drv dev queue pool hnot with h | h | h | h
  · rw [h.1] at hvalid; simp at hvalid
  · exact absurd himage h.2.1
  · obtain ⟨_, _, _, hret, _, hcmds⟩ := h
    rw [hcmds, hret]
    exact ⟨h1, h2, h3, by simp⟩
  · obtain ⟨_, _, _, _, _, hlayout, hcmds⟩ := h
    rw [hcmds]
    exact ⟨h1, h2, h3, fun _ => hlayout⟩

theorem LoadToGpu_layout_chain_witness :
    (Texture.sample.loadedToGpu = false
      ∧ Texture.sample.creationInfo.IsValid = true
      ∧ (Texture.LoadToGpu.imageRV Texture.sample Driver.sample).1.result = GraphicsResult.Ok)
    ∧ barriersMatch (recordedCommands (Texture.sample.LoadToGpu Driver.sample 1 2 3).2.2)
        layoutsAtCreation = true
    ∧ (∀ l, l < Texture.sample.creationInfo.mipLevels →
        levelTransitions l (recordedCommands (Texture.sample.LoadToGpu Driver.sample 1 2 3).2.2)
          = [ (ImageLayout.eUndefined, ImageLayout.eTransferDstOptimal),
              (ImageLayout.eTransferDstOptimal, ImageLayout.eTransferSrcOptimal),
              (ImageLayout.eTransferSrcOptimal, ImageLayout.eShaderReadOnlyOptimal) ])
    ∧ (∀ l, l < Texture.sample.creationInfo.mipLevels →
        layoutsAfter (recordedCommands (Texture.sample.LoadToGpu Driver.sample 1 2 3).2.2)
          layoutsAtCreation l = ImageLayout.eShaderReadOnlyOptimal)
    ∧ ((Texture.sample.LoadToGpu Driver.sample 1 2 3).1 = true →
        (Texture.sample.LoadToGpu Driver.sample 1 2 3).2.1.descriptor.imageLayout
          = ImageLayout.eShaderReadOnlyOptimal) :=
  ⟨⟨rfl, by decide, by decide⟩,
   LoadToGpu_layout_chain Texture.sample Driver.sample 1 2 3 rfl (by decide) (by decide)⟩

/-- C10: for a texture that is not yet loaded, `LoadToGpu` returns true if and
only if the creation info is valid and both `CreateImage2D` and
`CreateImageView2D` return Ok, and `loadedToGpu` is true afterwards in exactly
that case; with invalid creation info it returns false, makes no driver call
and leaves `width`, `height`, `mipLevels` and `logicalDevice` as they were. -/
theorem LoadToGpu_result (t : Texture) (drv : Driver) (dev queue pool : Nat)
    (hnot : t.loadedToGpu = false) :
    ((t.LoadToGpu drv dev queue pool).1 = true ↔
        (t.creationInfo.IsValid = true
          ∧ (Texture.LoadToGpu.imageRV t drv).1.result = GraphicsResult.Ok
          ∧ (Texture.LoadToGpu.imageViewRV t drv).1.result = GraphicsResult.Ok))
    ∧ ((t.LoadToGpu drv dev queue pool).2.1.loadedToGpu = true ↔
        (t.creationInfo.IsValid = true
          ∧ (Texture.LoadToGpu.imageRV t drv).1.result = GraphicsResult.Ok
          ∧ (Texture.LoadToGpu.imageViewRV t drv).1.result = GraphicsResult.Ok))
    ∧ (t.creationInfo.IsValid = false →
        (t.LoadToGpu drv dev queue pool).1 = false
        ∧ (t.LoadToGpu drv dev queue pool).2.2 = []
        ∧ (t.LoadToGpu drv dev queue pool).2.1.width = t.width
        ∧ (t.LoadToGpu drv dev queue pool).2.1.height = t.height
        ∧ (t.LoadToGpu drv dev queue pool).2.1.mipLevels = t.mipLevels
        ∧ (t.LoadToGpu drv dev queue pool).2.1.logicalDevice = t.logicalDevice) := by
  rcases LoadToGpu_cases t drv dev queue pool hnot with h | h | h | h
  · obtain ⟨hv, hr⟩ := h
    rw [hr]
    simp [hv, hnot]
  · obtain ⟨hv, hi, hr, hl⟩ := h
    rw [hr, hl]
    simp [hv, hi]
  · obtain ⟨hv, hi, hw, hr, hl, _⟩ := h
    rw [hr, hl]
    simp [hv, hi, hw]
  · obtain ⟨hv, hi, hw, hr, hl, _⟩ := h
    rw [hr, hl]
    simp [hv, hi, hw]

theorem LoadToGpu_result_witness :
    Texture.sample.loadedToGpu = false
    ∧ ((Texture.sample.LoadToGpu Driver.sample 1 2 3).1 = true ↔
        (Texture.sample.creationInfo.IsValid = true
          ∧ (Texture.LoadToGpu.imageRV Texture.sample Driver.sample).1.result
              = GraphicsResult.Ok
          ∧ (Texture.LoadToGpu.imageViewRV Texture.sample Driver.sample).1.result
              = GraphicsResult.Ok)) :=
  ⟨rfl, (LoadToGpu_result Texture.sample Driver.sample 1 2 3 rfl).1⟩

/-! ### Device selection -/

/-- C5: `IsDeviceSuitable` returns true if and only if the queue family
indices are complete, the extension check passes, the swapchain-support query
returns Ok with non-empty formats and present modes, and the device reports
sampler anisotropy; the swapchain-support query is made exactly when the
extension check passed. -/
theorem IsDeviceSuitable_iff (device : PhysicalDevice) (surface : Nat) :
    ((VulkanDevice.IsDeviceSuitable device surface).1 = true ↔
        ((device.FindQueueFamilies surface).isComplete = true
          ∧ VulkanDevice.CheckDeviceExtensionSupport device = true
          ∧ ((device.QuerySwapchainSupport surface).result = GraphicsResult.Ok
              ∧ (device.QuerySwapchainSupport surface).value.formats ≠ []
              ∧ (device.QuerySwapchainSupport surface).value.presentModes ≠ [])
          ∧ device.samplerAnisotropy = true))
    ∧ (AdapterQuery.QuerySwapchainSupport device.handle surface
          ∈ (VulkanDevice.IsDeviceSuitable device surface).2
        ↔ VulkanDevice.CheckDeviceExtensionSupport device = true) := by
  unfold VulkanDevice.IsDeviceSuitable
  cases hext : VulkanDevice.CheckDeviceExtensionSupport device
  · simp
  · simp [List.isEmpty_iff]
    tauto

theorem PickPhysicalDevice_loop_first (surface : Nat) (pre : List PhysicalDevice)
    (d : PhysicalDevice) (post : List PhysicalDevice) (chosen : PhysicalDevice)
    (hpre : ∀ x ∈ pre, (VulkanDevice.IsDeviceSuitable x surface).1 = false)
    (hd : (VulkanDevice.IsDeviceSuitable d surface).1 = true) :
    VulkanDevice.PickPhysicalDevice.loop surface (pre ++ d :: post) chosen = d := by
  induction pre with
  | nil => simp [VulkanDevice.PickPhysicalDevice.loop, hd]
  | cons x xs ih =>
      have hx : (VulkanDevice.IsDeviceSuitable x surface).1 = false :=
        hpre x (List.mem_cons_self x xs)
      simp only [List.cons_append, VulkanDevice.PickPhysicalDevice.loop, hx,
        Bool.false_eq_true, if_false]
      exact ih (fun y hy => hpre y (List.mem_cons_of_mem x hy))

theorem PickPhysicalDevice_loop_none (surface : Nat) (devices : List PhysicalDevice)
    (chosen : PhysicalDevice)
    (h : ∀ x ∈ devices, (VulkanDevice.IsDeviceSuitable x surface).1 = false) :
    VulkanDevice.PickPhysicalDevice.loop surface devices chosen = chosen := by
  induction devices with
  | nil => simp [VulkanDevice.PickPhysicalDevice.loop]
  | cons x xs ih =>
      have hx : (VulkanDevice.IsDeviceSuitable x surface).1 = false :=
        h x (List.mem_cons_self x xs)
      simp only [VulkanDevice.PickPhysicalDevice.loop, hx, Bool.false_eq_true, if_false]
      exact ih (fun y hy => h y (List.mem_cons_of_mem x hy))

theorem exists_first_suitable (surface : Nat) (devices : List PhysicalDevice) :
    (∀ x ∈ devices, (VulkanDevice.IsDeviceSuitable x surface).1 = false)
    ∨ ∃ pre d post, devices = pre ++ d :: post
        ∧ (∀ x ∈ pre, (VulkanDevice.IsDeviceSuitable x surface).1 = false)
        ∧ (VulkanDevice.IsDeviceSuitable d surface).1 = true := by
  induction devices with
  | nil => left; simp
  | cons x xs ih =>
      cases hx : (VulkanDevice.IsDeviceSuitable x surface).1
      · rcases ih with h | ⟨pre, d, post, h1, h2, h3⟩
        · left
          intro y hy
          rcases List.mem_cons.mp hy with rfl | hy
          · exact hx
          · exact h y hy
        · right
          refine ⟨x :: pre, d, post, by simp [h1], ?_, h3⟩
          intro y hy
          rcases List.mem_cons.mp hy with rfl | hy
          · exact hx
          · exact h2 y hy
      · right
        exact ⟨[], x, xs, rfl, by simp, hx⟩

/-- C6: when the enumerated devices all have non-null handles,
`PickPhysicalDevice` returns Ok with the first device in enumeration order that
`IsDeviceSuitable` accepts, and returns Error if and only if the enumeration
fails or no enumerated device is suitable. -/
theorem PickPhysicalDevice_first_suitable (instance_ : Instance) (surface : Nat)
    (hnonnull : ∀ devices, instance_.enumeratePhysicalDevices = some devices →
      ∀ d ∈ devices, d.handle ≠ 0) :
    (∀ pre d post, instance_.enumeratePhysicalDevices = some (pre ++ d :: post) →
        (∀ x ∈ pre, (VulkanDevice.IsDeviceSuitable x surface).1 = false) →
        (VulkanDevice.IsDeviceSuitable d surface).1 = true →
        VulkanDevice.PickPhysicalDevice instance_ surface
          = { result := GraphicsResult.Ok, value := d })
    ∧ ((VulkanDevice.PickPhysicalDevice instance_ surface).result = GraphicsResult.Error ↔
        (instance_.enumeratePhysicalDevices = none
          ∨ ∃ devices, instance_.enumeratePhysicalDevices = some devices
              ∧ ∀ d ∈ devices, (VulkanDevice.IsDeviceSuitable d surface).1 = false)) := by
  have hfirst : ∀ pre d post, instance_.enumeratePhysicalDevices = some (pre ++ d :: post) →
      (∀ x ∈ pre, (VulkanDevice.IsDeviceSuitable x surface).1 = false) →
      (VulkanDevice.IsDeviceSuitable d surface).1 = true →
      VulkanDevice.PickPhysicalDevice instance_ surface
        = { result := GraphicsResult.Ok, value := d } := by
    intro pre d post henum hpre hd
    have hh : d.handle ≠ 0 := hnonnull _ henum d (by simp)
    unfold VulkanDevice.PickPhysicalDevice
    simp only [henum, PickPhysicalDevice_loop_first surface pre d post _ hpre hd, hh, if_false]
  refine ⟨hfirst, ?_⟩
  cases henum : instance_.enumeratePhysicalDevices with
  | none => simp [VulkanDevice.PickPhysicalDevice, henum, ResultValue.ofResult]
  | some devices =>
      rcases exists_first_suitable surface devices with hall | ⟨pre, d, post, h1, h2, h3⟩
      · have hres : (VulkanDevice.PickPhysicalDevice instance_ surface).result
            = GraphicsResult.Error := by
          unfold VulkanDevice.PickPhysicalDevice
          simp [henum, PickPhysicalDevice_loop_none surface devices _ hall,
            PhysicalDevice.null, ResultValue.ofResult]
        simp only [hres, true_iff]
        right
        exact ⟨devices, rfl, hall⟩
      · rw [hfirst pre d post (by rw [henum, h1]) h2 h3]
        constructor
        · intro h
          exact absurd h (by simp)
        · rintro (h | ⟨devs, hdevs, hall⟩)
          · exact absurd h (by simp)
          · have hdd : devs = devices := by
              simpa using hdevs.symm
            have := hall d (by rw [hdd, h1]; simp)
            rw [h3] at this
            exact absurd this (by simp)

theorem PickPhysicalDevice_first_suitable_witness :
    (∀ devices, Instance.sample.enumeratePhysicalDevices = some devices →
      ∀ d ∈ devices, d.handle ≠ 0)
    ∧ VulkanDevice.PickPhysicalDevice Instance.sample 21
        = { result := GraphicsResult.Ok, value := PhysicalDevice.sample 42 true } :=
  have hnonnull : ∀ devices, Instance.sample.enumeratePhysicalDevices = some devices →
      ∀ d ∈ devices, d.handle ≠ 0 := by
    intro devices h d hd
    have hdev : devices = [PhysicalDevice.sample 41 false, PhysicalDevice.sample 42 true,
        PhysicalDevice.sample 43 true] := by
      simpa [Instance.sample] using h.symm
    subst hdev
    simp only [List.mem_cons, List.mem_singleton, List.not_mem_nil, or_false] at hd
    rcases hd with rfl | rfl | rfl <;> simp [PhysicalDevice.sample]
  ⟨hnonnull,
   (PickPhysicalDevice_first_suitable Instance.sample 21 hnonnull).1
     [PhysicalDevice.sample 41 false] (PhysicalDevice.sample 42 true)
     [PhysicalDevice.sample 43 true] rfl
     (by intro x hx; simp only [List.mem_singleton] at hx; subst hx; decide)
     (by decide)⟩

/-- C7, evaluated where the code departs from it: with window, surface,
adapter and logical device created and the graphics command pool creation
failing, `CreateVulkanDevice` returns the code Ok with a null device; the same
happens when only the descriptor pool creation fails. -/
theorem CreateVulkanDevice_pool_failure_reports_Ok :
    (VulkanDevice.CreateGraphicsCommandPool (Platform.sample false true)
        (PhysicalDevice.sample 42 true) 31 21).result = GraphicsResult.Error
    ∧ (VulkanDevice.CreateVulkanDevice Config.sample (Platform.sample false true)
        Instance.sample).result = GraphicsResult.Ok
    ∧ (VulkanDevice.CreateVulkanDevice Config.sample (Platform.sample false true)
        Instance.sample).value.isNone = true
    ∧ (VulkanDevice.CreateDescriptorPool Config.sample (Platform.sample true false) 31).result
        = GraphicsResult.Error
    ∧ (VulkanDevice.CreateVulkanDevice Config.sample (Platform.sample true false)
        Instance.sample).result = GraphicsResult.Ok
    ∧ (VulkanDevice.CreateVulkanDevice Config.sample (Platform.sample true false)
        Instance.sample).value.isNone = true := by
  decide

/-! ### Memory type selection -/

theorem FindMemoryType_scan_some (typeBits properties : Nat) (memoryTypes : List Nat)
    (start i : Nat) (h : FindMemoryType.scan typeBits properties memoryTypes start = some i) :
    start ≤ i ∧ i < start + memoryTypes.length ∧ typeBits.testBit i = true
      ∧ (∃ propertyFlags, memoryTypes[i - start]? = some propertyFlags
          ∧ propertyFlags &&& properties = properties)
      ∧ ∀ j, start ≤ j → j < i → ∀ flags, memoryTypes[j - start]? = some flags →
          ¬ (typeBits.testBit j = true ∧ flags &&& properties = properties) := by
  induction memoryTypes generalizing start with
  | nil => simp [FindMemoryType.scan] at h
  | cons flags rest ih =>
      unfold FindMemoryType.scan at h
      by_cases hc : (typeBits.testBit start && decide (flags &&& properties = properties)) = true
      · simp only [hc, if_true, Option.some.injEq] at h
        subst h
        simp only [Bool.and_eq_true, decide_eq_true_eq] at hc
        refine ⟨le_refl _, by simp, hc.1, ⟨flags, by simp, hc.2⟩, ?_⟩
        intro j h1 h2
        omega
      · simp only [hc, Bool.false_eq_true, if_false] at h
        obtain ⟨h1, h2, h3, ⟨pf, h4, h5⟩, h6⟩ := ih (start + 1) h
        have hi : i - start = (i - (start + 1)) + 1 := by omega
        refine ⟨by omega, by simp only [List.length_cons]; omega, h3, ⟨pf, ?_, h5⟩, ?_⟩
        · rw [hi, List.getElem?_cons_succ]
          exact h4
        · intro j hj1 hj2 fl hfl
          by_cases hjs : j = start
          · subst hjs
            simp only [Nat.sub_self, List.getElem?_cons_zero, Option.some.injEq] at hfl
            subst hfl
            simpa only [Bool.and_eq_true, decide_eq_true_eq] using hc
          · have hj : j - start = (j - (start + 1)) + 1 := by omega
            rw [hj, List.getElem?_cons_succ] at hfl
            exact h6 j (by omega) hj2 fl hfl

theorem FindMemoryType_scan_none (typeBits properties : Nat) (memoryTypes : List Nat)
    (start : Nat) (h : FindMemoryType.scan typeBits properties memoryTypes start = none) :
    ∀ j flags, memoryTypes[j]? = some flags →
      ¬ (typeBits.testBit (start + j) = true ∧ flags &&& properties = properties) := by
  induction memoryTypes generalizing start with
  | nil => simp
  | cons flags rest ih =>
      unfold FindMemoryType.scan at h
      by_cases hc : (typeBits.testBit start && decide (flags &&& properties = properties)) = true
      · simp [hc] at h
      · simp only [hc, Bool.false_eq_true, if_false] at h
        intro j fl hfl
        cases j with
        | zero =>
            simp only [List.getElem?_cons_zero, Option.some.injEq] at hfl
            subst hfl
            simpa only [Bool.and_eq_true, decide_eq_true_eq, Nat.add_zero] using hc
        | succ j =>
            rw [List.getElem?_cons_succ] at hfl
            have := ih (start + 1) h j fl hfl
            have he : start + 1 + j = start + (j + 1) := by omega
            rw [he] at this
            exact this

/-- C9: the memory-type selector either returns an index `i` of the adapter's
table whose bit is set in the required mask and whose property flags contain
every requested flag (and no smaller index qualifies), or reports
NoCompatibleMemoryType, which it does only when no index qualifies. -/
theorem FindMemoryType_sound (memoryTypes : List Nat) (typeBits properties : Nat) :
    (∀ i, FindMemoryType memoryTypes typeBits properties = some i →
        i < memoryTypes.length ∧ typeBits.testBit i = true
          ∧ (∃ propertyFlags, memoryTypes[i]? = some propertyFlags
              ∧ propertyFlags &&& properties = properties)
          ∧ ∀ j, j < i → ∀ flags, memoryTypes[j]? = some flags →
              ¬ (typeBits.testBit j = true ∧ flags &&& properties = properties))
    ∧ (FindMemoryType memoryTypes typeBits properties = none →
        ∀ j flags, memoryTypes[j]? = some flags →
          ¬ (typeBits.testBit j = true ∧ flags &&& properties = properties)) := by
  constructor
  · intro i h
    obtain ⟨_, h2, h3, h4, h5⟩ := FindMemoryType_scan_some typeBits properties memoryTypes 0 i h
    refine ⟨by omega, h3, by simpa using h4, ?_⟩
    intro j hj flags hf
    exact h5 j (Nat.zero_le j) hj flags (by simpa using hf)
  · intro h j flags hf
    have := FindMemoryType_scan_none typeBits properties memoryTypes 0 h j flags hf
    simpa using this

theorem FindMemoryType_sound_witness :
    FindMemoryType [1, 6, 7] 6 6 = some 1
    ∧ (1 < [1, 6, 7].length ∧ Nat.testBit 6 1 = true
        ∧ (∃ propertyFlags, [1, 6, 7][1]? = some propertyFlags
            ∧ propertyFlags &&& 6 = 6)
        ∧ ∀ j, j < 1 → ∀ flags, [1, 6, 7][j]? = some flags →
            ¬ (Nat.testBit 6 j = true ∧ flags &&& 6 = 6)) :=
  ⟨by decide, (FindMemoryType_sound [1, 6, 7] 6 6).1 1 (by decide)⟩

end ez

namespace Ride

/-! ### The frame loop of `main` -/

theorem pollEvents_run (evs : List SDLEvent) (run : Bool) (trace : List MainAction) :
    (main.pollEvents evs run trace).1 = (run && !decide (SDLEvent.SDL_QUIT ∈ evs)) := by
  induction evs generalizing run trace with
  | nil => simp [main.pollEvents]
  | cons e es ih =>
      simp only [main.pollEvents, ih]
      by_cases h : e = SDLEvent.SDL_QUIT
      · simp [h]
      · have h2 : ¬ SDLEvent.SDL_QUIT = e := fun h3 => h h3.symm
        simp [h, h2]

theorem pollEvents_count_Draw (evs : List SDLEvent) (run : Bool) (trace : List MainAction) :
    (main.pollEvents evs run trace).2.count MainAction.Draw = trace.count MainAction.Draw := by
  induction evs generalizing run trace with
  | nil => simp [main.pollEvents]
  | cons e es ih =>
      simp only [main.pollEvents, ih]
      by_cases h : e = SDLEvent.SDL_KEYDOWN
      · simp [h, List.count_append]
      · simp [h]

theorem frameLoop_stopped (events : Nat → List SDLEvent) (fuel tick : Nat)
    (trace : List MainAction) : main.frameLoop events fuel tick false trace = some trace := by
  cases fuel <;> simp [main.frameLoop]

theorem frameLoop_quit (events : Nat → List SDLEvent) (n : Nat) :
    ∀ (tick fuel : Nat) (trace : List MainAction),
      (∀ j, tick ≤ j → j < tick + n → SDLEvent.SDL_QUIT ∉ events j) →
      SDLEvent.SDL_QUIT ∈ events (tick + n) → n + 1 ≤ fuel →
      ∃ out, main.frameLoop events fuel tick true trace = some out
        ∧ out.count MainAction.Draw = trace.count MainAction.Draw + (n + 1) := by
  induction n with
  | zero =>
      intro tick fuel trace _ hq hfuel
      obtain ⟨f, rfl⟩ : ∃ f, fuel = f + 1 := ⟨fuel - 1, by omega⟩
      have hq0 : SDLEvent.SDL_QUIT ∈ events tick := by simpa using hq
      refine ⟨(main.pollEvents (events tick) true trace).2 ++ [MainAction.GetViewportExtent,
        MainAction.SetViewportExtent, MainAction.Update, MainAction.Draw], ?_, ?_⟩
      · simp only [main.frameLoop, pollEvents_run, hq0, decide_True, Bool.not_true,
          Bool.and_false]
      · simp [List.count_append, pollEvents_count_Draw]
  | succ n ih =>
      intro tick fuel trace hno hq hfuel
      obtain ⟨f, rfl⟩ : ∃ f, fuel = f + 1 := ⟨fuel - 1, by omega⟩
      have hq0 : SDLEvent.SDL_QUIT ∉ events tick := hno tick (le_refl _) (by omega)
      obtain ⟨out, h1, h2⟩ := ih (tick + 1) f
        ((main.pollEvents (events tick) true trace).2 ++ [MainAction.GetViewportExtent,
          MainAction.SetViewportExtent, MainAction.Update, MainAction.Draw])
        (fun j hj1 hj2 => hno j (by omega) (by omega))
        (by have : tick + 1 + n = tick + (n + 1) := by omega
            rw [this]; exact hq)
        (by omega)
      refine ⟨out, ?_, ?_⟩
      · simp only [main.frameLoop, pollEvents_run, hq0, decide_False, Bool.not_false,
          Bool.and_true]
        exact h1
      · rw [h2]
        simp [List.count_append, pollEvents_count_Draw]
        omega

theorem frameLoop_keydown_blind (events events2 : Nat → List SDLEvent)
    (h : ∀ k, (events k).filter (fun e => decide (e ≠ SDLEvent.SDL_KEYDOWN))
      = (events2 k).filter (fun e => decide (e ≠ SDLEvent.SDL_KEYDOWN))) :
    ∀ (fuel tick : Nat) (run : Bool) (trace trace2 : List MainAction),
      trace.count MainAction.Draw = trace2.count MainAction.Draw →
      (main.frameLoop events fuel tick run trace).map (fun out => out.count MainAction.Draw)
        = (main.frameLoop events2 fuel tick run trace2).map
            (fun out => out.count MainAction.Draw) := by
  have hquit : ∀ k, decide (SDLEvent.SDL_QUIT ∈ events k)
      = decide (SDLEvent.SDL_QUIT ∈ events2 k) := by
    intro k
    have h1 : ∀ evs : List SDLEvent, SDLEvent.SDL_QUIT ∈ evs ↔
        SDLEvent.SDL_QUIT ∈ evs.filter (fun e => decide (e ≠ SDLEvent.SDL_KEYDOWN)) := by
      intro evs
      simp [List.mem_filter]
    have h2 : SDLEvent.SDL_QUIT ∈ events k ↔ SDLEvent.SDL_QUIT ∈ events2 k := by
      rw [h1 (events k), h1 (events2 k), h k]
    simp [h2]
  intro fuel
  induction fuel with
  | zero =>
      intro tick run trace trace2 hc
      cases run <;> simp [main.frameLoop, hc]
  | succ f ih =>
      intro tick run trace trace2 hc
      cases run
      · simp [main.frameLoop, hc]
      · simp only [main.frameLoop, pollEvents_run, hquit tick]
        apply ih
        simp [List.count_append, pollEvents_count_Draw, hc]

/-- C8: `main` returns a non-zero exit code without any `Update` or `Draw` when
`RenderSystem::Create` does not report Ok; when it does and the first
`SDL_QUIT` arrives in the poll of tick `k >= 1`, `main` performs exactly `k`
`Draw` calls and returns 0; and two event streams that differ only in key-down
events give the same exit code and the same number of `Draw` calls. -/
theorem main_exit (events : Nat → List SDLEvent) (fuel : Nat) :
    (∃ trace, main false events fuel = some (EXIT_FAILURE, trace) ∧ EXIT_FAILURE ≠ 0
        ∧ MainAction.Update ∉ trace ∧ MainAction.Draw ∉ trace)
    ∧ (∀ k, 1 ≤ k → SDLEvent.SDL_QUIT ∈ events (k - 1) →
        (∀ j, j < k - 1 → SDLEvent.SDL_QUIT ∉ events j) → k ≤ fuel →
        ∃ trace, main true events fuel = some (EXIT_SUCCESS, trace) ∧ EXIT_SUCCESS = 0
          ∧ trace.count MainAction.Draw = k)
    ∧ (∀ events2 : Nat → List SDLEvent,
        (∀ k, (events k).filter (fun e => decide (e ≠ SDLEvent.SDL_KEYDOWN))
          = (events2 k).filter (fun e => decide (e ≠ SDLEvent.SDL_KEYDOWN))) →
        (main true events fuel).map (fun r => (r.1, r.2.count MainAction.Draw))
          = (main true events2 fuel).map (fun r => (r.1, r.2.count MainAction.Draw))) := by
  refine ⟨?_, ?_, ?_⟩
  · exact ⟨_, rfl, by decide, by simp, by simp⟩
  · intro k hk hq hno hfuel
    obtain ⟨out, h1, h2⟩ := frameLoop_quit events (k - 1) 0 fuel
      [MainAction.SDL_Init, MainAction.Create]
      (fun j _ hj => hno j (by omega)) (by simpa using hq) (by omega)
    refine ⟨out ++ [MainAction.reset, MainAction.reset, MainAction.reset,
      MainAction.SDL_Quit], ?_, rfl, ?_⟩
    · simp only [main, Bool.not_true, Bool.false_eq_true, if_false, h1]
    · simp [List.count_append, h2]
      omega
  · intro events2 h
    have hloop := frameLoop_keydown_blind events events2 h fuel 0 true
      [MainAction.SDL_Init, MainAction.Create] [MainAction.SDL_Init, MainAction.Create] rfl
    simp only [main, Bool.not_true, Bool.false_eq_true, if_false]
    cases h1 : main.frameLoop events fuel 0 true [MainAction.SDL_Init, MainAction.Create] <;>
      cases h2 : main.frameLoop events2 fuel 0 true [MainAction.SDL_Init, MainAction.Create] <;>
      simp [h1, h2] at hloop ⊢
    simp [List.count_append, hloop]

theorem main_exit_witness :
    (1 ≤ 2 ∧ SDLEvent.SDL_QUIT ∈ main.sampleEvents (2 - 1)
      ∧ (∀ j, j < 2 - 1 → SDLEvent.SDL_QUIT ∉ main.sampleEvents j) ∧ 2 ≤ 5)
    ∧ ∃ trace, main true main.sampleEvents 5 = some (EXIT_SUCCESS, trace) ∧ EXIT_SUCCESS = 0
        ∧ trace.count MainAction.Draw = 2 :=
  have hq : SDLEvent.SDL_QUIT ∈ main.sampleEvents (2 - 1) := by decide
  have hno : ∀ j, j < 2 - 1 → SDLEvent.SDL_QUIT ∉ main.sampleEvents j := by
    intro j hj
    have : j = 0 := by omega
    subst this
    decide
  ⟨⟨by decide, hq, hno, by decide⟩,
   (main_exit main.sampleEvents 5).2.1 2 (by decide) hq hno (by decide)⟩

end Ride

namespace ez

/-! ### Extension check and descriptor pool -/

theorem mem_foldl_erase (available : List String) (required : List String)
    (hnodup : required.Nodup) (name : String) :
    name ∈ available.foldl (fun req extensionName => req.erase extensionName) required
      ↔ name ∈ required ∧ name ∉ available := by
  induction available generalizing required with
  | nil => simp
  | cons x xs ih =>
      rw [List.foldl_cons, ih (required.erase x) (hnodup.erase x), hnodup.mem_erase_iff]
      simp only [List.mem_cons, not_or]
      tauto

theorem CheckDeviceExtensionSupport_some (device : PhysicalDevice) (available : List String)
    (h : device.extensions = some available) :
    VulkanDevice.CheckDeviceExtensionSupport device = true
      ↔ ∀ name ∈ requiredDeviceExtensions, name ∈ available := by
  unfold VulkanDevice.CheckDeviceExtensionSupport
  simp only [h, List.isEmpty_iff, List.eq_nil_iff_forall_not_mem,
    mem_foldl_erase available _ (List.nodup_dedup _), List.mem_dedup]
  constructor
  · intro hall name hname
    by_contra hn
    exact hall name ⟨hname, hn⟩
  · rintro hall name ⟨hname, hn⟩
    exact hn (hall name hname)

/-- C11: `CheckDeviceExtensionSupport` returns true if and only if the
extension enumeration succeeds and every required name (the swapchain
extension) occurs among the available names; two devices whose enumerations
both succeed or both fail and list the same set of names, in any order and with
any repetitions, get the same answer. -/
theorem CheckDeviceExtensionSupport_iff (device : PhysicalDevice) :
    (VulkanDevice.CheckDeviceExtensionSupport device = true ↔
        ∃ available, device.extensions = some available
          ∧ ∀ name ∈ requiredDeviceExtensions, name ∈ available)
    ∧ (VulkanDevice.CheckDeviceExtensionSupport device = true ↔
        ∃ available, device.extensions = some available
          ∧ VK_KHR_SWAPCHAIN_EXTENSION_NAME ∈ available)
    ∧ (∀ device2 : PhysicalDevice,
        device.extensions.isSome = device2.extensions.isSome →
        (∀ a b, device.extensions = some a → device2.extensions = some b →
          ∀ name, name ∈ a ↔ name ∈ b) →
        VulkanDevice.CheckDeviceExtensionSupport device
          = VulkanDevice.CheckDeviceExtensionSupport device2) := by
  have hmain : VulkanDevice.CheckDeviceExtensionSupport device = true ↔
      ∃ available, device.extensions = some available
        ∧ ∀ name ∈ requiredDeviceExtensions, name ∈ available := by
    cases h : device.extensions with
    | none => simp [VulkanDevice.CheckDeviceExtensionSupport, h]
    | some available =>
        rw [CheckDeviceExtensionSupport_some device available h]
        simp
  refine ⟨hmain, ?_, ?_⟩
  · rw [hmain]
    simp [requiredDeviceExtensions]
  · intro device2 hsome hsame
    cases h1 : device.extensions with
    | none =>
        cases h2 : device2.extensions with
        | none => simp [VulkanDevice.CheckDeviceExtensionSupport, h1, h2]
        | some b => simp [h1, h2] at hsome
    | some a =>
        cases h2 : device2.extensions with
        | none => simp [h1, h2] at hsome
        | some b =>
            rw [Bool.eq_iff_iff, CheckDeviceExtensionSupport_some device a h1,
              CheckDeviceExtensionSupport_some device2 b h2]
            constructor
            · intro hall name hname
              exact (hsame a b h1 h2 name).mp (hall name hname)
            · intro hall name hname
              exact (hsame a b h1 h2 name).mpr (hall name hname)

theorem CheckDeviceExtensionSupport_iff_witness :
    VulkanDevice.CheckDeviceExtensionSupport (PhysicalDevice.sample 41 true) = true
    ∧ ∃ available, (PhysicalDevice.sample 41 true).extensions = some available
        ∧ VK_KHR_SWAPCHAIN_EXTENSION_NAME ∈ available :=
  ⟨by decide, (CheckDeviceExtensionSupport_iff (PhysicalDevice.sample 41 true)).2.1.mp (by decide)⟩

theorem CreateDescriptorPool_poolSizes_eq (table acc : List (Nat × Nat)) :
    VulkanDevice.CreateDescriptorPool.poolSizes table acc = acc ++ table := by
  induction table generalizing acc with
  | nil => simp [VulkanDevice.CreateDescriptorPool.poolSizes]
  | cons row rest ih =>
      simp [VulkanDevice.CreateDescriptorPool.poolSizes, ih]

/-- C12: `CreateDescriptorPool` hands the API a create info whose pool-size
list has the length of the configuration table and, entry by entry, its type
and descriptor count in the same order, with `maxSets` equal to
`MaxDescriptorSetsCount`; it returns Ok with the pool when that call succeeds
and Error if and only if it does not. -/
theorem CreateDescriptorPool_request (cfg : Config) (p : Platform) (device : Nat) :
    ∃ poolInfo : DescriptorPoolCreateInfo,
      poolInfo.poolSizes.length = cfg.VulkanDescriptorPoolSizes.length
      ∧ (∀ k : Nat, poolInfo.poolSizes[k]? = cfg.VulkanDescriptorPoolSizes[k]?)
      ∧ poolInfo.maxSets = cfg.MaxDescriptorSetsCount
      ∧ (∀ descriptorPool, p.createDescriptorPool device poolInfo = some descriptorPool →
          VulkanDevice.CreateDescriptorPool cfg p device
            = { result := GraphicsResult.Ok, value := descriptorPool })
      ∧ ((VulkanDevice.CreateDescriptorPool cfg p device).result = GraphicsResult.Error
          ↔ p.createDescriptorPool device poolInfo = none) := by
  refine ⟨{ poolSizes := cfg.VulkanDescriptorPoolSizes,
            maxSets := cfg.MaxDescriptorSetsCount }, rfl, fun _ => rfl, rfl, ?_, ?_⟩
  · intro descriptorPool h
    unfold VulkanDevice.CreateDescriptorPool
    simp only [CreateDescriptorPool_poolSizes_eq, List.nil_append, h]
  · unfold VulkanDevice.CreateDescriptorPool
    simp only [CreateDescriptorPool_poolSizes_eq, List.nil_append]
    cases h : p.createDescriptorPool device
        { poolSizes := cfg.VulkanDescriptorPoolSizes, maxSets := cfg.MaxDescriptorSetsCount }
    · simp [ResultValue.ofResult]
    · simp

theorem CreateDescriptorPool_request_witness :
    ∃ poolInfo : DescriptorPoolCreateInfo,
      poolInfo.poolSizes.length = Config.sample.VulkanDescriptorPoolSizes.length
      ∧ (Platform.sample true true).createDescriptorPool 31 poolInfo = some 33
      ∧ VulkanDevice.CreateDescriptorPool Config.sample (Platform.sample true true) 31
          = { result := GraphicsResult.Ok, value := 33 } :=
  match CreateDescriptorPool_request Config.sample (Platform.sample true true) 31 with
  | ⟨poolInfo, hlen, _, _, hok, _⟩ => ⟨poolInfo, hlen, rfl, hok 33 rfl⟩

/-! ### Vertex input layout -/

/-- C13: the attribute descriptions are four attributes at locations 0, 1, 2,
3, all on binding 0, with 3-, 3-, 2- and 2-component 32-bit float formats at
byte offsets 0, 12, 24 and 32; the binding has stride 40; every byte below the
stride lies in the range of exactly one attribute and no range passes the
stride. -/
theorem Vertex_descriptions :
    Vertex.getAttributeDescriptions
      = [ { location := 0, binding := 0, format := Format.eR32G32B32Sfloat, offset := 0 },
          { location := 1, binding := 0, format := Format.eR32G32B32Sfloat, offset := 12 },
          { location := 2, binding := 0, format := Format.eR32G32Sfloat, offset := 24 },
          { location := 3, binding := 0, format := Format.eR32G32Sfloat, offset := 32 } ]
    ∧ Vertex.getAttributeDescriptions.map (fun a => a.format.components)
        = [(3, 4), (3, 4), (2, 4), (2, 4)]
    ∧ Vertex.getBindingDescription
        = { binding := 0, stride := 40, inputRate := VertexInputRate.eVertex }
    ∧ (∀ b, b < Vertex.getBindingDescription.stride →
        (Vertex.getAttributeDescriptions.filter (fun a => a.covers b)).length = 1)
    ∧ (∀ a ∈ Vertex.getAttributeDescriptions,
        a.offset + a.format.byteSize ≤ Vertex.getBindingDescription.stride) := by
  refine ⟨by decide, by decide, by decide, by decide, by decide⟩

theorem Vertex_descriptions_witness :
    13 < Vertex.getBindingDescription.stride
    ∧ (Vertex.getAttributeDescriptions.filter (fun a => a.covers 13)).length = 1 :=
  ⟨by decide, Vertex_descriptions.2.2.2.1 13 (by decide)⟩

/-- C14, evaluated where the code departs from it: after the sample texture is
loaded successfully the created image view is handle 18, kept only in
`descriptor.imageView`, while `Destroy` passes the never assigned member
`imageView` (the null handle) to `destroyImageView`; image, memory and sampler
are the created ones. -/
theorem Destroy_after_load_passes_unset_view :
    (Texture.sample.LoadToGpu Driver.sample 1 2 3).1 = true
    ∧ (Texture.LoadToGpu.imageViewRV Texture.sample Driver.sample).1.value = 18
    ∧ (Texture.sample.LoadToGpu Driver.sample 1 2 3).2.1.descriptor.imageView = 18
    ∧ (Texture.sample.LoadToGpu Driver.sample 1 2 3).2.1.Destroy
        = [ DeviceCall.destroyImageView 0, DeviceCall.destroyImage 13,
            DeviceCall.freeMemory 14, DeviceCall.destroySampler 17 ] := by
  decide

/-! ### Blit regions -/

theorem recordedBlits_append (a b : List Cmd) :
    recordedBlits (a ++ b) = recordedBlits a ++ recordedBlits b := by
  simp [recordedBlits, List.filterMap_append]

theorem recordedBlits_mipSteps (image width height n i : Nat) :
    recordedBlits (Image.mipSteps image width height n i)
      = (List.range n).map (fun k => Image.mipBlit width height (k + i)) := by
  induction n generalizing i with
  | zero => simp [Image.mipSteps, recordedBlits]
  | succ n ih =>
      rw [List.range_succ_eq_map, List.map_cons, List.map_map]
      simp only [Image.mipSteps, recordedBlits_append, ih (i + 1)]
      have hstep : recordedBlits (Image.mipStep image width height i)
          = [Image.mipBlit width height i] := by
        simp [recordedBlits, Image.mipStep]
      rw [hstep]
      simp only [Nat.zero_add, List.singleton_append, List.cons.injEq, true_and]
      apply List.map_congr_left
      intro k _
      simp only [Function.comp, Nat.succ_eq_add_one]
      have h1 : k + (i + 1) = k + 1 + i := by omega
      rw [h1]

theorem recordedBlits_GenerateMipsForImage (logicalDevice graphicsQueue graphicsCommandPool
    image width height mipLevels : Nat) :
    recordedBlits (oneTimeCommands (Image.GenerateMipsForImage logicalDevice graphicsQueue
        graphicsCommandPool image width height mipLevels).2)
      = (List.range (mipLevels - 1)).map (fun k => Image.mipBlit width height (k + 1)) := by
  rw [oneTimeCommands_GenerateMipsForImage, GenerateMipsForImage_commands_eq,
    recordedBlits_append, recordedBlits_mipSteps]
  simp [recordedBlits]

theorem recordedBlits_LoadToGpu_mipCommands (image width height mipLevels : Nat) :
    recordedBlits (Texture.LoadToGpu.mipCommands image width height mipLevels)
      = (List.range (mipLevels - 1)).map (fun k => Image.mipBlit width height (k + 1)) := by
  rw [LoadToGpu_mipCommands_eq, recordedBlits_append, recordedBlits_mipSteps]
  simp [recordedBlits]

/-- C16, evaluated where the code departs from it: for the 300x200 texture
`CreateFromData` computes 9 mip levels, and the 8th blit recorded by either mip
path has the destination corner (1, 0, 1), an empty region; the 2x1 texture has
2 levels and its only blit has the destination corner (1, 0, 1). -/
theorem mip_blit_targets_empty_region :
    mipLevelsFor 300 200 = some 9
    ∧ (recordedBlits (oneTimeCommands
        (Image.GenerateMipsForImage 1 2 3 7 300 200 9).2))[8 - 1]?.map
          (fun blit => blit.dstOffsets.2) = some { x := 1, y := 0, z := 1 }
    ∧ (recordedBlits (Texture.LoadToGpu.mipCommands 7 300 200 9))[8 - 1]?.map
          (fun blit => blit.dstOffsets.2) = some { x := 1, y := 0, z := 1 }
    ∧ mipLevelsFor 2 1 = some 2
    ∧ (recordedBlits (oneTimeCommands
        (Image.GenerateMipsForImage 1 2 3 7 2 1 2).2))[1 - 1]?.map
          (fun blit => blit.dstOffsets.2) = some { x := 1, y := 0, z := 1 } := by
  rw [recordedBlits_GenerateMipsForImage, recordedBlits_GenerateMipsForImage,
    recordedBlits_LoadToGpu_mipCommands,
    mipLevelsFor_eq 300 200 (by norm_num) (by norm_num) (by norm_num),
    mipLevelsFor_eq 2 1 (by norm_num) (by norm_num) (by norm_num)]
  refine ⟨by simp [Nat.log], by decide, by decide, by simp [Nat.log], by decide⟩

/-! ### The buffer `CreateFromData` fills -/

/-- C17: for `channelsCount <= 4`, an input of at least
`width * height * channelsCount` bytes and `width * height * 4 < 2^32`,
`CreateFromData` (defined whenever `max width height >= 1`) produces a buffer of
exactly `4 * width * height` bytes in which byte `4p + j` of pixel `p` is input
byte `channelsCount * p + j` for `j < channelsCount` and 0 for
`channelsCount <= j < 4`; `width` and `height` are stored unchanged. -/
theorem CreateFromData_buffer (data : List Nat) (width height channelsCount : Nat)
    (textureSampler : TextureSampler) (hc : channelsCount ≤ 4)
    (hdata : width * height * channelsCount ≤ data.length)
    (hsize : width * height * 4 < 2 ^ 32) :
    (1 ≤ max width height →
      ∃ ci, TextureCreationInfo.CreateFromData data width height channelsCount textureSampler
        = some ci)
    ∧ ∀ ci, TextureCreationInfo.CreateFromData data width height channelsCount textureSampler
        = some ci →
        ci.buffer.length = 4 * width * height
        ∧ ci.bufferSize = 4 * width * height
        ∧ (∀ p j, p < width * height → j < 4 →
            ci.buffer[4 * p + j]?
              = if j < channelsCount then data[channelsCount * p + j]? else some 0)
        ∧ (∀ p j, p < width * height → j < channelsCount →
            ∃ byte, data[channelsCount * p + j]? = some byte
              ∧ ci.buffer[4 * p + j]? = some byte)
        ∧ ci.width = width ∧ ci.height = height := by
  have hpix : toU32 (width * height) = width * height := toU32_of_lt (by omega)
  have hbuf : toU32 (width * height * 4) = width * height * 4 := toU32_of_lt hsize
  have hbyte : ∀ p j, p < width * height → j < channelsCount →
      channelsCount * p + j < data.length := by
    intro p j hp hj
    have h1 : channelsCount * p + channelsCount ≤ channelsCount * (width * height) := by
      have : channelsCount * (p + 1) ≤ channelsCount * (width * height) :=
        Nat.mul_le_mul_left _ hp
      simpa [Nat.mul_add] using this
    have h2 : channelsCount * (width * height) = width * height * channelsCount :=
      Nat.mul_comm _ _
    omega
  constructor
  · intro hm
    apply (CreateFromData_isSome_iff data width height channelsCount textureSampler).mpr
    refine ⟨hm, ?_⟩
    rw [hpix]
    right
    refine ⟨by omega, hc, ?_⟩
    rw [Nat.mul_comm]; exact hdata
  · intro ci hci
    obtain ⟨h1, h2, h3, h4, _, hp⟩ := CreateFromData_some _ _ _ _ _ _ hci
    rw [hpix, hbuf] at hp
    rw [hbuf] at h1
    have hget : ∀ p j, p < width * height → j < 4 →
        ci.buffer[4 * p + j]?
          = if j < channelsCount then data[channelsCount * p + j]? else some 0 := by
      intro p j hp1 hj
      have hk : 4 * p + j < (List.replicate (width * height * 4) 0).length := by
        simp only [List.length_replicate]; omega
      rw [copyPixels_getElem? data channelsCount hc _ _ _ _ hp _ hk]
      have hdiv : (4 * p + j) / 4 = p := by omega
      have hmod : (4 * p + j) % 4 = j := by omega
      rw [hdiv, hmod]
      by_cases hjc : j < channelsCount
      · have hcond : 0 ≤ p ∧ p < 0 + width * height ∧ j < channelsCount := by omega
        have hlt := hbyte p j hp1 hjc
        simp only [hcond, and_self, if_true, hjc, List.getD_eq_getElem?_getD,
          List.getElem?_eq_getElem hlt, Option.getD_some]
      · have hcond : ¬ (0 ≤ p ∧ p < 0 + width * height ∧ j < channelsCount) := by omega
        have hrep : 4 * p + j < width * height * 4 := by omega
        simp [hcond, hjc, List.getElem?_replicate, hrep]
    refine ⟨by rw [h2, h1]; ring, by rw [h1]; ring, hget, ?_, h3, h4⟩
    intro p j hp1 hj
    have hlt := hbyte p j hp1 hj
    refine ⟨data[channelsCount * p + j], List.getElem?_eq_getElem hlt, ?_⟩
    rw [hget p j hp1 (by omega)]
    simp [hj, List.getElem?_eq_getElem hlt]

theorem CreateFromData_buffer_witness :
    ((3 : Nat) ≤ 4 ∧ 2 * 1 * 3 ≤ [10, 20, 30, 40, 50, 60].length ∧ 2 * 1 * 4 < 2 ^ 32)
    ∧ (TextureCreationInfo.CreateFromData [10, 20, 30, 40, 50, 60] 2 1 3 default).map
        (fun ci => ci.buffer) = some [10, 20, 30, 0, 40, 50, 60, 0]
    ∧ ∀ ci, TextureCreationInfo.CreateFromData [10, 20, 30, 40, 50, 60] 2 1 3 default = some ci →
        ci.buffer.length = 4 * 2 * 1 :=
  ⟨by decide, by decide,
   fun ci hci => ((CreateFromData_buffer [10, 20, 30, 40, 50, 60] 2 1 3 default (by decide)
     (by decide) (by decide)).2 ci hci).1⟩

/-- C18, evaluated where the code departs from it: for 32768x32768 the 32-bit
product `width * height * 4` is 0 while the loop bound `width * height` is
`2^30`, so the copy loop runs over an empty buffer and the call yields no
result, where the claim has `bufferSize` 0 and an invalid result; the same
holds for 65535x65535, whose buffer of `(65535 * 65535 * 4) mod 2^32` bytes is
shorter than the `4 * 65535 * 65535` bytes the loop walks over. When the pixel
count itself wraps to 0, as for 65536x65536, the loop does not run and the call
does return `bufferSize` 0 and an invalid result. -/
theorem CreateFromData_overruns_wrapped_buffer (data : List Nat) (channelsCount : Nat)
    (textureSampler : TextureSampler) :
    toU32 (32768 * 32768 * 4) = 0
    ∧ toU32 (32768 * 32768) = 2 ^ 30
    ∧ TextureCreationInfo.CreateFromData data 32768 32768 channelsCount textureSampler = none
    ∧ toU32 (65535 * 65535 * 4) < 4 * toU32 (65535 * 65535)
    ∧ TextureCreationInfo.CreateFromData data 65535 65535 channelsCount textureSampler = none
    ∧ (TextureCreationInfo.CreateFromData data 65536 65536 channelsCount textureSampler).map
        (fun ci => (ci.bufferSize, ci.buffer, ci.IsValid)) = some (0, [], false) := by
  have hnone : ∀ w h : Nat, toU32 (w * h) ≠ 0 → ¬ toU32 (w * h) < 2 ^ 30 →
      TextureCreationInfo.CreateFromData data w h channelsCount textureSampler = none := by
    intro w h h0 hlt
    cases hc : TextureCreationInfo.CreateFromData data w h channelsCount textureSampler with
    | none => rfl
    | some ci =>
        have := (CreateFromData_isSome_iff data w h channelsCount textureSampler).mp ⟨ci, hc⟩
        rcases this.2 with h1 | h1
        · exact absurd h1 h0
        · exact absurd h1.1 hlt
  refine ⟨by decide, by decide, hnone 32768 32768 (by decide) (by decide), by decide,
    hnone 65535 65535 (by decide) (by decide), ?_⟩
  obtain ⟨ci, hci⟩ := (CreateFromData_isSome_iff data 65536 65536 channelsCount
    textureSampler).mpr ⟨by decide, Or.inl (by decide)⟩
  obtain ⟨h1, h2, _, _, _, _⟩ := CreateFromData_some _ _ _ _ _ _ hci
  have hz : toU32 (65536 * 65536 * 4) = 0 := by decide
  rw [hz] at h1
  rw [h1] at h2
  have hb : ci.buffer = [] := List.length_eq_zero.mp h2
  rw [hci]
  simp [TextureCreationInfo.IsValid, h1, hb]

/-! ### `GetAABB` -/

theorem min_mul_le_mul (a lo hi p : ℚ) (h1 : lo ≤ p) (h2 : p ≤ hi) :
    min (a * lo) (a * hi) ≤ a * p := by
  rcases le_total 0 a with ha | ha
  · exact le_trans (min_le_left _ _) (mul_le_mul_of_nonneg_left h1 ha)
  · exact le_trans (min_le_right _ _) (mul_le_mul_of_nonpos_left h2 ha)

theorem mul_le_max_mul (a lo hi p : ℚ) (h1 : lo ≤ p) (h2 : p ≤ hi) :
    a * p ≤ max (a * lo) (a * hi) := by
  rcases le_total 0 a with ha | ha
  · exact le_trans (mul_le_mul_of_nonneg_left h2 ha) (le_max_right _ _)
  · exact le_trans (mul_le_mul_of_nonpos_left h1 ha) (le_max_left _ _)

theorem min_mul_choice (a lo hi : ℚ) :
    (min (a * lo) (a * hi) = a * lo ∧ a * lo ≤ a * hi)
      ∨ (min (a * lo) (a * hi) = a * hi ∧ a * hi ≤ a * lo) := by
  rcases le_total (a * lo) (a * hi) with h | h
  · exact Or.inl ⟨min_eq_left h, h⟩
  · exact Or.inr ⟨min_eq_right h, h⟩

theorem max_mul_choice (a lo hi : ℚ) :
    (max (a * lo) (a * hi) = a * lo ∧ a * hi ≤ a * lo)
      ∨ (max (a * lo) (a * hi) = a * hi ∧ a * lo ≤ a * hi) := by
  rcases le_total (a * lo) (a * hi) with h | h
  · exact Or.inr ⟨max_eq_right h, h⟩
  · exact Or.inl ⟨max_eq_left h, h⟩

/-- One row of the box transform: the lower bound `GetAABB` computes for a
component is attained at a corner and bounds every corner from below. -/
theorem row_min_spec (b : BoundingBox) (t a1 a2 a3 : ℚ) :
    (∃ c ∈ b.corners,
        t + min (a1 * b.min.x) (a1 * b.max.x) + min (a2 * b.min.y) (a2 * b.max.y)
          + min (a3 * b.min.z) (a3 * b.max.z) = t + a1 * c.x + a2 * c.y + a3 * c.z)
    ∧ ∀ c ∈ b.corners,
        t + min (a1 * b.min.x) (a1 * b.max.x) + min (a2 * b.min.y) (a2 * b.max.y)
          + min (a3 * b.min.z) (a3 * b.max.z) ≤ t + a1 * c.x + a2 * c.y + a3 * c.z := by
  constructor
  · rcases min_mul_choice a1 b.min.x b.max.x with ⟨h1, _⟩ | ⟨h1, _⟩ <;>
      rcases min_mul_choice a2 b.min.y b.max.y with ⟨h2, _⟩ | ⟨h2, _⟩ <;>
      rcases min_mul_choice a3 b.min.z b.max.z with ⟨h3, _⟩ | ⟨h3, _⟩ <;>
      rw [h1, h2, h3]
    · exact ⟨⟨b.min.x, b.min.y, b.min.z⟩, by simp [BoundingBox.corners], rfl⟩
    · exact ⟨⟨b.min.x, b.min.y, b.max.z⟩, by simp [BoundingBox.corners], rfl⟩
    · exact ⟨⟨b.min.x, b.max.y, b.min.z⟩, by simp [BoundingBox.corners], rfl⟩
    · exact ⟨⟨b.min.x, b.max.y, b.max.z⟩, by simp [BoundingBox.corners], rfl⟩
    · exact ⟨⟨b.max.x, b.min.y, b.min.z⟩, by simp [BoundingBox.corners], rfl⟩
    · exact ⟨⟨b.max.x, b.min.y, b.max.z⟩, by simp [BoundingBox.corners], rfl⟩
    · exact ⟨⟨b.max.x, b.max.y, b.min.z⟩, by simp [BoundingBox.corners], rfl⟩
    · exact ⟨⟨b.max.x, b.max.y, b.max.z⟩, by simp [BoundingBox.corners], rfl⟩
  · intro c hc
    have hx : min (a1 * b.min.x) (a1 * b.max.x) ≤ a1 * c.x := by
      simp only [BoundingBox.corners, List.mem_cons, List.mem_singleton, List.not_mem_nil,
        or_false] at hc
      rcases hc with rfl | rfl | rfl | rfl | rfl | rfl | rfl | rfl <;>
        first | exact min_le_left _ _ | exact min_le_right _ _
    have hy : min (a2 * b.min.y) (a2 * b.max.y) ≤ a2 * c.y := by
      simp only [BoundingBox.corners, List.mem_cons, List.mem_singleton, List.not_mem_nil,
        or_false] at hc
      rcases hc with rfl | rfl | rfl | rfl | rfl | rfl | rfl | rfl <;>
        first | exact min_le_left _ _ | exact min_le_right _ _
    have hz : min (a3 * b.min.z) (a3 * b.max.z) ≤ a3 * c.z := by
      simp only [BoundingBox.corners, List.mem_cons, List.mem_singleton, List.not_mem_nil,
        or_false] at hc
      rcases hc with rfl | rfl | rfl | rfl | rfl | rfl | rfl | rfl <;>
        first | exact min_le_left _ _ | exact min_le_right _ _
    linarith

/-- One row of the box transform, upper bound. -/
theorem row_max_spec (b : BoundingBox) (t a1 a2 a3 : ℚ) :
    (∃ c ∈ b.corners,
        t + max (a1 * b.min.x) (a1 * b.max.x) + max (a2 * b.min.y) (a2 * b.max.y)
          + max (a3 * b.min.z) (a3 * b.max.z) = t + a1 * c.x + a2 * c.y + a3 * c.z)
    ∧ ∀ c ∈ b.corners,
        t + a1 * c.x + a2 * c.y + a3 * c.z
          ≤ t + max (a1 * b.min.x) (a1 * b.max.x) + max (a2 * b.min.y) (a2 * b.max.y)
            + max (a3 * b.min.z) (a3 * b.max.z) := by
  constructor
  · rcases max_mul_choice a1 b.min.x b.max.x with ⟨h1, _⟩ | ⟨h1, _⟩ <;>
      rcases max_mul_choice a2 b.min.y b.max.y with ⟨h2, _⟩ | ⟨h2, _⟩ <;>
      rcases max_mul_choice a3 b.min.z b.max.z with ⟨h3, _⟩ | ⟨h3, _⟩ <;>
      rw [h1, h2, h3]
    · exact ⟨⟨b.min.x, b.min.y, b.min.z⟩, by simp [BoundingBox.corners], rfl⟩
    · exact ⟨⟨b.min.x, b.min.y, b.max.z⟩, by simp [BoundingBox.corners], rfl⟩
    · exact ⟨⟨b.min.x, b.max.y, b.min.z⟩, by simp [BoundingBox.corners], rfl⟩
    · exact ⟨⟨b.min.x, b.max.y, b.max.z⟩, by simp [BoundingBox.corners], rfl⟩
    · exact ⟨⟨b.max.x, b.min.y, b.min.z⟩, by simp [BoundingBox.corners], rfl⟩
    · exact ⟨⟨b.max.x, b.min.y, b.max.z⟩, by simp [BoundingBox.corners], rfl⟩
    · exact ⟨⟨b.max.x, b.max.y, b.min.z⟩, by simp [BoundingBox.corners], rfl⟩
    · exact ⟨⟨b.max.x, b.max.y, b.max.z⟩, by simp [BoundingBox.corners], rfl⟩
  · intro c hc
    have hx : a1 * c.x ≤ max (a1 * b.min.x) (a1 * b.max.x) := by
      simp only [BoundingBox.corners, List.mem_cons, List.mem_singleton, List.not_mem_nil,
        or_false] at hc
      rcases hc with rfl | rfl | rfl | rfl | rfl | rfl | rfl | rfl <;>
        first | exact le_max_left _ _ | exact le_max_right _ _
    have hy : a2 * c.y ≤ max (a2 * b.min.y) (a2 * b.max.y) := by
      simp only [BoundingBox.corners, List.mem_cons, List.mem_singleton, List.not_mem_nil,
        or_false] at hc
      rcases hc with rfl | rfl | rfl | rfl | rfl | rfl | rfl | rfl <;>
        first | exact le_max_left _ _ | exact le_max_right _ _
    have hz : a3 * c.z ≤ max (a3 * b.min.z) (a3 * b.max.z) := by
      simp only [BoundingBox.corners, List.mem_cons, List.mem_singleton, List.not_mem_nil,
        or_false] at hc
      rcases hc with rfl | rfl | rfl | rfl | rfl | rfl | rfl | rfl <;>
        first | exact le_max_left _ _ | exact le_max_right _ _
    linarith

theorem GetAABB_min_x (b : BoundingBox) (m : Mat4) :
    (b.GetAABB m).min.x = m 0 3 + min (m 0 0 * b.min.x) (m 0 0 * b.max.x)
      + min (m 0 1 * b.min.y) (m 0 1 * b.max.y) + min (m 0 2 * b.min.z) (m 0 2 * b.max.z) := rfl

theorem GetAABB_min_y (b : BoundingBox) (m : Mat4) :
    (b.GetAABB m).min.y = m 1 3 + min (m 1 0 * b.min.x) (m 1 0 * b.max.x)
      + min (m 1 1 * b.min.y) (m 1 1 * b.max.y) + min (m 1 2 * b.min.z) (m 1 2 * b.max.z) := rfl

theorem GetAABB_min_z (b : BoundingBox) (m : Mat4) :
    (b.GetAABB m).min.z = m 2 3 + min (m 2 0 * b.min.x) (m 2 0 * b.max.x)
      + min (m 2 1 * b.min.y) (m 2 1 * b.max.y) + min (m 2 2 * b.min.z) (m 2 2 * b.max.z) := rfl

theorem GetAABB_max_x (b : BoundingBox) (m : Mat4) :
    (b.GetAABB m).max.x = m 0 3 + max (m 0 0 * b.min.x) (m 0 0 * b.max.x)
      + max (m 0 1 * b.min.y) (m 0 1 * b.max.y) + max (m 0 2 * b.min.z) (m 0 2 * b.max.z) := rfl

theorem GetAABB_max_y (b : BoundingBox) (m : Mat4) :
    (b.GetAABB m).max.y = m 1 3 + max (m 1 0 * b.min.x) (m 1 0 * b.max.x)
      + max (m 1 1 * b.min.y) (m 1 1 * b.max.y) + max (m 1 2 * b.min.z) (m 1 2 * b.max.z) := rfl

theorem GetAABB_max_z (b : BoundingBox) (m : Mat4) :
    (b.GetAABB m).max.z = m 2 3 + max (m 2 0 * b.min.x) (m 2 0 * b.max.x)
      + max (m 2 1 * b.min.y) (m 2 1 * b.max.y) + max (m 2 2 * b.min.z) (m 2 2 * b.max.z) := rfl

theorem transformPoint_x (m : Mat4) (c : Vec3) :
    (m.transformPoint c).x = m 0 3 + m 0 0 * c.x + m 0 1 * c.y + m 0 2 * c.z := rfl

theorem transformPoint_y (m : Mat4) (c : Vec3) :
    (m.transformPoint c).y = m 1 3 + m 1 0 * c.x + m 1 1 * c.y + m 1 2 * c.z := rfl

theorem transformPoint_z (m : Mat4) (c : Vec3) :
    (m.transformPoint c).z = m 2 3 + m 2 0 * c.x + m 2 1 * c.y + m 2 2 * c.z := rfl


/-- C19: over exact arithmetic `GetAABB` returns the box whose `min` and `max`
are, component by component, the minimum and the maximum over the eight corners
of the input box of the affine image under `m`; the box therefore contains the
image of every point of the input box; for the identity matrix and
`min <= max` it returns the same `min` and `max`. -/
theorem GetAABB_spec (b : BoundingBox) (m : Mat4) :
    ((∀ c ∈ b.corners, Vec3.le (b.GetAABB m).min (m.transformPoint c))
      ∧ (∃ c ∈ b.corners, (b.GetAABB m).min.x = (m.transformPoint c).x)
      ∧ (∃ c ∈ b.corners, (b.GetAABB m).min.y = (m.transformPoint c).y)
      ∧ (∃ c ∈ b.corners, (b.GetAABB m).min.z = (m.transformPoint c).z))
    ∧ ((∀ c ∈ b.corners, Vec3.le (m.transformPoint c) (b.GetAABB m).max)
      ∧ (∃ c ∈ b.corners, (b.GetAABB m).max.x = (m.transformPoint c).x)
      ∧ (∃ c ∈ b.corners, (b.GetAABB m).max.y = (m.transformPoint c).y)
      ∧ (∃ c ∈ b.corners, (b.GetAABB m).max.z = (m.transformPoint c).z))
    ∧ (∀ p : Vec3, Vec3.le b.min p → Vec3.le p b.max →
        Vec3.le (b.GetAABB m).min (m.transformPoint p)
          ∧ Vec3.le (m.transformPoint p) (b.GetAABB m).max)
    ∧ (Vec3.le b.min b.max → (b.GetAABB 1).min = b.min ∧ (b.GetAABB 1).max = b.max) := by
  have hmin := fun r : Fin 4 => row_min_spec b (m r 3) (m r 0) (m r 1) (m r 2)
  have hmax := fun r : Fin 4 => row_max_spec b (m r 3) (m r 0) (m r 1) (m r 2)
  refine ⟨⟨?_, ?_, ?_, ?_⟩, ⟨?_, ?_, ?_, ?_⟩, ?_, ?_⟩
  · intro c hc
    refine ⟨?_, ?_, ?_⟩
    · rw [GetAABB_min_x, transformPoint_x]; exact (hmin 0).2 c hc
    · rw [GetAABB_min_y, transformPoint_y]; exact (hmin 1).2 c hc
    · rw [GetAABB_min_z, transformPoint_z]; exact (hmin 2).2 c hc
  · obtain ⟨c, hc, h⟩ := (hmin 0).1
    exact ⟨c, hc, by rw [GetAABB_min_x, transformPoint_x]; exact h⟩
  · obtain ⟨c, hc, h⟩ := (hmin 1).1
    exact ⟨c, hc, by rw [GetAABB_min_y, transformPoint_y]; exact h⟩
  · obtain ⟨c, hc, h⟩ := (hmin 2).1
    exact ⟨c, hc, by rw [GetAABB_min_z, transformPoint_z]; exact h⟩
  · intro c hc
    refine ⟨?_, ?_, ?_⟩
    · rw [GetAABB_max_x, transformPoint_x]; exact (hmax 0).2 c hc
    · rw [GetAABB_max_y, transformPoint_y]; exact (hmax 1).2 c hc
    · rw [GetAABB_max_z, transformPoint_z]; exact (hmax 2).2 c hc
  · obtain ⟨c, hc, h⟩ := (hmax 0).1
    exact ⟨c, hc, by rw [GetAABB_max_x, transformPoint_x]; exact h⟩
  · obtain ⟨c, hc, h⟩ := (hmax 1).1
    exact ⟨c, hc, by rw [GetAABB_max_y, transformPoint_y]; exact h⟩
  · obtain ⟨c, hc, h⟩ := (hmax 2).1
    exact ⟨c, hc, by rw [GetAABB_max_z, transformPoint_z]; exact h⟩
  · rintro p ⟨hx1, hy1, hz1⟩ ⟨hx2, hy2, hz2⟩
    have lo := fun a : ℚ => min_mul_le_mul a b.min.x b.max.x p.x hx1 hx2
    have lo2 := fun a : ℚ => min_mul_le_mul a b.min.y b.max.y p.y hy1 hy2
    have lo3 := fun a : ℚ => min_mul_le_mul a b.min.z b.max.z p.z hz1 hz2
    have hi := fun a : ℚ => mul_le_max_mul a b.min.x b.max.x p.x hx1 hx2
    have hi2 := fun a : ℚ => mul_le_max_mul a b.min.y b.max.y p.y hy1 hy2
    have hi3 := fun a : ℚ => mul_le_max_mul a b.min.z b.max.z p.z hz1 hz2
    refine ⟨⟨?_, ?_, ?_⟩, ⟨?_, ?_, ?_⟩⟩
    · rw [GetAABB_min_x, transformPoint_x]
      linarith [lo (m 0 0), lo2 (m 0 1), lo3 (m 0 2)]
    · rw [GetAABB_min_y, transformPoint_y]
      linarith [lo (m 1 0), lo2 (m 1 1), lo3 (m 1 2)]
    · rw [GetAABB_min_z, transformPoint_z]
      linarith [lo (m 2 0), lo2 (m 2 1), lo3 (m 2 2)]
    · rw [GetAABB_max_x, transformPoint_x]
      linarith [hi (m 0 0), hi2 (m 0 1), hi3 (m 0 2)]
    · rw [GetAABB_max_y, transformPoint_y]
      linarith [hi (m 1 0), hi2 (m 1 1), hi3 (m 1 2)]
    · rw [GetAABB_max_z, transformPoint_z]
      linarith [hi (m 2 0), hi2 (m 2 1), hi3 (m 2 2)]
  · rintro ⟨hx, hy, hz⟩
    have hminx := GetAABB_min_x b 1
    have hminy := GetAABB_min_y b 1
    have hminz := GetAABB_min_z b 1
    have hmaxx := GetAABB_max_x b 1
    have hmaxy := GetAABB_max_y b 1
    have hmaxz := GetAABB_max_z b 1
    simp [Matrix.one_apply, hx, hy, hz] at hminx hminy hminz hmaxx hmaxy hmaxz
    constructor
    · cases hb : (b.GetAABB 1).min with
      | mk x y z =>
          cases hbm : b.min with
          | mk x2 y2 z2 =>
              rw [hb] at hminx hminy hminz
              rw [hbm] at hminx hminy hminz
              simp at hminx hminy hminz
              rw [hminx, hminy, hminz]
    · cases hb : (b.GetAABB 1).max with
      | mk x y z =>
          cases hbm : b.max with
          | mk x2 y2 z2 =>
              rw [hb] at hmaxx hmaxy hmaxz
              rw [hbm] at hmaxx hmaxy hmaxz
              simp at hmaxx hmaxy hmaxz
              rw [hmaxx, hmaxy, hmaxz]

theorem GetAABB_spec_witness :
    Vec3.le BoundingBox.sample.min BoundingBox.sample.max
    ∧ (BoundingBox.sample.GetAABB 1).min = BoundingBox.sample.min
    ∧ (BoundingBox.sample.GetAABB 1).max = BoundingBox.sample.max :=
  have hle : Vec3.le BoundingBox.sample.min BoundingBox.sample.max := by
    simp [Vec3.le, BoundingBox.sample]
  ⟨hle, (GetAABB_spec BoundingBox.sample 1).2.2.2 hle⟩

/-! ### `GetMatrix` -/

theorem GetMatrix_loop_mul (heap : Nat → Node) (p depth : Nat)
    (hchain : Node.ChainEnds heap p depth) :
    ∃ a : Mat4, ∀ fuel, depth + 1 ≤ fuel →
      ∀ m : Mat4, Node.GetMatrix.loop heap fuel (some p) m = some (a * m) := by
  induction hchain with
  | root n h =>
      refine ⟨(heap n).ConstructLocalMatrix, ?_⟩
      intro fuel hfuel m
      obtain ⟨f, rfl⟩ : ∃ f, fuel = f + 1 := ⟨fuel - 1, by omega⟩
      simp [Node.GetMatrix.loop, h]
  | step n q depth h _ ih =>
      obtain ⟨a, ha⟩ := ih
      refine ⟨a * (heap n).ConstructLocalMatrix, ?_⟩
      intro fuel hfuel m
      obtain ⟨f, rfl⟩ : ∃ f, fuel = f + 1 := ⟨fuel - 1, by omega⟩
      simp only [Node.GetMatrix.loop, h]
      rw [ha f (by omega), Matrix.mul_assoc]

theorem GetMatrix_eq_loop (heap : Nat → Node) (fuel p : Nat) :
    Node.GetMatrix heap fuel p = Node.GetMatrix.loop heap (fuel + 1) (some p) 1 := by
  simp [Node.GetMatrix, Node.GetMatrix.loop]

theorem GetMatrix_value (heap : Nat → Node) (p depth : Nat)
    (hchain : Node.ChainEnds heap p depth) :
    ∃ a : Mat4, (∀ fuel, depth ≤ fuel → Node.GetMatrix heap fuel p = some a)
      ∧ ∀ fuel, depth + 1 ≤ fuel →
          ∀ m : Mat4, Node.GetMatrix.loop heap fuel (some p) m = some (a * m) := by
  obtain ⟨a, ha⟩ := GetMatrix_loop_mul heap p depth hchain
  refine ⟨a, ?_, ha⟩
  intro fuel hfuel
  rw [GetMatrix_eq_loop, ha (fuel + 1) (by omega), Matrix.mul_one]

/-- C20: over exact matrix arithmetic, for a node whose parent chain ends after
`depth` steps, `GetMatrix` returns (for every bound of at least `depth`
iterations) a matrix `M` with `M = ConstructLocalMatrix(n)` when `n` has no
parent and `M = GetMatrix(parent(n)) * ConstructLocalMatrix(n)` otherwise, where
`ConstructLocalMatrix` is `translate(translation) * mat4(rotation) *
scale(scale) * matrix`. -/
theorem GetMatrix_recurrence (heap : Nat → Node) (n depth : Nat)
    (hchain : Node.ChainEnds heap n depth) (fuel : Nat) (hfuel : depth ≤ fuel) :
    ∃ M : Mat4, Node.GetMatrix heap fuel n = some M
      ∧ ((heap n).parent = none → M = (heap n).ConstructLocalMatrix)
      ∧ (∀ p, (heap n).parent = some p →
          ∃ Mp : Mat4, Node.GetMatrix heap fuel p = some Mp
            ∧ M = Mp * (heap n).ConstructLocalMatrix)
      ∧ (heap n).ConstructLocalMatrix
          = glm.translate (heap n).translation * glm.mat4_cast (heap n).rotation
            * glm.scale (heap n).scale * (heap n).matrix := by
  cases hchain with
  | root _ h =>
      refine ⟨(heap n).ConstructLocalMatrix, ?_, fun _ => rfl, ?_, rfl⟩
      · cases fuel <;> simp [Node.GetMatrix, h, Node.GetMatrix.loop]
      · intro p hp
        rw [h] at hp
        exact absurd hp (by simp)
  | step _ q d h hq =>
      obtain ⟨a, ha1, ha2⟩ := GetMatrix_value heap q d hq
      refine ⟨a * (heap n).ConstructLocalMatrix, ?_, ?_, ?_, rfl⟩
      · simp only [Node.GetMatrix, h]
        exact ha2 fuel hfuel _
      · intro hnone
        rw [h] at hnone
        exact absurd hnone (by simp)
      · intro p hp
        have hpq : p = q := by
          rw [h] at hp
          exact (Option.some.inj hp).symm
        subst hpq
        exact ⟨a, ha1 fuel (by omega), rfl⟩

theorem GetMatrix_recurrence_witness :
    (Node.ChainEnds Node.sampleHeap 2 1 ∧ 1 ≤ 3)
    ∧ ∃ M : Mat4, Node.GetMatrix Node.sampleHeap 3 2 = some M
      ∧ ∃ Mp : Mat4, Node.GetMatrix Node.sampleHeap 3 1 = some Mp
          ∧ M = Mp * (Node.sampleHeap 2).ConstructLocalMatrix :=
  have hchain : Node.ChainEnds Node.sampleHeap 2 1 :=
    Node.ChainEnds.step 2 1 0 rfl (Node.ChainEnds.root 1 rfl)
  match GetMatrix_recurrence Node.sampleHeap 2 1 hchain 3 (by decide) with
  | ⟨M, hM, _, hstep, _⟩ => ⟨⟨hchain, by decide⟩, M, hM, hstep 1 rfl⟩

end ez

/-! ## glTF loading, `Node::Update`, sizes, teardown and the debug callback -/

namespace ez

/-! ### The two mip paths record the same commands -/

theorem recordedCommands_mipCalls (drv : Driver) (image width height mipLevels graphicsQueue
    graphicsCommandPool : Nat) :
    recordedCommands (Texture.LoadToGpu.mipCalls drv image width height mipLevels graphicsQueue
        graphicsCommandPool)
      = Texture.LoadToGpu.mipCommands image width height mipLevels := by
  simp only [Texture.LoadToGpu.mipCalls, recordedCommands_append, recordedCommands_map_cmd]
  simp [recordedCommands]

/-- C21: for the same image, width, height and mipLevels, the mip part of
`Texture::LoadToGpu` (inline loop and final barrier, recorded into `blitCmd`)
records exactly the command sequence `Image::GenerateMipsForImage` records on
its one-time command buffer: the same barriers and blits with every field
equal, in the same order. -/
theorem LoadToGpu_mip_part_eq_GenerateMipsForImage (drv : Driver)
    (logicalDevice graphicsQueue graphicsCommandPool image width height mipLevels : Nat) :
    Texture.LoadToGpu.mipCommands image width height mipLevels
      = Image.GenerateMipsForImage.commands image width height mipLevels
    ∧ recordedCommands (Texture.LoadToGpu.mipCalls drv image width height mipLevels
        graphicsQueue graphicsCommandPool)
      = oneTimeCommands (Image.GenerateMipsForImage logicalDevice graphicsQueue
          graphicsCommandPool image width height mipLevels).2 := by
  have h : Texture.LoadToGpu.mipCommands image width height mipLevels
      = Image.GenerateMipsForImage.commands image width height mipLevels := by
    rw [LoadToGpu_mipCommands_eq, GenerateMipsForImage_commands_eq]
  exact ⟨h, by rw [recordedCommands_mipCalls, oneTimeCommands_GenerateMipsForImage, h]⟩

/-! ### Teardown, sizes, debug callback -/

/-- C26: the destructor of `VulkanDevice` makes exactly five calls: the
graphics command pool and the descriptor pool are each destroyed once, both
before the logical device, the logical device before the surface, and the
surface before the window. -/
theorem VulkanDevice_dtor_order (d : VulkanDevice) :
    d.dtor
      = [ TeardownCall.destroyCommandPool d.device d.graphicsCommandPool,
          TeardownCall.destroyDescriptorPool d.device d.descriptorPool,
          TeardownCall.destroyDevice d.device,
          TeardownCall.destroySurfaceKHR d.instanceHandle d.surface,
          TeardownCall.SDL_DestroyWindow d.window ]
    ∧ d.dtor.count (TeardownCall.destroyCommandPool d.device d.graphicsCommandPool) = 1
    ∧ d.dtor.count (TeardownCall.destroyDescriptorPool d.device d.descriptorPool) = 1
    ∧ (d.dtor.filter fun c =>
        match c with
        | TeardownCall.destroyCommandPool _ _ => true
        | TeardownCall.destroyDescriptorPool _ _ => true
        | _ => false).length = 2
    ∧ List.Sublist [TeardownCall.destroyCommandPool d.device d.graphicsCommandPool,
        TeardownCall.destroyDevice d.device] d.dtor
    ∧ List.Sublist [TeardownCall.destroyDescriptorPool d.device d.descriptorPool,
        TeardownCall.destroyDevice d.device] d.dtor
    ∧ List.Sublist [TeardownCall.destroyDevice d.device,
        TeardownCall.destroySurfaceKHR d.instanceHandle d.surface] d.dtor
    ∧ List.Sublist [TeardownCall.destroySurfaceKHR d.instanceHandle d.surface,
        TeardownCall.SDL_DestroyWindow d.window] d.dtor
    ∧ d.dtor.count (TeardownCall.destroyDevice d.device) = 1 := by
  refine ⟨rfl, ?_, ?_, ?_, ?_, ?_, ?_, ?_, ?_⟩
  · simp [VulkanDevice.dtor]
  · simp [VulkanDevice.dtor]
  · simp [VulkanDevice.dtor]
  · simp [VulkanDevice.dtor]
  · simp [VulkanDevice.dtor]
  · simp [VulkanDevice.dtor]
  · exact List.Sublist.cons _ (List.Sublist.cons _ (List.Sublist.cons _ (List.Sublist.refl _)))
  · simp [VulkanDevice.dtor]

/-- C25: `UniformBufferObject` is three 4x4 float matrices at offsets 0, 64
and 128, 192 bytes in all, which is `uniformBufferMaxHackSize`, the size of the
uniform buffer `CreateVertexBuffers` creates; a descriptor range of
`sizeof(UniformBufferObject)` written by `CreateDescriptorSet` starts at offset
0 and ends exactly at the end of that buffer; the push-constant block is one
4x4 matrix and `PushConstantsBlockSize` is 64. -/
theorem uniform_sizes (vertices indices descriptorSet uniformBuffer : Nat) :
    UniformBufferObject.members = [glm.mat4, glm.mat4, glm.mat4]
    ∧ glm.mat4.size = 4 * 4 * 4
    ∧ memberOffsets UniformBufferObject.members 0 = [0, 64, 128]
    ∧ UniformBufferObject.sizeof = 3 * 64
    ∧ UniformBufferObject.sizeof = 192
    ∧ uniformBufferMaxHackSize = 192
    ∧ UniformBufferObject.sizeof = uniformBufferMaxHackSize
    ∧ (CreateVertexBuffers vertices indices).2[2]?
        = some (BufferCall.createBuffer uniformBufferMaxHackSize
            [BufferUsageFlagBits.eUniformBuffer]
            [MemoryPropertyFlagBits.eHostVisible, MemoryPropertyFlagBits.eHostCoherent])
    ∧ ((CreateVertexBuffers vertices indices).2.filter fun c =>
        match c with
        | BufferCall.createBuffer _ usage _ => usage.contains BufferUsageFlagBits.eUniformBuffer
        | _ => false).length = 1
    ∧ (CreateDescriptorSet (some descriptorSet) uniformBuffer UniformBufferObject.sizeof)
        = (true, some { buffer := uniformBuffer, offset := 0, range := uniformBufferMaxHackSize })
    ∧ Mesh.PushConstantsBlockSize = 64 := by
  refine ⟨rfl, by decide, by decide, by decide, by decide, rfl, by decide, rfl, ?_, ?_,
    by decide⟩
  · simp [CreateVertexBuffers]
  · have h : UniformBufferObject.sizeof = uniformBufferMaxHackSize := by decide
    rw [h]
    rfl

/-! ### Index and vertex append of the glTF loader -/

theorem appendVertices_eq (primitive : GltfPrimitive) (n v : Nat)
    (vertexBuffer : List VertexValue) :
    LoadNodeFromGLTF.appendVertices primitive n v vertexBuffer
      = vertexBuffer ++ (List.range n).map (fun k => primitive.vertex (v + k)) := by
  induction n generalizing v vertexBuffer with
  | zero => simp [LoadNodeFromGLTF.appendVertices]
  | succ n ih =>
      rw [LoadNodeFromGLTF.appendVertices, ih, List.range_succ_eq_map, List.map_cons,
        List.map_map, List.append_assoc]
      congr 1
      simp only [Nat.add_zero, List.singleton_append, List.cons.injEq, true_and]
      apply List.map_congr_left
      intro k _
      simp only [Function.comp, Nat.succ_eq_add_one]
      congr 1
      omega

theorem appendIndices_eq (accessor : GltfIndexAccessor) (bits vertexStart n index : Nat)
    (indexBuffer : List Nat) :
    LoadNodeFromGLTF.appendIndices accessor bits vertexStart n index indexBuffer
      = indexBuffer ++ (List.range n).map (fun k =>
          toU32 (LoadNodeFromGLTF.source accessor bits (index + k) + vertexStart)) := by
  induction n generalizing index indexBuffer with
  | zero => simp [LoadNodeFromGLTF.appendIndices]
  | succ n ih =>
      rw [LoadNodeFromGLTF.appendIndices, ih, List.range_succ_eq_map, List.map_cons,
        List.map_map, List.append_assoc]
      congr 1
      simp only [Nat.add_zero, List.singleton_append, List.cons.injEq, true_and]
      apply List.map_congr_left
      intro k _
      simp only [Function.comp, Nat.succ_eq_add_one]
      have h : index + 1 + k = index + (k + 1) := by omega
      rw [h]

theorem toU32_add_toU32 (a b : Nat) : toU32 (a + toU32 b) = (a + b) % 2 ^ 32 := by
  unfold toU32 UINT32_SIZE
  omega

/-- The primitive `loadPrimitive` records for given buffers. -/
theorem loadPrimitive_indexed (p : GltfPrimitive) (accessor : GltfIndexAccessor)
    (indexBuffer : List Nat) (vertexBuffer : List VertexValue)
    (hidx : p.indices = some accessor) (hsup : p.supported = true) :
    LoadNodeFromGLTF.loadPrimitive p indexBuffer vertexBuffer
      = some
          (indexBuffer ++ (List.range accessor.count).map (fun k =>
              (LoadNodeFromGLTF.source accessor accessor.bits k + vertexBuffer.length) % 2 ^ 32),
           vertexBuffer ++ (List.range p.position.count).map p.vertex,
           (Primitive.new (toU32 indexBuffer.length) (toU32 accessor.count)
              (toU32 p.position.count)).SetBoundingBox
                (Vec3.ofDoubles p.position.minValues)
                (Vec3.ofDoubles p.position.maxValues)) := by
  have hv : LoadNodeFromGLTF.appendVertices p p.position.count 0 vertexBuffer
      = vertexBuffer ++ (List.range p.position.count).map p.vertex := by
    rw [appendVertices_eq]
    simp
  have hi : ∀ bits, LoadNodeFromGLTF.appendIndices accessor bits (toU32 vertexBuffer.length)
      accessor.count 0 indexBuffer
      = indexBuffer ++ (List.range accessor.count).map (fun k =>
          (LoadNodeFromGLTF.source accessor bits k + vertexBuffer.length) % 2 ^ 32) := by
    intro bits
    rw [appendIndices_eq]
    simp [toU32_add_toU32]
  simp only [GltfPrimitive.supported, hidx, Bool.or_eq_true, decide_eq_true_eq] at hsup
  unfold LoadNodeFromGLTF.loadPrimitive
  simp only [hidx, hv, hi]
  by_cases h32 : accessor.componentType = TINYGLTF_PARAMETER_TYPE_UNSIGNED_INT
  · simp only [GltfIndexAccessor.bits, if_pos h32]
  · by_cases h16 : accessor.componentType = TINYGLTF_PARAMETER_TYPE_UNSIGNED_SHORT
    · simp only [GltfIndexAccessor.bits, if_neg h32, if_pos h16]
    · have h8 : accessor.componentType = TINYGLTF_PARAMETER_TYPE_UNSIGNED_BYTE := by tauto
      simp only [GltfIndexAccessor.bits, if_neg h32, if_neg h16, if_pos h8]

/-- C22 as amended: for a primitive with an index accessor of a supported
component type, the indices appended are, in source order,
`(source[k] + vertexStart) mod 2^32` with `vertexStart` the vertex-buffer length
before the primitive's vertices were appended; if every source index is below
the vertex count and `vertexStart + vertexCount < 2^32`, every appended index
lies in `[vertexStart, vertexStart + vertexCount)`; the recorded primitive has
`firstIndex` equal to the index-buffer length before the append when that
length is below `2^32`, and `indexCount` equal to the number of indices appended
when that number is below `2^32`. -/
theorem loadPrimitive_indices (p : GltfPrimitive) (accessor : GltfIndexAccessor)
    (indexBuffer : List Nat) (vertexBuffer : List VertexValue)
    (hidx : p.indices = some accessor) (hsup : p.supported = true) :
    ∃ (appended : List Nat) (prim : Primitive),
      LoadNodeFromGLTF.loadPrimitive p indexBuffer vertexBuffer
        = some (indexBuffer ++ appended,
            vertexBuffer ++ (List.range p.position.count).map p.vertex, prim)
      ∧ appended = (List.range accessor.count).map (fun k =>
          (LoadNodeFromGLTF.source accessor accessor.bits k + vertexBuffer.length) % 2 ^ 32)
      ∧ appended.length = accessor.count
      ∧ ((∀ k, k < accessor.count →
            LoadNodeFromGLTF.source accessor accessor.bits k < p.position.count) →
          vertexBuffer.length + p.position.count < 2 ^ 32 →
          (∀ x ∈ appended,
            vertexBuffer.length ≤ x ∧ x < vertexBuffer.length + p.position.count)
          ∧ prim.vertexCount = p.position.count)
      ∧ prim.firstIndex = indexBuffer.length % 2 ^ 32
      ∧ prim.indexCount = accessor.count % 2 ^ 32
      ∧ (indexBuffer.length < 2 ^ 32 → prim.firstIndex = indexBuffer.length)
      ∧ (accessor.count < 2 ^ 32 → prim.indexCount = appended.length) := by
  refine ⟨_, _, loadPrimitive_indexed p accessor indexBuffer vertexBuffer hidx hsup, rfl,
    by simp, ?_, rfl, rfl, ?_, ?_⟩
  · intro hsrc hfit
    constructor
    · intro x hx
      simp only [List.mem_map, List.mem_range] at hx
      obtain ⟨k, hk, rfl⟩ := hx
      have := hsrc k hk
      have hlt : LoadNodeFromGLTF.source accessor accessor.bits k + vertexBuffer.length
          < 2 ^ 32 := by omega
      rw [Nat.mod_eq_of_lt hlt]
      omega
    · exact toU32_of_lt (by omega)
  · intro h
    exact toU32_of_lt h
  · intro h
    simp only [List.length_map, List.length_range]
    exact toU32_of_lt h

theorem loadPrimitive_indices_witness :
    (GltfPrimitive.sample.indices
        = some { componentType := 5123, count := 3, buf := [0, 1, 2] }
      ∧ GltfPrimitive.sample.supported = true)
    ∧ (LoadNodeFromGLTF.loadPrimitive GltfPrimitive.sample [7, 8] [default, default]).map
        (fun r => (r.1, r.2.2.firstIndex, r.2.2.indexCount, r.2.2.vertexCount))
        = some ([7, 8, 2, 3, 4], 2, 3, 3)
    ∧ ∃ (appended : List Nat) (prim : Primitive),
        LoadNodeFromGLTF.loadPrimitive GltfPrimitive.sample [7, 8] [default, default]
          = some ([7, 8] ++ appended,
              [default, default]
                ++ (List.range GltfPrimitive.sample.position.count).map
                    GltfPrimitive.sample.vertex, prim)
        ∧ appended.length = 3 :=
  ⟨⟨rfl, rfl⟩, by decide,
   match loadPrimitive_indices GltfPrimitive.sample
      { componentType := 5123, count := 3, buf := [0, 1, 2] } [7, 8] [default, default]
      rfl rfl with
   | ⟨appended, prim, h1, _, h3, _⟩ => ⟨appended, prim, h1, h3⟩⟩

/-- C22 as stated fails: with an index buffer of `2^32` entries before the
append, the recorded primitive has `firstIndex` 0, not the index-buffer
length. -/
theorem loadPrimitive_firstIndex_wraps :
    (List.replicate UINT32_SIZE 0).length = 2 ^ 32
    ∧ (LoadNodeFromGLTF.loadPrimitive GltfPrimitive.sample (List.replicate UINT32_SIZE 0)
        []).map (fun r => r.2.2.firstIndex) = some 0 := by
  constructor
  · rw [List.length_replicate]; rfl
  · rw [loadPrimitive_indexed GltfPrimitive.sample
      { componentType := 5123, count := 3, buf := [0, 1, 2] } _ _ rfl rfl]
    simp only [Option.map_some', Primitive.SetBoundingBox, Primitive.new,
      List.length_replicate]
    rfl

/-! ### `Node::Update` -/

mutual
theorem Update_meshes (t : NodeTree) :
    (∀ m ∈ t.Update.meshes, m.pushConstantsBlock.modelMatrix = 1)
      ∧ t.Update.meshes.length = t.meshes.length
      ∧ t.Update.withoutModelMatrix = t.withoutModelMatrix := by
  cases t with
  | mk node mesh children =>
      obtain ⟨h1, h2, h3⟩ := UpdateChildren_meshes children
      simp only [NodeTree.Update, NodeTree.meshes, NodeTree.withoutModelMatrix]
      refine ⟨?_, ?_, ?_⟩
      · intro m hm
        rcases List.mem_append.mp hm with hm | hm
        · cases mesh with
          | none => simp at hm
          | some m0 =>
              simp at hm
              rw [hm]
        · exact h1 m hm
      · cases mesh <;> simp [h2]
      · rw [h3]
        cases mesh <;> simp
theorem UpdateChildren_meshes (ts : List NodeTree) :
    (∀ m ∈ NodeTree.meshesOfAll (NodeTree.UpdateChildren ts),
        m.pushConstantsBlock.modelMatrix = 1)
      ∧ (NodeTree.meshesOfAll (NodeTree.UpdateChildren ts)).length
          = (NodeTree.meshesOfAll ts).length
      ∧ NodeTree.withoutModelMatrixAll (NodeTree.UpdateChildren ts)
          = NodeTree.withoutModelMatrixAll ts := by
  cases ts with
  | nil => simp [NodeTree.UpdateChildren, NodeTree.meshesOfAll]
  | cons c cs =>
      obtain ⟨h1, h2, h3⟩ := Update_meshes c
      obtain ⟨g1, g2, g3⟩ := UpdateChildren_meshes cs
      simp only [NodeTree.UpdateChildren, NodeTree.meshesOfAll, NodeTree.withoutModelMatrixAll]
      refine ⟨?_, ?_, ?_⟩
      · intro m hm
        rcases List.mem_append.mp hm with hm | hm
        · exact h1 m hm
        · exact g1 m hm
      · simp [h2, g2]
      · rw [h3, g3]
end

/-- C23: after `Node::Update` every mesh owned by a node of the subtree has
`pushConstantsBlock.modelMatrix` equal to the identity, whatever the nodes'
translation, rotation, scale, matrix and parents are; the subtree owns as many
meshes as before, and with the model matrices left aside the subtree is
unchanged. -/
theorem Node_Update_effect (t : NodeTree) :
    (∀ m ∈ t.Update.meshes, m.pushConstantsBlock.modelMatrix = 1)
    ∧ t.Update.meshes.length = t.meshes.length
    ∧ t.Update.withoutModelMatrix = t.withoutModelMatrix :=
  Update_meshes t

theorem Node_Update_effect_witness :
    (∀ m ∈ NodeTree.sample.Update.meshes, m.pushConstantsBlock.modelMatrix = 1)
    ∧ NodeTree.sample.Update.meshes.length = 2
    ∧ NodeTree.sample.meshes.map (fun m => m.bb) = [BoundingBox.unset, BoundingBox.sample]
    ∧ NodeTree.sample.Update.meshes.map (fun m => m.bb)
        = [BoundingBox.unset, BoundingBox.sample] :=
  ⟨(Node_Update_effect NodeTree.sample).1, rfl, rfl, rfl⟩

/-! ### Bounding box of a loaded sub-mesh -/

theorem loadPrimitive_bb (p : GltfPrimitive) (indexBuffer : List Nat)
    (vertexBuffer : List VertexValue) (r : List Nat × List VertexValue × Primitive)
    (h : LoadNodeFromGLTF.loadPrimitive p indexBuffer vertexBuffer = some r) :
    r.2.2.bb = { min := Vec3.ofDoubles p.position.minValues,
                 max := Vec3.ofDoubles p.position.maxValues, valid := true } := by
  unfold LoadNodeFromGLTF.loadPrimitive at h
  simp only [] at h
  split at h
  · simp at h
  · simp only [Option.some.injEq] at h
    rw [← h]
    rfl

theorem loadPrimitive_isSome (p : GltfPrimitive) (indexBuffer : List Nat)
    (vertexBuffer : List VertexValue) (hsup : p.supported = true) :
    ∃ r, LoadNodeFromGLTF.loadPrimitive p indexBuffer vertexBuffer = some r := by
  cases hidx : p.indices with
  | none =>
      unfold LoadNodeFromGLTF.loadPrimitive
      simp [hidx]
  | some accessor =>
      exact ⟨_, loadPrimitive_indexed p accessor indexBuffer vertexBuffer hidx hsup⟩

theorem loadPrimitives_boxes (gltf : List GltfPrimitive) (hsup : ∀ p ∈ gltf, p.supported = true) :
    ∀ (indexBuffer : List Nat) (vertexBuffer : List VertexValue) (primitives : List Primitive),
      ∃ r, LoadNodeFromGLTF.loadPrimitives gltf indexBuffer vertexBuffer primitives = some r
        ∧ r.2.2.map (fun q => q.bb)
            = primitives.map (fun q => q.bb)
              ++ gltf.map (fun p =>
                  ({ min := Vec3.ofDoubles p.position.minValues,
                     max := Vec3.ofDoubles p.position.maxValues,
                     valid := true } : BoundingBox)) := by
  induction gltf with
  | nil =>
      intro indexBuffer vertexBuffer primitives
      exact ⟨_, rfl, by simp⟩
  | cons p rest ih =>
      intro indexBuffer vertexBuffer primitives
      obtain ⟨r1, h1⟩ := loadPrimitive_isSome p indexBuffer vertexBuffer
        (hsup p (List.mem_cons_self p rest))
      have hbb := loadPrimitive_bb p indexBuffer vertexBuffer r1 h1
      obtain ⟨r, h2, h3⟩ := ih (fun q hq => hsup q (List.mem_cons_of_mem p hq)) r1.1 r1.2.1
        (primitives ++ [r1.2.2])
      refine ⟨r, ?_, ?_⟩
      · simp only [LoadNodeFromGLTF.loadPrimitives, h1]
        exact h2
      · rw [h3]
        simp [hbb]

/-- The union loop depends on the primitives only through their boxes. -/


theorem foldl_min_spec (l : List ℚ) (a : ℚ) :
    l.foldl min a ≤ a ∧ (∀ b ∈ l, l.foldl min a ≤ b)
      ∧ (l.foldl min a = a ∨ l.foldl min a ∈ l) := by
  induction l generalizing a with
  | nil => simp
  | cons c cs ih =>
      obtain ⟨h1, h2, h3⟩ := ih (min a c)
      simp only [List.foldl_cons]
      refine ⟨le_trans h1 (min_le_left _ _), ?_, ?_⟩
      · intro b hb
        rcases List.mem_cons.mp hb with rfl | hb
        · exact le_trans h1 (min_le_right _ _)
        · exact h2 b hb
      · rcases h3 with h3 | h3
        · rcases min_choice a c with hc | hc
          · left; rw [h3, hc]
          · right; rw [h3, hc]; exact List.mem_cons_self _ _
        · right; exact List.mem_cons_of_mem _ h3

theorem foldl_max_spec (l : List ℚ) (a : ℚ) :
    a ≤ l.foldl max a ∧ (∀ b ∈ l, b ≤ l.foldl max a)
      ∧ (l.foldl max a = a ∨ l.foldl max a ∈ l) := by
  induction l generalizing a with
  | nil => simp
  | cons c cs ih =>
      obtain ⟨h1, h2, h3⟩ := ih (max a c)
      simp only [List.foldl_cons]
      refine ⟨le_trans (le_max_left _ _) h1, ?_, ?_⟩
      · intro b hb
        rcases List.mem_cons.mp hb with rfl | hb
        · exact le_trans (le_max_right _ _) h1
        · exact h2 b hb
      · rcases h3 with h3 | h3
        · rcases max_choice a c with hc | hc
          · left; rw [h3, hc]
          · right; rw [h3, hc]; exact List.mem_cons_self _ _
        · right; exact List.mem_cons_of_mem _ h3

/-- The union loop from a valid box, in closed form over the boxes. -/
theorem unionBoxes_valid (ps : List Primitive) (bb : BoundingBox) (hbb : bb.valid = true) :
    LoadNodeFromGLTF.unionBoxes ps bb
      = { min := (ps.map (fun q => q.bb)).foldl (fun acc b => Vec3.min acc b.min) bb.min,
          max := (ps.map (fun q => q.bb)).foldl (fun acc b => Vec3.max acc b.max) bb.max,
          valid := true } := by
  induction ps generalizing bb with
  | nil =>
      cases bb with
      | mk mn mx v =>
          simp only [] at hbb
          simp [LoadNodeFromGLTF.unionBoxes, hbb]
  | cons p ps ih =>
      simp only [LoadNodeFromGLTF.unionBoxes, hbb, Bool.not_true, Bool.and_false,
        Bool.false_eq_true, if_false]
      rw [ih _ rfl]
      simp

theorem unionBoxes_first (p : Primitive) (ps : List Primitive) (bb : BoundingBox)
    (hbb : bb.valid = false) (hp : p.bb.valid = true) :
    LoadNodeFromGLTF.unionBoxes (p :: ps) bb
      = { min := (ps.map (fun q => q.bb)).foldl (fun acc b => Vec3.min acc b.min) p.bb.min,
          max := (ps.map (fun q => q.bb)).foldl (fun acc b => Vec3.max acc b.max) p.bb.max,
          valid := true } := by
  simp only [LoadNodeFromGLTF.unionBoxes, hbb, hp, Bool.not_false, Bool.and_self, if_true]
  rw [unionBoxes_valid _ _ rfl]
  simp [Vec3.min, Vec3.max]

theorem foldl_Vec3_min_x (bs : List BoundingBox) (a : Vec3) :
    (bs.foldl (fun acc b => Vec3.min acc b.min) a).x = (bs.map (fun b => b.min.x)).foldl min a.x
    ∧ (bs.foldl (fun acc b => Vec3.min acc b.min) a).y
        = (bs.map (fun b => b.min.y)).foldl min a.y
    ∧ (bs.foldl (fun acc b => Vec3.min acc b.min) a).z
        = (bs.map (fun b => b.min.z)).foldl min a.z := by
  induction bs generalizing a with
  | nil => simp
  | cons b bs ih =>
      simp only [List.foldl_cons, List.map_cons]
      obtain ⟨h1, h2, h3⟩ := ih (Vec3.min a b.min)
      exact ⟨h1, h2, h3⟩

theorem foldl_Vec3_max_x (bs : List BoundingBox) (a : Vec3) :
    (bs.foldl (fun acc b => Vec3.max acc b.max) a).x = (bs.map (fun b => b.max.x)).foldl max a.x
    ∧ (bs.foldl (fun acc b => Vec3.max acc b.max) a).y
        = (bs.map (fun b => b.max.y)).foldl max a.y
    ∧ (bs.foldl (fun acc b => Vec3.max acc b.max) a).z
        = (bs.map (fun b => b.max.z)).foldl max a.z := by
  induction bs generalizing a with
  | nil => simp
  | cons b bs ih =>
      simp only [List.foldl_cons, List.map_cons]
      obtain ⟨h1, h2, h3⟩ := ih (Vec3.max a b.max)
      exact ⟨h1, h2, h3⟩

/-- The union of a non-empty list of valid boxes: componentwise bounds, each
attained by one of the boxes. -/
theorem union_of_boxes_spec (b : BoundingBox) (bs : List BoundingBox) :
    (∀ c ∈ b :: bs, Vec3.le (bs.foldl (fun acc b => Vec3.min acc b.min) b.min) c.min)
    ∧ (∃ c ∈ b :: bs, (bs.foldl (fun acc b => Vec3.min acc b.min) b.min).x = c.min.x)
    ∧ (∃ c ∈ b :: bs, (bs.foldl (fun acc b => Vec3.min acc b.min) b.min).y = c.min.y)
    ∧ (∃ c ∈ b :: bs, (bs.foldl (fun acc b => Vec3.min acc b.min) b.min).z = c.min.z)
    ∧ (∀ c ∈ b :: bs, Vec3.le c.max (bs.foldl (fun acc b => Vec3.max acc b.max) b.max))
    ∧ (∃ c ∈ b :: bs, (bs.foldl (fun acc b => Vec3.max acc b.max) b.max).x = c.max.x)
    ∧ (∃ c ∈ b :: bs, (bs.foldl (fun acc b => Vec3.max acc b.max) b.max).y = c.max.y)
    ∧ (∃ c ∈ b :: bs, (bs.foldl (fun acc b => Vec3.max acc b.max) b.max).z = c.max.z) := by
  obtain ⟨mx, my, mz⟩ := foldl_Vec3_min_x bs b.min
  obtain ⟨Mx, My, Mz⟩ := foldl_Vec3_max_x bs b.max
  have sx := foldl_min_spec (bs.map (fun b => b.min.x)) b.min.x
  have sy := foldl_min_spec (bs.map (fun b => b.min.y)) b.min.y
  have sz := foldl_min_spec (bs.map (fun b => b.min.z)) b.min.z
  have tx := foldl_max_spec (bs.map (fun b => b.max.x)) b.max.x
  have ty := foldl_max_spec (bs.map (fun b => b.max.y)) b.max.y
  have tz := foldl_max_spec (bs.map (fun b => b.max.z)) b.max.z
  have attain : ∀ (f : BoundingBox → ℚ) (v : ℚ),
      (v = f b ∨ v ∈ bs.map f) → ∃ c ∈ b :: bs, v = f c := by
    intro f v h
    rcases h with h | h
    · exact ⟨b, List.mem_cons_self _ _, h⟩
    · obtain ⟨c, hc, rfl⟩ := List.mem_map.mp h
      exact ⟨c, List.mem_cons_of_mem _ hc, rfl⟩
  refine ⟨?_, ?_, ?_, ?_, ?_, ?_, ?_, ?_⟩
  · intro c hc
    rcases List.mem_cons.mp hc with rfl | hc
    · exact ⟨by rw [mx]; exact sx.1, by rw [my]; exact sy.1, by rw [mz]; exact sz.1⟩
    · exact ⟨by rw [mx]; exact sx.2.1 _ (List.mem_map_of_mem _ hc),
        by rw [my]; exact sy.2.1 _ (List.mem_map_of_mem _ hc),
        by rw [mz]; exact sz.2.1 _ (List.mem_map_of_mem _ hc)⟩
  · rw [mx]; exact attain (fun b => b.min.x) _ sx.2.2
  · rw [my]; exact attain (fun b => b.min.y) _ sy.2.2
  · rw [mz]; exact attain (fun b => b.min.z) _ sz.2.2
  · intro c hc
    rcases List.mem_cons.mp hc with rfl | hc
    · exact ⟨by rw [Mx]; exact tx.1, by rw [My]; exact ty.1, by rw [Mz]; exact tz.1⟩
    · exact ⟨by rw [Mx]; exact tx.2.1 _ (List.mem_map_of_mem _ hc),
        by rw [My]; exact ty.2.1 _ (List.mem_map_of_mem _ hc),
        by rw [Mz]; exact tz.2.1 _ (List.mem_map_of_mem _ hc)⟩
  · rw [Mx]; exact attain (fun b => b.max.x) _ tx.2.2
  · rw [My]; exact attain (fun b => b.max.y) _ ty.2.2
  · rw [Mz]; exact attain (fun b => b.max.z) _ tz.2.2


theorem unionBoxes_of_boxes (loaded : List Primitive) (b : BoundingBox)
    (bs : List BoundingBox) (bb0 : BoundingBox) (hbb0 : bb0.valid = false)
    (hb : b.valid = true) (h : loaded.map (fun q => q.bb) = b :: bs) :
    LoadNodeFromGLTF.unionBoxes loaded bb0
      = { min := bs.foldl (fun acc c => Vec3.min acc c.min) b.min,
          max := bs.foldl (fun acc c => Vec3.max acc c.max) b.max,
          valid := true } := by
  cases loaded with
  | nil => simp at h
  | cons l ls =>
      simp only [List.map_cons, List.cons.injEq] at h
      obtain ⟨h1, h2⟩ := h
      rw [unionBoxes_first l ls bb0 hbb0 (by rw [h1]; exact hb), h1, h2]

/-- The sub-mesh box `loadMesh` builds, in closed form over the boxes of the
glTF primitives. -/
theorem loadMesh_eq (g : GltfPrimitive) (gs : List GltfPrimitive) (matrix : Mat4)
    (initial : BoundingBox) (indexBuffer : List Nat) (vertexBuffer : List VertexValue)
    (hsup : ∀ p ∈ g :: gs, p.supported = true) :
    ∃ r, LoadNodeFromGLTF.loadMesh (g :: gs) matrix initial indexBuffer vertexBuffer = some r
      ∧ r.2.2.bb
        = { min := (gs.map (fun p =>
                BoundingBox.mk (Vec3.ofDoubles p.position.minValues)
                (Vec3.ofDoubles p.position.maxValues) true)).foldl
                  (fun acc c => Vec3.min acc c.min) (Vec3.ofDoubles g.position.minValues),
            max := (gs.map (fun p =>
                BoundingBox.mk (Vec3.ofDoubles p.position.minValues)
                (Vec3.ofDoubles p.position.maxValues) true)).foldl
                  (fun acc c => Vec3.max acc c.max) (Vec3.ofDoubles g.position.maxValues),
            valid := true } := by
  obtain ⟨r, h1, h2⟩ := loadPrimitives_boxes (g :: gs) hsup indexBuffer vertexBuffer []
  simp only [List.map_nil, List.nil_append, List.map_cons] at h2
  unfold LoadNodeFromGLTF.loadMesh
  simp only [Mesh.new] at h1 ⊢
  rw [h1]
  refine ⟨_, rfl, ?_⟩
  exact unionBoxes_of_boxes r.2.2 _ _ _ rfl rfl h2


theorem Int_log_two_eq (r : ℚ) (k : ℤ) (h1 : (2 : ℚ) ^ k ≤ r) (h2 : r < (2 : ℚ) ^ (k + 1)) :
    Int.log 2 r = k := by
  have hr : 0 < r := lt_of_lt_of_le (by positivity) h1
  have ha : k ≤ Int.log 2 r := by
    have := (Int.zpow_le_iff_le_log (b := 2) (by norm_num) hr (x := k)).mp (by exact_mod_cast h1)
    exact this
  have hb : Int.log 2 r < k + 1 := by
    have := (Int.lt_zpow_iff_log_lt (b := 2) (by norm_num) hr (x := k + 1)).mp
      (by exact_mod_cast h2)
    exact this
  omega

theorem roundHalfEven_eq_of_lt (q : ℚ) (n : ℤ) (h1 : (n : ℚ) - 1 / 2 < q)
    (h2 : q < (n : ℚ) + 1 / 2) : roundHalfEven q = n := by
  unfold roundHalfEven
  simp only []
  by_cases hq : (n : ℚ) ≤ q
  · have hf : ⌊q⌋ = n := Int.floor_eq_iff.mpr ⟨hq, by linarith⟩
    rw [hf, if_pos (by linarith)]
  · have hq2 : q < n := lt_of_not_le hq
    have hf : ⌊q⌋ = n - 1 := Int.floor_eq_iff.mpr ⟨by push_cast; linarith, by push_cast; linarith⟩
    rw [hf]
    have hn1 : ¬ (q - ((n - 1 : ℤ) : ℚ) < 1 / 2) := by push_cast; linarith
    have hn2 : 1 / 2 < q - ((n - 1 : ℤ) : ℚ) := by push_cast; linarith
    rw [if_neg hn1, if_pos hn2]
    omega

theorem toFloat_doubleTenth : toFloat doubleTenth = 13421773 / 134217728 := by
  have hlog : Int.log 2 |doubleTenth| = -4 := by
    apply Int_log_two_eq
    · rw [abs_of_pos (by norm_num [doubleTenth])]; norm_num [doubleTenth]
    · rw [abs_of_pos (by norm_num [doubleTenth])]; norm_num [doubleTenth]
  unfold toFloat
  simp only [hlog]
  have hmax : max (-4 : ℤ) (-126) = -4 := by decide
  rw [hmax]
  have hr : roundHalfEven (doubleTenth / 2 ^ ((-4 : ℤ) - 23)) = 13421773 := by
    apply roundHalfEven_eq_of_lt <;> norm_num [doubleTenth]
  rw [hr]
  norm_num

/-- C24 as amended: for a glTF mesh of at least one primitive, all of supported
index types and with POSITION bounds within the range of `float`,
`LoadNodeFromGLTF` builds a sub-mesh whose box is valid and is the union of the
primitives' boxes: `bb.min` is below the `minValues`, converted to `float`, of
every primitive and each of its components is that component of one of them,
`bb.max` is above the converted `maxValues` of every primitive and each of its
components is that component of one of them, and the box is the same whatever
the fresh sub-mesh box held. -/
theorem loadMesh_bounding_box (primitives : List GltfPrimitive) (matrix : Mat4)
    (initial : BoundingBox) (indexBuffer : List Nat) (vertexBuffer : List VertexValue)
    (hne : primitives ≠ []) (hsup : ∀ p ∈ primitives, p.supported = true)
    (hrange : ∀ p ∈ primitives,
      p.position.minValues.inFloatRange ∧ p.position.maxValues.inFloatRange) :
    ∃ r, LoadNodeFromGLTF.loadMesh primitives matrix initial indexBuffer vertexBuffer = some r
      ∧ r.2.2.bb.valid = true
      ∧ (∀ p ∈ primitives, Vec3.le r.2.2.bb.min (Vec3.ofDoubles p.position.minValues))
      ∧ (∃ p ∈ primitives, r.2.2.bb.min.x = toFloat p.position.minValues.x)
      ∧ (∃ p ∈ primitives, r.2.2.bb.min.y = toFloat p.position.minValues.y)
      ∧ (∃ p ∈ primitives, r.2.2.bb.min.z = toFloat p.position.minValues.z)
      ∧ (∀ p ∈ primitives, Vec3.le (Vec3.ofDoubles p.position.maxValues) r.2.2.bb.max)
      ∧ (∃ p ∈ primitives, r.2.2.bb.max.x = toFloat p.position.maxValues.x)
      ∧ (∃ p ∈ primitives, r.2.2.bb.max.y = toFloat p.position.maxValues.y)
      ∧ (∃ p ∈ primitives, r.2.2.bb.max.z = toFloat p.position.maxValues.z)
      ∧ (∀ other : BoundingBox,
          (LoadNodeFromGLTF.loadMesh primitives matrix other indexBuffer vertexBuffer).map
            (fun s => s.2.2.bb) = some r.2.2.bb) := by
  cases primitives with
  | nil => exact absurd rfl hne
  | cons g gs =>
      obtain ⟨r, h1, h2⟩ := loadMesh_eq g gs matrix initial indexBuffer vertexBuffer hsup
      obtain ⟨s1, s2, s3, s4, s5, s6, s7, s8⟩ := union_of_boxes_spec
        (BoundingBox.mk (Vec3.ofDoubles g.position.minValues)
                (Vec3.ofDoubles g.position.maxValues) true)
        (gs.map (fun p => BoundingBox.mk (Vec3.ofDoubles p.position.minValues)
                (Vec3.ofDoubles p.position.maxValues) true))
      have mem : ∀ c ∈ BoundingBox.mk (Vec3.ofDoubles g.position.minValues)
                (Vec3.ofDoubles g.position.maxValues) true
            :: gs.map (fun p => BoundingBox.mk (Vec3.ofDoubles p.position.minValues)
                (Vec3.ofDoubles p.position.maxValues) true),
          ∃ p ∈ g :: gs, c = BoundingBox.mk (Vec3.ofDoubles p.position.minValues)
                (Vec3.ofDoubles p.position.maxValues) true := by
        intro c hc
        rcases List.mem_cons.mp hc with rfl | hc
        · exact ⟨g, List.mem_cons_self _ _, rfl⟩
        · obtain ⟨p, hp, rfl⟩ := List.mem_map.mp hc
          exact ⟨p, List.mem_cons_of_mem _ hp, rfl⟩
      have box : ∀ p ∈ g :: gs, BoundingBox.mk (Vec3.ofDoubles p.position.minValues)
                (Vec3.ofDoubles p.position.maxValues) true
          ∈ BoundingBox.mk (Vec3.ofDoubles g.position.minValues)
                (Vec3.ofDoubles g.position.maxValues) true
            :: gs.map (fun p => BoundingBox.mk (Vec3.ofDoubles p.position.minValues)
                (Vec3.ofDoubles p.position.maxValues) true) := by
        intro p hp
        rcases List.mem_cons.mp hp with rfl | hp
        · exact List.mem_cons_self _ _
        · exact List.mem_cons_of_mem _ (List.mem_map_of_mem _ hp)
      have pick : ∀ (f : BoundingBox → ℚ) (v : ℚ),
          (∃ c ∈ BoundingBox.mk (Vec3.ofDoubles g.position.minValues)
                (Vec3.ofDoubles g.position.maxValues) true
              :: gs.map (fun p => BoundingBox.mk (Vec3.ofDoubles p.position.minValues)
                (Vec3.ofDoubles p.position.maxValues) true),
            v = f c) →
          ∃ p ∈ g :: gs,
            v = f (BoundingBox.mk (Vec3.ofDoubles p.position.minValues)
                (Vec3.ofDoubles p.position.maxValues) true) := by
        intro f v h
        obtain ⟨c, hc, hv⟩ := h
        obtain ⟨p, hp, rfl⟩ := mem c hc
        exact ⟨p, hp, hv⟩
      refine ⟨r, h1, ?_, ?_, ?_, ?_, ?_, ?_, ?_, ?_, ?_, ?_⟩
      · rw [h2]
      · intro p hp
        rw [h2]
        exact s1 _ (box p hp)
      · rw [h2]; exact pick (fun c => c.min.x) _ s2
      · rw [h2]; exact pick (fun c => c.min.y) _ s3
      · rw [h2]; exact pick (fun c => c.min.z) _ s4
      · intro p hp
        rw [h2]
        exact s5 _ (box p hp)
      · rw [h2]; exact pick (fun c => c.max.x) _ s6
      · rw [h2]; exact pick (fun c => c.max.y) _ s7
      · rw [h2]; exact pick (fun c => c.max.z) _ s8
      · intro other
        obtain ⟨r2, h3, h4⟩ := loadMesh_eq g gs matrix other indexBuffer vertexBuffer hsup
        rw [h3, Option.map_some', h4, h2]

theorem loadMesh_bounding_box_witness :
    ([GltfPrimitive.sample, GltfPrimitive.sample2] ≠ []
      ∧ (∀ p ∈ [GltfPrimitive.sample, GltfPrimitive.sample2], p.supported = true)
      ∧ ∀ p ∈ [GltfPrimitive.sample, GltfPrimitive.sample2],
          p.position.minValues.inFloatRange ∧ p.position.maxValues.inFloatRange)
    ∧ ∃ r, LoadNodeFromGLTF.loadMesh [GltfPrimitive.sample, GltfPrimitive.sample2] 1
          BoundingBox.sample [] [] = some r
        ∧ r.2.2.bb.valid = true
        ∧ (∀ p ∈ [GltfPrimitive.sample, GltfPrimitive.sample2],
            Vec3.le r.2.2.bb.min (Vec3.ofDoubles p.position.minValues))
        ∧ ∀ other : BoundingBox,
            (LoadNodeFromGLTF.loadMesh [GltfPrimitive.sample, GltfPrimitive.sample2] 1
              other [] []).map (fun s => s.2.2.bb) = some r.2.2.bb :=
  ⟨⟨by simp, by
      intro p hp
      simp only [List.mem_cons, List.mem_singleton, List.not_mem_nil, or_false] at hp
      rcases hp with rfl | rfl <;> rfl, by
      intro p hp
      simp only [List.mem_cons, List.mem_singleton, List.not_mem_nil, or_false] at hp
      rcases hp with rfl | rfl <;>
        norm_num [Vec3.inFloatRange, FLT_MAX, GltfPrimitive.sample, GltfPrimitive.sample2]⟩,
   match loadMesh_bounding_box [GltfPrimitive.sample, GltfPrimitive.sample2] 1
      BoundingBox.sample [] [] (by simp)
      (by
        intro p hp
        simp only [List.mem_cons, List.mem_singleton, List.not_mem_nil, or_false] at hp
        rcases hp with rfl | rfl <;> rfl)
      (by
        intro p hp
        simp only [List.mem_cons, List.mem_singleton, List.not_mem_nil, or_false] at hp
        rcases hp with rfl | rfl <;>
          norm_num [Vec3.inFloatRange, FLT_MAX, GltfPrimitive.sample,
            GltfPrimitive.sample2]) with
   | ⟨r, h1, h2, h3, _, _, _, _, _, _, _, h4⟩ => ⟨r, h1, h2, h3, h4⟩⟩

/-- C24 as stated fails: for a primitive whose POSITION `minValues` has the x
component 0.1 (the double nearest to it), the sub-mesh box has `bb.min.x` equal
to the `float` nearest to 0.1, `13421773 / 2^27`, which is not that value and
lies above it. -/
theorem loadMesh_box_is_narrowed :
    GltfPrimitive.sampleTenth.position.minValues.x = 3602879701896397 / 2 ^ 55
    ∧ (LoadNodeFromGLTF.loadMesh [GltfPrimitive.sampleTenth] 1 BoundingBox.sample [] []).map
        (fun s => s.2.2.bb.min.x) = some (13421773 / 2 ^ 27)
    ∧ GltfPrimitive.sampleTenth.position.minValues.x < 13421773 / 2 ^ 27 := by
  refine ⟨by norm_num [GltfPrimitive.sampleTenth, doubleTenth], ?_,
    by norm_num [GltfPrimitive.sampleTenth, doubleTenth]⟩
  obtain ⟨r, h1, h2⟩ := loadMesh_eq GltfPrimitive.sampleTenth [] 1 BoundingBox.sample [] []
    (by
      intro p hp
      simp only [List.mem_singleton] at hp
      rw [hp]
      rfl)
  rw [h1, Option.map_some', h2]
  have h3 : toFloat GltfPrimitive.sampleTenth.position.minValues.x = 13421773 / 2 ^ 27 := by
    have : GltfPrimitive.sampleTenth.position.minValues.x = doubleTenth := rfl
    rw [this, toFloat_doubleTenth]
    norm_num
  simpa [Vec3.ofDoubles] using h3

end ez

namespace Ride

/-- C27: for every combination of arguments `VulkanDebugCallback` returns
`VK_FALSE` (zero) and prints exactly one line, which contains the message. -/
theorem VulkanDebugCallback_returns_false (flags objType obj location : Nat) (code : Int)
    (layerPrefix msg : String) (userData : Nat) :
    (VulkanDebugCallback flags objType obj location code layerPrefix msg userData).1 = VK_FALSE
    ∧ VK_FALSE = 0
    ∧ (VulkanDebugCallback flags objType obj location code layerPrefix msg userData).2
        = ["VULKAN VALIDATION: " ++ msg ++ "\n"]
    ∧ ∃ line before after,
        (VulkanDebugCallback flags objType obj location code layerPrefix msg userData).2 = [line]
          ∧ line = before ++ msg ++ after :=
  ⟨rfl, rfl, rfl, _, "VULKAN VALIDATION: ", "\n", rfl, rfl⟩

end Ride
